import Mathlib

/-!
Hint selection of warpd (`src/hint.c`).

A shallow embedding of the hint core of warpd: the prefix filters, the two
selection loops, the grid generator and the hint builders of `sift`,
`hintspec_mode` and `history_hint_mode`, followed by the properties proved
about them.

Conventions of the embedding.

* A C string is modelled by its contents, a `List Nat` of bytes without the
  terminating NUL. A `char` array (the 32-byte `buf`) is the list of all its
  bytes, NUL bytes included; `cstr` reads the string stored in it.
* C `int` values are `Int`, `/` is truncating division (`Int.tdiv`); sizes and
  indices (`size_t`) are `Nat`. Arithmetic overflow is not modelled.
* `MAX_HINTS` is defined in `warpd.h`, which is not part of the sources at
  hand; every function that mentions it takes it as a parameter.
* Calls through the `platform` table are recorded, in call order, in the
  `calls` field of the global state.
* The blocking event loop is run over a finite list of events: it either
  returns, or is left waiting for the next event, or performs an access
  outside `buf` (`fault`).
-/

namespace Warpd

/-! ## C strings -/

/-- The string stored in a byte array: the bytes before the first NUL. -/
def cstr (bytes : List Nat) : List Nat :=
  bytes.takeWhile (fun b => b != 0)

/-- `strlen` on a byte array: `none` when the array holds no NUL, so that the
scan would leave the array. -/
def strlen (bytes : List Nat) : Option Nat :=
  if 0 ∈ bytes then some (cstr bytes).length else none

/-- `a[i] = v` on a byte array: `none` when `i` lies outside the array. -/
def store (bytes : List Nat) (i v : Nat) : Option (List Nat) :=
  if i < bytes.length then some (bytes.set i v) else none

/-- `s[i]` for a C string given by its contents; the terminator reads as 0. -/
def cchar (s : List Nat) (i : Nat) : Nat :=
  s.getD i 0

/-- `strstr(haystack, needle)` as the offset of the first occurrence of
`needle` in `haystack`, `none` for a NULL result. -/
def strstr : List Nat → List Nat → Option Nat
  | [], needle => if needle.isPrefixOf [] then some 0 else none
  | c :: hay, needle =>
    if needle.isPrefixOf (c :: hay) then some 0
    else (strstr hay needle).map (fun k => k + 1)

/-- `strncmp(a, b, n)`: compares at most `n` characters, stopping at a
difference or at the end of both strings. -/
def strncmp : List Nat → List Nat → Nat → Int
  | _, _, 0 => 0
  | a, b, n + 1 =>
    if a.headD 0 ≠ b.headD 0 then (a.headD 0 : Int) - (b.headD 0 : Int)
    else if a.headD 0 = 0 then 0
    else strncmp a.tail b.tail n

/-! ## Data model -/

/-- Model of `struct hint`. -/
structure hint where
  x : Int
  y : Int
  w : Int
  h : Int
  label : List Nat
  deriving DecidableEq, Repr

/-- Calls made through the `platform` table (and `config_input_whitelist`). A
`screen_t` handle is a `Nat`; in the multi-surface path the handle of
`screens[i]` is `i`. -/
inductive Call where
  | screen_clear (scr : Nat)
  | hint_draw (scr : Nat) (hs : List hint)
  | commit
  | input_grab_keyboard
  | input_ungrab_keyboard
  | mouse_hide
  | mouse_show
  | config_input_whitelist
  | mouse_move (scr : Nat) (x : Int) (y : Int)
  deriving DecidableEq, Repr

/-- File-scope state of `hint.c`: `hints`/`nr_hints`, the first `nr_matched`
entries of `matched` and `matched_indices`, `last_selected_hint`, and the
platform calls made so far. -/
structure Globals where
  hints : List hint
  matched : List hint
  matched_indices : List Nat
  last_selected_hint : List Nat
  calls : List Call
  deriving DecidableEq, Repr

/-- What the loops read from a `struct input_event`: the `pressed` flag, the
results of `config_input_match` for the three actions, and the result of
`input_event_tostr` (`none` for NULL, otherwise the key name, a non-empty
string). -/
structure input_event where
  pressed : Bool
  hint_exit : Bool
  hint_undo_all : Bool
  hint_undo : Bool
  name : Option (List Nat)
  deriving DecidableEq, Repr

/-! ## `filter` (lines 18-31) -/

/-- The `for` loop of `filter`: `hs` are the hints not yet visited, `matched`
the entries written so far. -/
def filter_loop (s : List Nat) : List hint → List hint → List hint
  | [], matched => matched
  | h :: hs, matched =>
    if strstr h.label s = some 0 then filter_loop s hs (matched ++ [h])
    else filter_loop s hs matched

/-- Model of `filter(scr, s)`. -/
def filter (scr : Nat) (s : List Nat) (g : Globals) : Globals :=
  let matched := filter_loop s g.hints []
  { g with
    matched := matched
    calls := g.calls ++ [Call.screen_clear scr, Call.hint_draw scr matched, Call.commit] }

/-! ## `draw_hints_on_all_screens` (lines 158-203) -/

/-- The test `filter_str[0] == 0 || strncmp(label, filter_str, strlen(filter_str)) == 0`. -/
def label_matches (label filter_str : List Nat) : Bool :=
  cchar filter_str 0 == 0 || strncmp label filter_str filter_str.length == 0

/-- The inner loop over `j` of the drawing pass for screen `i`: `hs` are the
hints from index `j` on. -/
def screen_hints_loop (hint_screen_x : List Nat) (filter_str : List Nat) (i : Nat) :
    Nat → List hint → List hint → List hint
  | _, [], screen_hints => screen_hints
  | j, h :: hs, screen_hints =>
    if hint_screen_x.getD j 0 = i then
      if label_matches h.label filter_str then
        screen_hints_loop hint_screen_x filter_str i (j + 1) hs (screen_hints ++ [h])
      else screen_hints_loop hint_screen_x filter_str i (j + 1) hs screen_hints
    else screen_hints_loop hint_screen_x filter_str i (j + 1) hs screen_hints

/-- The drawing pass: for the screens `i, i+1, ...` (`remaining` of them). -/
def draw_screens_loop (hint_screen_x : List Nat) (filter_str : List Nat) (hints : List hint) :
    Nat → Nat → List Call → List Call
  | 0, _, calls => calls
  | remaining + 1, i, calls =>
    let screen_hints := screen_hints_loop hint_screen_x filter_str i 0 hints []
    if 0 < screen_hints.length then
      draw_screens_loop hint_screen_x filter_str hints remaining (i + 1)
        (calls ++ [Call.hint_draw i screen_hints])
    else draw_screens_loop hint_screen_x filter_str hints remaining (i + 1) calls

/-- The global matching loop (lines 192-200): `hs` are the hints from index
`i` on. -/
def matched_loop (MAX_HINTS : Nat) (filter_str : List Nat) :
    Nat → List hint → List hint × List Nat → List hint × List Nat
  | _, [], m => m
  | i, h :: hs, m =>
    if m.1.length < MAX_HINTS then
      if label_matches h.label filter_str then
        matched_loop MAX_HINTS filter_str (i + 1) hs (m.1 ++ [h], m.2 ++ [i])
      else matched_loop MAX_HINTS filter_str (i + 1) hs m
    else m

/-- Model of `draw_hints_on_all_screens(filter_str)`. -/
def draw_hints_on_all_screens (MAX_HINTS screen_count : Nat) (hint_screen_x : List Nat)
    (filter_str : List Nat) (g : Globals) : Globals :=
  let cleared := g.calls ++ (List.range screen_count).map Call.screen_clear
  let drawn := draw_screens_loop hint_screen_x filter_str g.hints screen_count 0 cleared
  let m := matched_loop MAX_HINTS filter_str 0 g.hints ([], [])
  { g with
    matched := m.1
    matched_indices := m.2
    calls := drawn ++ [Call.commit] }

/-! ## The selection loops -/

/-- Locals of a selection loop that live across iterations, with the
file-scope state. `rc` stays 0 until the loop is left. -/
structure Loop where
  g : Globals
  buf : List Nat
  deriving DecidableEq, Repr

/-- Result of the key handling at the head of the loop body. -/
inductive Keyed where
  | exit
  | ignored
  | edited (buf : List Nat)
  | fault
  deriving DecidableEq, Repr

/-- Result of one pass through a loop body. -/
inductive Step where
  | next (l : Loop)
  | brk (rc : Int) (l : Loop)
  | fault
  deriving DecidableEq, Repr

/-- Result of a session run over a finite list of events. -/
inductive Outcome where
  | returned (rc : Int) (g : Globals)
  | waiting (l : Loop)
  | fault
  deriving DecidableEq, Repr

/-- Wraps the result of a byte store. -/
def Keyed.ofStore : Option (List Nat) → Keyed
  | some buf => Keyed.edited buf
  | none => Keyed.fault

/-- Lines 341-361 of `hint_selection`: the event is dropped (`continue`),
leaves the loop (`hint_exit`), or edits `buf`. The appended character is
stored at `buf[len]`; this loop writes no terminator after it. -/
def hint_selection_key (buf : List Nat) (ev : input_event) : Keyed :=
  if !ev.pressed then Keyed.ignored
  else
    match strlen buf with
    | none => Keyed.fault
    | some len =>
      if ev.hint_exit then Keyed.exit
      else if ev.hint_undo_all then Keyed.ofStore (store buf 0 0)
      else if ev.hint_undo then
        if len ≠ 0 then Keyed.ofStore (store buf (len - 1) 0) else Keyed.edited buf
      else
        match ev.name with
        | none => Keyed.ignored
        | some name =>
          if cchar name 1 ≠ 0 then Keyed.ignored
          else Keyed.ofStore (store buf len (cchar name 0))

/-- Lines 232-253 of `hint_selection_multiscreen`: as above, but the appended
character is followed by a terminator at `buf[len + 1]`. -/
def hint_selection_multiscreen_key (buf : List Nat) (ev : input_event) : Keyed :=
  if !ev.pressed then Keyed.ignored
  else
    match strlen buf with
    | none => Keyed.fault
    | some len =>
      if ev.hint_exit then Keyed.exit
      else if ev.hint_undo_all then Keyed.ofStore (store buf 0 0)
      else if ev.hint_undo then
        if len ≠ 0 then Keyed.ofStore (store buf (len - 1) 0) else Keyed.edited buf
      else
        match ev.name with
        | none => Keyed.ignored
        | some name =>
          if cchar name 1 ≠ 0 then Keyed.ignored
          else
            match store buf len (cchar name 0) with
            | none => Keyed.fault
            | some buf1 => Keyed.ofStore (store buf1 (len + 1) 0)

/-- Lines 365-386 of `hint_selection`: what follows `filter(scr, buf)`. -/
def hint_selection_resolve (scr : Nat) (buf : List Nat) (g : Globals) : Step :=
  match g.matched with
  | [h] =>
    let nx := h.x + Int.tdiv h.w 2
    let ny := h.y + Int.tdiv h.h 2
    Step.brk 0
      { g := { g with
               calls := g.calls ++ [Call.screen_clear scr, Call.mouse_move scr (nx + 1) (ny + 1),
                 Call.mouse_move scr nx ny]
               last_selected_hint := cstr buf }
        buf := buf }
  | [] => Step.brk 0 { g := g, buf := buf }
  | _ => Step.next { g := g, buf := buf }

/-- One pass through the body of the `while (1)` loop of `hint_selection`.
`filter` reads `buf` as a string, which leaves the array when `buf` holds no
terminator. -/
def hint_selection_body (scr : Nat) (l : Loop) (ev : input_event) : Step :=
  match hint_selection_key l.buf ev with
  | Keyed.ignored => Step.next l
  | Keyed.fault => Step.fault
  | Keyed.exit => Step.brk (-1) l
  | Keyed.edited buf =>
    match strlen buf with
    | none => Step.fault
    | some _ => hint_selection_resolve scr buf (filter scr (cstr buf) l.g)

/-- Lines 389-394: what `hint_selection` does after the loop. -/
def hint_selection_exit (scr : Nat) (g : Globals) : Globals :=
  { g with
    calls := g.calls ++ [Call.input_ungrab_keyboard, Call.screen_clear scr, Call.mouse_show,
      Call.commit] }

/-- The `while (1)` loop of `hint_selection` over the events `evs`. -/
def hint_selection_loop (scr : Nat) : Loop → List input_event → Outcome
  | l, [] => Outcome.waiting l
  | l, ev :: evs =>
    match hint_selection_body scr l ev with
    | Step.next l1 => hint_selection_loop scr l1 evs
    | Step.brk rc l1 => Outcome.returned rc (hint_selection_exit scr l1.g)
    | Step.fault => Outcome.fault

/-- The state in which `hint_selection` enters its loop (lines 316-333). -/
def hint_selection_init (scr : Nat) (hints : List hint) (g : Globals) : Loop :=
  let g1 := filter scr [] { g with hints := hints }
  { g := { g1 with
           calls := g1.calls ++ [Call.input_grab_keyboard, Call.mouse_hide,
             Call.config_input_whitelist] }
    buf := List.replicate 32 0 }

/-- Model of `hint_selection(scr, _hints, _nr_hints)`. -/
def hint_selection (scr : Nat) (hints : List hint) (g : Globals) (evs : List input_event) :
    Outcome :=
  hint_selection_loop scr (hint_selection_init scr hints g) evs

/-- Lines 257-296 of `hint_selection_multiscreen`: what follows
`draw_hints_on_all_screens(buf)`. The entries of `hint_screen_x` are screen
indices, so they are kept as `Nat`; a NULL `target_screen` is the case of an
index that is not below `screen_count`. -/
def hint_selection_multiscreen_resolve (MAX_HINTS screen_count : Nat) (hint_screen_x : List Nat)
    (buf : List Nat) (g : Globals) : Step :=
  match g.matched with
  | [h] =>
    let hint_index := g.matched_indices.getD 0 0
    if hint_index ≥ MAX_HINTS then Step.brk 0 { g := g, buf := buf }
    else if hint_screen_x.getD hint_index 0 < screen_count then
      let target_screen := hint_screen_x.getD hint_index 0
      let nx := h.x + Int.tdiv h.w 2
      let ny := h.y + Int.tdiv h.h 2
      Step.brk 0
        { g := { g with
                 calls := g.calls ++ (List.range screen_count).map Call.screen_clear ++
                   [Call.mouse_move target_screen (nx + 1) (ny + 1),
                    Call.mouse_move target_screen nx ny]
                 last_selected_hint := cstr buf }
          buf := buf }
    else Step.brk 0 { g := g, buf := buf }
  | _ => Step.next { g := g, buf := buf }

/-- One pass through the body of the `while (1)` loop of
`hint_selection_multiscreen`. -/
def hint_selection_multiscreen_body (MAX_HINTS screen_count : Nat) (hint_screen_x : List Nat)
    (l : Loop) (ev : input_event) : Step :=
  match hint_selection_multiscreen_key l.buf ev with
  | Keyed.ignored => Step.next l
  | Keyed.fault => Step.fault
  | Keyed.exit => Step.brk (-1) l
  | Keyed.edited buf =>
    match strlen buf with
    | none => Step.fault
    | some _ =>
      hint_selection_multiscreen_resolve MAX_HINTS screen_count hint_screen_x buf
        (draw_hints_on_all_screens MAX_HINTS screen_count hint_screen_x (cstr buf) l.g)

/-- Lines 299-311: what `hint_selection_multiscreen` does after the loop. -/
def hint_selection_multiscreen_exit (screen_count : Nat) (g : Globals) : Globals :=
  { g with
    calls := g.calls ++ [Call.input_ungrab_keyboard] ++
      (List.range screen_count).map Call.screen_clear ++ [Call.mouse_show, Call.commit] }

/-- The `while (1)` loop of `hint_selection_multiscreen` over the events `evs`. -/
def hint_selection_multiscreen_loop (MAX_HINTS screen_count : Nat) (hint_screen_x : List Nat) :
    Loop → List input_event → Outcome
  | l, [] => Outcome.waiting l
  | l, ev :: evs =>
    match hint_selection_multiscreen_body MAX_HINTS screen_count hint_screen_x l ev with
    | Step.next l1 => hint_selection_multiscreen_loop MAX_HINTS screen_count hint_screen_x l1 evs
    | Step.brk rc l1 => Outcome.returned rc (hint_selection_multiscreen_exit screen_count l1.g)
    | Step.fault => Outcome.fault

/-- The state in which `hint_selection_multiscreen` enters its loop (lines
207-224). -/
def hint_selection_multiscreen_init (MAX_HINTS screen_count : Nat) (hint_screen_x : List Nat)
    (hints : List hint) (g : Globals) : Loop :=
  let g1 := draw_hints_on_all_screens MAX_HINTS screen_count hint_screen_x [] { g with hints := hints }
  { g := { g1 with
           calls := g1.calls ++ [Call.input_grab_keyboard, Call.mouse_hide,
             Call.config_input_whitelist] }
    buf := List.replicate 32 0 }

/-- Model of `hint_selection_multiscreen(_hints, _nr_hints)`; `screen_count`
is what `platform->screen_list` reports and `hint_screen_x` the file-scope
array of that name. -/
def hint_selection_multiscreen (MAX_HINTS screen_count : Nat) (hint_screen_x : List Nat)
    (hints : List hint) (g : Globals) (evs : List input_event) : Outcome :=
  hint_selection_multiscreen_loop MAX_HINTS screen_count hint_screen_x
    (hint_selection_multiscreen_init MAX_HINTS screen_count hint_screen_x hints g) evs

/-- The `mouse_move` calls among `calls`, in call order. -/
def mouse_moves (calls : List Call) : List Call :=
  calls.filter (fun c => match c with
    | Call.mouse_move _ _ _ => true
    | _ => false)

/-! ## `get_hint_size` and `generate_multiscreen_hints` (lines 33-156) -/

/-- Model of `get_hint_size`: `dims` is what `screen_get_dimensions` reports
for the screen, `hint_size` the configuration value of that name. -/
def get_hint_size (hint_size : Int) (dims : Int × Int) : Int × Int :=
  let sw := if dims.1 < dims.2 then dims.2 else dims.1
  let sh := if dims.1 < dims.2 then dims.1 else dims.2
  (Int.tdiv (sw * hint_size) 1000, Int.tdiv (sh * hint_size) 1000)

/-- Innermost loop of the 3-character branch (lines 87-96): `ks` are the
characters `chars[k], chars[k+1], ...` still to visit, `labels` the rows
written so far (`label_count = labels.length`). -/
def labels3_k (MAX_HINTS total_positions : Nat) (ci cj : Nat) :
    List Nat → List (List Nat) → List (List Nat)
  | [], labels => labels
  | ck :: ks, labels =>
    if labels.length < MAX_HINTS ∧ labels.length < total_positions then
      labels3_k MAX_HINTS total_positions ci cj ks (labels ++ [[ci, cj, ck]])
    else labels

/-- Middle loop of the 3-character branch (lines 83-97). -/
def labels3_j (MAX_HINTS total_positions : Nat) (chars : List Nat) (ci : Nat) :
    List Nat → List (List Nat) → List (List Nat)
  | [], labels => labels
  | cj :: js, labels =>
    if labels.length < MAX_HINTS ∧ labels.length < total_positions then
      labels3_j MAX_HINTS total_positions chars ci js
        (labels3_k MAX_HINTS total_positions ci cj chars labels)
    else labels

/-- Outer loop of the 3-character branch (lines 80-98). -/
def labels3_i (MAX_HINTS total_positions : Nat) (chars : List Nat) :
    List Nat → List (List Nat) → List (List Nat)
  | [], labels => labels
  | ci :: is, labels =>
    if labels.length < MAX_HINTS ∧ labels.length < total_positions then
      labels3_i MAX_HINTS total_positions chars is
        (labels3_j MAX_HINTS total_positions chars ci chars labels)
    else labels

/-- Inner loop of the 2-character branch (lines 104-110). -/
def labels2_j (MAX_HINTS : Nat) (ci : Nat) : List Nat → List (List Nat) → List (List Nat)
  | [], labels => labels
  | cj :: js, labels =>
    if labels.length < MAX_HINTS then labels2_j MAX_HINTS ci js (labels ++ [[ci, cj]])
    else labels

/-- Outer loop of the 2-character branch (lines 102-111). -/
def labels2_i (MAX_HINTS : Nat) (chars : List Nat) :
    List Nat → List (List Nat) → List (List Nat)
  | [], labels => labels
  | ci :: is, labels =>
    if labels.length < MAX_HINTS then
      labels2_i MAX_HINTS chars is (labels2_j MAX_HINTS ci chars labels)
    else labels

/-- Lines 66-112: the label table built for the alphabet `chars` and
`screen_count` screens. -/
def generate_labels (MAX_HINTS : Nat) (chars : List Nat) (screen_count : Nat) :
    List (List Nat) :=
  let hints_per_screen := chars.length * chars.length
  let total_positions := hints_per_screen * screen_count
  if screen_count > 1 ∨ total_positions > 676 then
    labels3_i MAX_HINTS total_positions chars chars []
  else labels2_i MAX_HINTS chars chars []

/-- What the distribution loops have written: `hints[0..total_hints)`,
`hint_screen_x[0..total_hints)` and `label_index`
(`total_hints = hints.length`). -/
structure Grid where
  hints : List hint
  hint_screen_x : List Nat
  label_index : Nat
  deriving DecidableEq, Repr

/-- The loop over columns `j` (lines 134-150); the first argument counts the
columns still to visit. -/
def cols_loop (MAX_HINTS : Nat) (labels : List (List Nat)) (w h colgap : Int) (screen_idx : Nat)
    (y : Int) : Nat → Int → Grid → Grid
  | 0, _, gr => gr
  | n + 1, x, gr =>
    if gr.label_index < labels.length ∧ gr.hints.length < MAX_HINTS then
      cols_loop MAX_HINTS labels w h colgap screen_idx y n (x + (colgap + w))
        { hints := gr.hints ++
            [{ x := x, y := y, w := w, h := h, label := labels.getD gr.label_index [] }]
          hint_screen_x := gr.hint_screen_x ++ [screen_idx]
          label_index := gr.label_index + 1 }
    else gr

/-- The loop over rows `i` (lines 130-152); the first argument counts the rows
still to visit. -/
def rows_loop (MAX_HINTS : Nat) (labels : List (List Nat)) (w h colgap rowgap : Int)
    (screen_idx nc : Nat) (x_offset : Int) : Nat → Int → Grid → Grid
  | 0, _, gr => gr
  | n + 1, y, gr =>
    if gr.label_index < labels.length ∧ gr.hints.length < MAX_HINTS then
      rows_loop MAX_HINTS labels w h colgap rowgap screen_idx nc x_offset n (y + (rowgap + h))
        (cols_loop MAX_HINTS labels w h colgap screen_idx y nc x_offset gr)
    else gr

/-- The loop over screens (lines 116-153): `screens` holds the dimensions of
the screens from index `screen_idx` on. The result is `none` when `sw / nc`
divides by zero. -/
def screens_loop (MAX_HINTS : Nat) (labels : List (List Nat)) (hint_size : Int) (nc nr : Nat) :
    List (Int × Int) → Nat → Grid → Option Grid
  | [], _, gr => some gr
  | dims :: screens, screen_idx, gr =>
    if gr.hints.length < MAX_HINTS then
      if nc = 0 ∨ nr = 0 then none
      else
        let w := (get_hint_size hint_size dims).1
        let h := (get_hint_size hint_size dims).2
        let colgap := Int.tdiv dims.1 nc - w
        let rowgap := Int.tdiv dims.2 nr - h
        let x_offset := Int.tdiv colgap 2
        let y_offset := Int.tdiv rowgap 2
        screens_loop MAX_HINTS labels hint_size nc nr screens (screen_idx + 1)
          (rows_loop MAX_HINTS labels w h colgap rowgap screen_idx nc x_offset nr y_offset gr)
    else some gr

/-- Model of `generate_multiscreen_hints`: `chars` is the `hint_chars`
alphabet, `screens` the dimensions of the screens listed by the platform.
The result is `none` when no screen is listed (`screens[0]` is then read
uninitialised) or when a division by zero is reached. -/
def generate_multiscreen_hints (MAX_HINTS : Nat) (chars : List Nat) (hint_size : Int)
    (screens : List (Int × Int)) : Option Grid :=
  match screens with
  | [] => none
  | _ :: _ =>
    screens_loop MAX_HINTS (generate_labels MAX_HINTS chars screens.length) hint_size
      chars.length chars.length screens 0 { hints := [], hint_screen_x := [], label_index := 0 }

/-! ## `sift`, `hintspec_mode` and `history_hint_mode` (lines 397-529)

The builders below give the entries written to the local array
`hints[MAX_HINTS]`, in index order: the hint with index `n` is the `n`-th
element of the list. None of these three functions compares its index with
`MAX_HINTS`. -/

/-- The loop of `sift` over `row` (lines 427-441) for the column `col`; the
first argument counts the rows still to visit. -/
def sift_rows_loop (chars : List Nat) (grid_sz : Nat) (x y hint_sz gap : Int) (col : Nat) :
    Nat → Nat → List hint → List hint
  | 0, _, hints => hints
  | n + 1, row, hints =>
    if row * grid_sz + col < chars.length then
      sift_rows_loop chars grid_sz x y hint_sz gap col n (row + 1)
        (hints ++
          [{ x := x + (hint_sz + gap) * col, y := y + (hint_sz + gap) * row, w := hint_sz,
             h := hint_sz, label := [cchar chars (row * grid_sz + col)] }])
    else sift_rows_loop chars grid_sz x y hint_sz gap col n (row + 1) hints

/-- The loop of `sift` over `col` (lines 426-441); the first argument counts
the columns still to visit. -/
def sift_cols_loop (chars : List Nat) (grid_sz : Nat) (x y hint_sz gap : Int) :
    Nat → Nat → List hint → List hint
  | 0, _, hints => hints
  | n + 1, col, hints =>
    sift_cols_loop chars grid_sz x y hint_sz gap n (col + 1)
      (sift_rows_loop chars grid_sz x y hint_sz gap col grid_sz 0 hints)

/-- Lines 399-441 of `sift`: `gap`, `hint_sz`, `chars`, `grid_sz` are the
`hint2_*` configuration values, `(x, y)` the pointer position and `dims` the
dimensions of the screen it is on. A `grid_sz` that is not positive runs no
iteration. -/
def sift_hints (gap hint_sz : Int) (chars : List Nat) (grid_sz : Int) (x y : Int)
    (dims : Int × Int) : List hint :=
  let gap1 := Int.tdiv (gap * dims.2) 1000
  let hint_sz1 := Int.tdiv (hint_sz * dims.2) 1000
  let x1 := x - Int.tdiv ((hint_sz1 + (gap1 - 1)) * grid_sz) 2
  let y1 := y - Int.tdiv ((hint_sz1 + (gap1 - 1)) * grid_sz) 2
  sift_cols_loop chars grid_sz.toNat x1 y1 hint_sz1 gap1 grid_sz.toNat 0 []

/-- Model of `sift()`, on the screen `scr` the pointer is on. -/
def sift (gap hint_sz : Int) (chars : List Nat) (grid_sz : Int) (scr : Nat) (x y : Int)
    (dims : Int × Int) (g : Globals) (evs : List input_event) : Outcome :=
  hint_selection scr (sift_hints gap hint_sz chars grid_sz x y dims) g evs

/-- The `while (scanf(...) == 3)` loop of `hintspec_mode` (lines 467-476):
`records` are the `(label, x, y)` records that the input stream yields before
it ends or stops matching. -/
def hintspec_loop (w h : Int) : List (List Nat × Int × Int) → List hint → List hint
  | [], hints => hints
  | r :: records, hints =>
    hintspec_loop w h records
      (hints ++
        [{ x := r.2.1 - Int.tdiv w 2, y := r.2.2 - Int.tdiv h 2, w := w, h := h,
           label := r.1 }])

/-- Lines 459-476 of `hintspec_mode`: the hints built from the records. -/
def hintspec_hints (hint_size : Int) (dims : Int × Int)
    (records : List (List Nat × Int × Int)) : List hint :=
  hintspec_loop (get_hint_size hint_size dims).1 (get_hint_size hint_size dims).2 records []

/-- Model of `hintspec_mode()`. -/
def hintspec_mode (hint_size : Int) (scr : Nat) (dims : Int × Int)
    (records : List (List Nat × Int × Int)) (g : Globals) (evs : List input_event) : Outcome :=
  hint_selection scr (hintspec_hints hint_size dims records) g evs

/-- The `for` loop of `history_hint_mode` (lines 517-526): `ents` are the
entries from index `i` on. The label is the string held by the two bytes
`'a' + i` (stored in a `char`) and 0. -/
def history_loop (w h : Int) : List (Int × Int) → Nat → List hint → List hint
  | [], _, hints => hints
  | ent :: ents, i, hints =>
    history_loop w h ents (i + 1)
      (hints ++
        [{ x := ent.1 - Int.tdiv w 2, y := ent.2 - Int.tdiv h 2, w := w, h := h,
           label := cstr [(97 + i) % 256, 0] }])

/-- Lines 503-526 of `history_hint_mode`: the hints built from the entries
that `histfile_read` returns. -/
def history_hints (hint_size : Int) (dims : Int × Int) (ents : List (Int × Int)) : List hint :=
  history_loop (get_hint_size hint_size dims).1 (get_hint_size hint_size dims).2 ents 0 []

/-- Model of `history_hint_mode()`. -/
def history_hint_mode (hint_size : Int) (scr : Nat) (dims : Int × Int)
    (ents : List (Int × Int)) (g : Globals) (evs : List input_event) : Outcome :=
  hint_selection scr (history_hints hint_size dims ents) g evs

/-- A `while (1)` loop with body `body`, followed by `fin`, over the events
`evs`; both selection loops are instances. -/
def run (body : Loop → input_event → Step) (fin : Globals → Globals) :
    Loop → List input_event → Outcome
  | l, [] => Outcome.waiting l
  | l, ev :: evs =>
    match body l ev with
    | Step.next l1 => run body fin l1 evs
    | Step.brk rc l1 => Outcome.returned rc (fin l1.g)
    | Step.fault => Outcome.fault

/-- What holds of a loop state while a session on `hints`, entered with the
file-scope state `g0`, is waiting for an event: `buf` is a 32-byte array
holding a terminated string, no pointer move has been issued and
`last_selected_hint` is untouched. -/
def Loop.inv (hints : List hint) (g0 : Globals) (l : Loop) : Prop :=
  l.g.hints = hints ∧ 0 ∈ l.buf ∧ l.buf.length = 32 ∧
    mouse_moves l.g.calls = mouse_moves g0.calls ∧
    l.g.last_selected_hint = g0.last_selected_hint

/-- The loop state of a session that is waiting for an event (`d` otherwise). -/
def Outcome.state (o : Outcome) (d : Loop) : Loop :=
  match o with
  | Outcome.waiting l => l
  | _ => d

/-- All 2-character strings `[ci, cj]` with `ci` from `cs` and `cj` from
`chars`, in nested order (`ci` outer). -/
def rows2 : List Nat → List Nat → List (List Nat)
  | [], _ => []
  | ci :: cs, chars => chars.map (fun cj => [ci, cj]) ++ rows2 cs chars

/-- All 3-character strings `[ci, cj, ck]` with `ci` from `cs` and `cj`, `ck`
from `chars`, in nested order (`ci` outermost). -/
def rows3 : List Nat → List Nat → List (List Nat)
  | [], _ => []
  | ci :: cs, chars => (rows2 chars chars).map (fun l => ci :: l) ++ rows3 cs chars

/-- What holds of the distribution state at every point of
`generate_multiscreen_hints`: `label_index` equals `total_hints`, the labels
written are the first `total_hints` rows of the label table, and neither the
table nor `MAX_HINTS` is exceeded. -/
def Grid.ok (MAX_HINTS : Nat) (labels : List (List Nat)) (gr : Grid) : Prop :=
  gr.label_index = gr.hints.length ∧ gr.hint_screen_x.length = gr.hints.length ∧
    gr.hints.map (fun k => k.label) = labels.take gr.hints.length ∧
    gr.hints.length ≤ labels.length ∧ gr.hints.length ≤ MAX_HINTS

/-- The value returned by a session, `none` while it has not returned. -/
def Outcome.rc (o : Outcome) : Option Int :=
  match o with
  | Outcome.returned rc _ => some rc
  | _ => none

/-- The file-scope state in which a session stands (`d` after a fault). -/
def Outcome.globals (o : Outcome) (d : Globals) : Globals :=
  match o with
  | Outcome.returned _ g => g
  | Outcome.waiting l => l.g
  | Outcome.fault => d

/-- The cells `(row, col)` of a `g` x `g` grid whose index `row * g + col` is
below `L`, in the order in which `sift` visits them (columns outer, rows
inner). -/
def sift_cells (g L : Nat) : List (Nat × Nat) :=
  ((List.range g).map (fun col =>
    ((List.range g).filter (fun row => decide (row * g + col < L))).map
      (fun row => (row, col)))).flatten

/-- The hint of row `i`, column `j` on a surface of dimensions `dims` for an
`A` x `A` grid: size from `get_hint_size`, gaps `colgap = sw / A - w` and
`rowgap = sh / A - h`, position `(colgap / 2 + j * (colgap + w),
rowgap / 2 + i * (rowgap + h))`. -/
def screen_cell (hint_size : Int) (A : Nat) (dims : Int × Int) (i j : Nat)
    (label : List Nat) : hint :=
  { x := Int.tdiv (Int.tdiv dims.1 A - (get_hint_size hint_size dims).1) 2 +
      (j : Int) * (Int.tdiv dims.1 A - (get_hint_size hint_size dims).1 +
        (get_hint_size hint_size dims).1)
    y := Int.tdiv (Int.tdiv dims.2 A - (get_hint_size hint_size dims).2) 2 +
      (i : Int) * (Int.tdiv dims.2 A - (get_hint_size hint_size dims).2 +
        (get_hint_size hint_size dims).2)
    w := (get_hint_size hint_size dims).1
    h := (get_hint_size hint_size dims).2
    label := label }

/-- Every hint written so far sits in the cell that its index `n` names:
surface `n / (A * A)`, row `(n / A) mod A`, column `n mod A`, with the `n`-th
row of the label table, and is recorded for that surface. -/
def Grid.placed (hint_size : Int) (A : Nat) (screens : List (Int × Int))
    (labels : List (List Nat)) (gr : Grid) : Prop :=
  ∀ n, n < gr.hints.length →
    gr.hints[n]? = some (screen_cell hint_size A (screens.getD (n / (A * A)) (0, 0))
      (n / A % A) (n % A) (labels.getD n [])) ∧
    gr.hint_screen_x[n]? = some (n / (A * A))

/-! ## Example data -/

/-- The bytes of a string literal. -/
def bytes (s : String) : List Nat :=
  s.data.map Char.toNat

/-- A hint of size 10 x 10 at `(x, y)`. -/
def box (x y : Int) (label : String) : hint :=
  { x := x, y := y, w := 10, h := 10, label := bytes label }

/-- A press of a plain character key. -/
def press (c : Char) : input_event :=
  { pressed := true, hint_exit := false, hint_undo_all := false, hint_undo := false,
    name := some [c.toNat] }

/-- A press of the key bound to `hint_exit`. -/
def press_exit : input_event :=
  { pressed := true, hint_exit := true, hint_undo_all := false, hint_undo := false,
    name := some (bytes "esc") }

/-- A press of the key `a` that is bound to `hint_exit` and to both undo
actions as well. -/
def press_exit_and_undo : input_event :=
  { pressed := true, hint_exit := true, hint_undo_all := true, hint_undo := true,
    name := some [97] }

/-- A press of the key bound to `hint_undo_all`. -/
def press_undo_all : input_event :=
  { pressed := true, hint_exit := false, hint_undo_all := true, hint_undo := false,
    name := some (bytes "C-u") }

/-- A press of the key bound to `hint_undo`. -/
def press_undo : input_event :=
  { pressed := true, hint_exit := false, hint_undo_all := false, hint_undo := true,
    name := some (bytes "backspace") }

/-- File-scope state before any session. -/
def globals0 : Globals :=
  { hints := [], matched := [], matched_indices := [], last_selected_hint := [], calls := [] }

/-- The hint set `aa, ab, ba`. -/
def hints_aa_ab_ba : List hint :=
  [box 0 0 "aa", box 20 0 "ab", box 0 20 "ba"]

/-- The hint set `abc, abd, xbc, xbd`, as `hintspec_mode` may read it. -/
def hints_ab_xb : List hint :=
  [box 0 0 "abc", box 20 0 "abd", box 0 20 "xbc", box 20 20 "xbd"]

/-- The grid generated for the alphabet `ab` on one 1920 x 1080 screen with
`hint_size` 50 and `MAX_HINTS` 2048: the hints `aa, ab, ba, bb`. -/
def grid_ab : Grid :=
  { hints :=
      [{ x := 432, y := 243, w := 96, h := 54, label := bytes "aa" },
       { x := 1392, y := 243, w := 96, h := 54, label := bytes "ab" },
       { x := 432, y := 783, w := 96, h := 54, label := bytes "ba" },
       { x := 1392, y := 783, w := 96, h := 54, label := bytes "bb" }]
    hint_screen_x := [0, 0, 0, 0]
    label_index := 4 }

/-- The 26 lower-case letters. -/
def chars26 : List Nat :=
  bytes "abcdefghijklmnopqrstuvwxyz"

/-- An alphabet of 27 distinct characters. -/
def chars27 : List Nat :=
  bytes "abcdefghijklmnopqrstuvwxyz0"

/-- The grid generated for the alphabet `ab` on a 1920 x 1080 and a
1080 x 1920 screen with `hint_size` 50 and `MAX_HINTS` 2048: the hints
`aaa .. abb` on screen 0 and `baa .. bbb` on screen 1. -/
def grid_ab2 : Grid :=
  { hints :=
      [{ x := 432, y := 243, w := 96, h := 54, label := bytes "aaa" },
       { x := 1392, y := 243, w := 96, h := 54, label := bytes "aab" },
       { x := 432, y := 783, w := 96, h := 54, label := bytes "aba" },
       { x := 1392, y := 783, w := 96, h := 54, label := bytes "abb" },
       { x := 222, y := 453, w := 96, h := 54, label := bytes "baa" },
       { x := 762, y := 453, w := 96, h := 54, label := bytes "bab" },
       { x := 222, y := 1413, w := 96, h := 54, label := bytes "bba" },
       { x := 762, y := 1413, w := 96, h := 54, label := bytes "bbb" }]
    hint_screen_x := [0, 0, 0, 0, 1, 1, 1, 1]
    label_index := 8 }

/-! ## Prefix tests -/

theorem strstr_zero_iff (label s : List Nat) : strstr label s = some 0 ↔ s <+: label := by
  cases label with
  | nil =>
    simp only [strstr]
    constructor
    · intro h
      split at h
      · rename_i hp; exact List.isPrefixOf_iff_prefix.mp hp
      · simp at h
    · intro h
      rw [if_pos (List.isPrefixOf_iff_prefix.mpr h)]
  | cons c hay =>
    simp only [strstr]
    constructor
    · intro h
      split at h
      · rename_i hp; exact List.isPrefixOf_iff_prefix.mp hp
      · cases hs : strstr hay s <;> simp [hs] at h
    · intro h
      rw [if_pos (List.isPrefixOf_iff_prefix.mpr h)]

theorem strncmp_zero_iff (s : List Nat) (hs : 0 ∉ s) (label : List Nat) :
    strncmp label s s.length = 0 ↔ s <+: label := by
  induction s generalizing label with
  | nil => simp [strncmp]
  | cons c s ih =>
    have hc : c ≠ 0 := fun h => hs (by simp [h])
    have hs' : 0 ∉ s := fun h => hs (by simp [h])
    cases label with
    | nil =>
      simp only [List.length_cons, strncmp, List.headD_nil, List.headD_cons]
      rw [if_pos (Ne.symm hc)]
      simp [hc]
    | cons a l =>
      simp only [List.length_cons, strncmp, List.headD_cons, List.tail_cons]
      by_cases hac : a = c
      · subst hac
        simp only [ne_eq, not_true_eq_false, if_false, if_neg hc]
        rw [ih hs' l]
        simp [List.cons_prefix_cons]
      · rw [if_pos hac]
        have : (a : Int) - (c : Int) ≠ 0 := by omega
        simp only [this, List.cons_prefix_cons, false_iff, not_and]
        intro h
        exact absurd h.symm hac

theorem label_matches_iff (s : List Nat) (hs : 0 ∉ s) (label : List Nat) :
    label_matches label s = true ↔ s <+: label := by
  unfold label_matches cchar
  cases s with
  | nil => simp
  | cons c s =>
    have hc : c ≠ 0 := fun h => hs (by simp [h])
    have := strncmp_zero_iff (c :: s) hs label
    simp only [List.getD_cons_zero, Bool.or_eq_true, beq_iff_eq, hc, false_or]
    exact this

theorem filter_loop_eq (s : List Nat) (hs acc : List hint) :
    filter_loop s hs acc = acc ++ hs.filter (fun h => decide (s <+: h.label)) := by
  induction hs generalizing acc with
  | nil => simp [filter_loop]
  | cons h hs ih =>
    simp only [filter_loop, strstr_zero_iff]
    by_cases hp : s <+: h.label
    · simp [hp, ih]
    · simp [hp, ih]

theorem matched_loop_fst (MAX_HINTS : Nat) (s : List Nat) (hs0 : 0 ∉ s) (hs : List hint) (i : Nat)
    (m : List hint × List Nat) (hcap : m.1.length + hs.length ≤ MAX_HINTS) :
    (matched_loop MAX_HINTS s i hs m).1 = m.1 ++ hs.filter (fun h => decide (s <+: h.label)) := by
  induction hs generalizing i m with
  | nil => simp [matched_loop]
  | cons h hs ih =>
    have hlt : m.1.length < MAX_HINTS := by simp at hcap; omega
    simp only [matched_loop, if_pos hlt]
    by_cases hp : s <+: h.label
    · rw [if_pos ((label_matches_iff s hs0 h.label).mpr hp), ih]
      · simp [hp]
      · simp at hcap ⊢; omega
    · have : ¬ label_matches h.label s = true := fun hm => hp ((label_matches_iff s hs0 h.label).mp hm)
      rw [if_neg this, ih]
      · simp [hp]
      · simp at hcap ⊢; omega

theorem filter_matched (scr : Nat) (s : List Nat) (g : Globals) :
    (filter scr s g).matched = g.hints.filter (fun h => decide (s <+: h.label)) := by
  simp [filter, filter_loop_eq]

theorem draw_matched (MAX_HINTS screen_count : Nat) (hint_screen_x s : List Nat) (g : Globals)
    (hcap : g.hints.length ≤ MAX_HINTS) (hs : 0 ∉ s) :
    (draw_hints_on_all_screens MAX_HINTS screen_count hint_screen_x s g).matched =
      g.hints.filter (fun h => decide (s <+: h.label)) := by
  simp only [draw_hints_on_all_screens]
  rw [matched_loop_fst MAX_HINTS s hs g.hints 0 ([], []) (by simpa using hcap)]
  simp

theorem prefix_filter_mono (hs : List hint) (p : List Nat) (c : Nat) :
    (hs.filter (fun h => decide ((p ++ [c]) <+: h.label))).length ≤
      (hs.filter (fun h => decide (p <+: h.label))).length := by
  rw [← List.countP_eq_length_filter, ← List.countP_eq_length_filter]
  apply List.countP_mono_left
  intro h _ hp
  simp only [decide_eq_true_eq] at hp ⊢
  exact (List.prefix_append p [c]).trans hp

/-! ## Byte arrays and key handling -/

theorem strlen_eq_some_iff (b : List Nat) (n : Nat) :
    strlen b = some n ↔ 0 ∈ b ∧ n = (cstr b).length := by
  unfold strlen
  split <;> simp_all [eq_comm]

theorem strlen_ne_none_iff (b : List Nat) : strlen b ≠ none ↔ 0 ∈ b := by
  unfold strlen
  split <;> simp_all

theorem store_length (b : List Nat) (i v : Nat) (b1 : List Nat) (h : store b i v = some b1) :
    b1.length = b.length := by
  unfold store at h
  split at h
  · simp at h; subst h; simp
  · simp at h

theorem ofStore_edited (o : Option (List Nat)) (b1 : List Nat) :
    Keyed.ofStore o = Keyed.edited b1 ↔ o = some b1 := by
  cases o <;> simp [Keyed.ofStore]

theorem ofStore_ne_exit (o : Option (List Nat)) : Keyed.ofStore o ≠ Keyed.exit := by
  cases o <;> simp [Keyed.ofStore]

theorem ofStore_ne_ignored (o : Option (List Nat)) : Keyed.ofStore o ≠ Keyed.ignored := by
  cases o <;> simp [Keyed.ofStore]

theorem hint_selection_key_edited (buf : List Nat) (ev : input_event) (b1 : List Nat)
    (h : hint_selection_key buf ev = Keyed.edited b1) :
    ev.pressed = true ∧ ev.hint_exit = false ∧ 0 ∈ buf ∧ b1.length = buf.length := by
  unfold hint_selection_key at h
  split at h
  · simp at h
  · rename_i hp
    split at h
    · simp at h
    · rename_i len hlen
      have h0 := ((strlen_eq_some_iff buf len).mp hlen).1
      split at h
      · simp at h
      · rename_i hex
        refine ⟨by simpa using hp, by simpa using hex, h0, ?_⟩
        split at h
        · exact store_length _ _ _ _ ((ofStore_edited _ _).mp h)
        · split at h
          · split at h
            · exact store_length _ _ _ _ ((ofStore_edited _ _).mp h)
            · simp at h; subst h; rfl
          · split at h
            · simp at h
            · split at h
              · simp at h
              · exact store_length _ _ _ _ ((ofStore_edited _ _).mp h)

theorem hint_selection_key_exit (buf : List Nat) (ev : input_event) :
    hint_selection_key buf ev = Keyed.exit ↔ ev.pressed = true ∧ 0 ∈ buf ∧ ev.hint_exit = true := by
  unfold hint_selection_key
  constructor
  · intro h
    split at h
    · simp at h
    · rename_i hp
      split at h
      · simp at h
      · rename_i len hlen
        have h0 := ((strlen_eq_some_iff buf len).mp hlen).1
        split at h
        · rename_i hex; exact ⟨by simpa using hp, h0, hex⟩
        · exfalso
          split at h
          · exact ofStore_ne_exit _ h
          · split at h
            · split at h
              · exact ofStore_ne_exit _ h
              · simp at h
            · split at h
              · simp at h
              · split at h
                · simp at h
                · exact ofStore_ne_exit _ h
  · rintro ⟨hp, h0, hex⟩
    have : strlen buf = some (cstr buf).length := (strlen_eq_some_iff _ _).mpr ⟨h0, rfl⟩
    simp [hp, this, hex]

theorem store_mem_zero (b : List Nat) (i : Nat) (b1 : List Nat) (h : store b i 0 = some b1) :
    0 ∈ b1 := by
  unfold store at h
  split at h
  · rename_i hi
    simp at h; subst h
    exact List.mem_iff_getElem.mpr ⟨i, by simpa using hi, by simp⟩
  · simp at h

theorem hint_selection_multiscreen_key_edited (buf : List Nat) (ev : input_event) (b1 : List Nat)
    (h : hint_selection_multiscreen_key buf ev = Keyed.edited b1) :
    ev.pressed = true ∧ ev.hint_exit = false ∧ 0 ∈ buf ∧ b1.length = buf.length ∧ 0 ∈ b1 := by
  unfold hint_selection_multiscreen_key at h
  split at h
  · simp at h
  · rename_i hp
    split at h
    · simp at h
    · rename_i len hlen
      have h0 := ((strlen_eq_some_iff buf len).mp hlen).1
      split at h
      · simp at h
      · rename_i hex
        refine ⟨by simpa using hp, by simpa using hex, h0, ?_⟩
        split at h
        · exact ⟨store_length _ _ _ _ ((ofStore_edited _ _).mp h),
            store_mem_zero _ _ _ ((ofStore_edited _ _).mp h)⟩
        · split at h
          · split at h
            · exact ⟨store_length _ _ _ _ ((ofStore_edited _ _).mp h),
                store_mem_zero _ _ _ ((ofStore_edited _ _).mp h)⟩
            · simp at h; subst h; exact ⟨rfl, h0⟩
          · split at h
            · simp at h
            · split at h
              · simp at h
              · split at h
                · simp at h
                · rename_i b2 hb2
                  have h2 := (ofStore_edited _ _).mp h
                  exact ⟨(store_length _ _ _ _ h2).trans (store_length _ _ _ _ hb2),
                    store_mem_zero _ _ _ h2⟩

theorem hint_selection_multiscreen_key_exit (buf : List Nat) (ev : input_event) :
    hint_selection_multiscreen_key buf ev = Keyed.exit ↔
      ev.pressed = true ∧ 0 ∈ buf ∧ ev.hint_exit = true := by
  unfold hint_selection_multiscreen_key
  constructor
  · intro h
    split at h
    · simp at h
    · rename_i hp
      split at h
      · simp at h
      · rename_i len hlen
        have h0 := ((strlen_eq_some_iff buf len).mp hlen).1
        split at h
        · rename_i hex; exact ⟨by simpa using hp, h0, hex⟩
        · exfalso
          split at h
          · exact ofStore_ne_exit _ h
          · split at h
            · split at h
              · exact ofStore_ne_exit _ h
              · simp at h
            · split at h
              · simp at h
              · split at h
                · simp at h
                · split at h
                  · simp at h
                  · exact ofStore_ne_exit _ h
  · rintro ⟨hp, h0, hex⟩
    have : strlen buf = some (cstr buf).length := (strlen_eq_some_iff _ _).mpr ⟨h0, rfl⟩
    simp [hp, this, hex]

/-! ## Generic facts about the event loop -/

theorem run_append (body : Loop → input_event → Step) (fin : Globals → Globals)
    (evs es : List input_event) (l l1 : Loop) (h : run body fin l evs = Outcome.waiting l1) :
    run body fin l (evs ++ es) = run body fin l1 es := by
  induction evs generalizing l with
  | nil => simp [run] at h; subst h; rfl
  | cons ev evs ih =>
    simp only [run, List.cons_append] at h ⊢
    cases hb : body l ev with
    | next l2 => rw [hb] at h; simp only at h ⊢; exact ih l2 h
    | brk rc l2 => rw [hb] at h; simp at h
    | fault => rw [hb] at h; simp at h

theorem run_waiting_inv (body : Loop → input_event → Step) (fin : Globals → Globals)
    (P : Loop → Prop) (hP : ∀ l ev l1, P l → body l ev = Step.next l1 → P l1)
    (evs : List input_event) (l l1 : Loop) (h0 : P l)
    (h : run body fin l evs = Outcome.waiting l1) : P l1 := by
  induction evs generalizing l with
  | nil => simp [run] at h; subst h; exact h0
  | cons ev evs ih =>
    simp only [run] at h
    cases hb : body l ev with
    | next l2 => rw [hb] at h; simp only at h; exact ih l2 (hP l ev l2 h0 hb) h
    | brk rc l2 => rw [hb] at h; simp at h
    | fault => rw [hb] at h; simp at h

theorem run_returned (body : Loop → input_event → Step) (fin : Globals → Globals)
    (evs : List input_event) (l : Loop) (rc : Int) (g1 : Globals)
    (h : run body fin l evs = Outcome.returned rc g1) :
    ∃ pre ev rest l1 l2, evs = pre ++ ev :: rest ∧ run body fin l pre = Outcome.waiting l1 ∧
      body l1 ev = Step.brk rc l2 ∧ g1 = fin l2.g := by
  induction evs generalizing l with
  | nil => simp [run] at h
  | cons ev evs ih =>
    simp only [run] at h
    cases hb : body l ev with
    | next l2 =>
      rw [hb] at h; simp only at h
      obtain ⟨pre, e, rest, l3, l4, h1, h2, h3, h4⟩ := ih l2 h
      refine ⟨ev :: pre, e, rest, l3, l4, by simp [h1], ?_, h3, h4⟩
      simp only [run, hb]; exact h2
    | brk rc1 l2 =>
      rw [hb] at h; simp only [Outcome.returned.injEq] at h
      refine ⟨[], ev, evs, l, l2, rfl, rfl, ?_, h.2.symm⟩
      rw [hb, h.1]
    | fault => rw [hb] at h; simp at h

theorem run_brk (body : Loop → input_event → Step) (fin : Globals → Globals)
    (evs rest : List input_event) (ev : input_event) (l l1 l2 : Loop) (rc : Int)
    (h : run body fin l evs = Outcome.waiting l1) (hb : body l1 ev = Step.brk rc l2) :
    run body fin l (evs ++ ev :: rest) = Outcome.returned rc (fin l2.g) := by
  rw [run_append body fin evs (ev :: rest) l l1 h]
  simp [run, hb]

theorem run_next (body : Loop → input_event → Step) (fin : Globals → Globals)
    (evs rest : List input_event) (ev : input_event) (l l1 l2 : Loop)
    (h : run body fin l evs = Outcome.waiting l1) (hb : body l1 ev = Step.next l2) :
    run body fin l (evs ++ ev :: rest) = run body fin l2 rest := by
  rw [run_append body fin evs (ev :: rest) l l1 h]
  simp [run, hb]

theorem hint_selection_loop_eq_run (scr : Nat) (l : Loop) (evs : List input_event) :
    hint_selection_loop scr l evs = run (hint_selection_body scr) (hint_selection_exit scr) l evs := by
  induction evs generalizing l with
  | nil => rfl
  | cons ev evs ih =>
    simp only [hint_selection_loop, run]
    cases hint_selection_body scr l ev <;> simp [ih]

theorem hint_selection_multiscreen_loop_eq_run (MAX_HINTS screen_count : Nat)
    (hint_screen_x : List Nat) (l : Loop) (evs : List input_event) :
    hint_selection_multiscreen_loop MAX_HINTS screen_count hint_screen_x l evs =
      run (hint_selection_multiscreen_body MAX_HINTS screen_count hint_screen_x)
        (hint_selection_multiscreen_exit screen_count) l evs := by
  induction evs generalizing l with
  | nil => rfl
  | cons ev evs ih =>
    simp only [hint_selection_multiscreen_loop, run]
    cases hint_selection_multiscreen_body MAX_HINTS screen_count hint_screen_x l ev <;> simp [ih]

/-! ## Frame facts for `filter` and `draw_hints_on_all_screens` -/

theorem mouse_moves_append (a b : List Call) :
    mouse_moves (a ++ b) = mouse_moves a ++ mouse_moves b := by
  simp [mouse_moves]

theorem mouse_moves_screen_clear (n : Nat) :
    mouse_moves ((List.range n).map Call.screen_clear) = [] := by
  simp [mouse_moves, List.filter_eq_nil_iff]

theorem mouse_moves_draw_screens_loop (hint_screen_x s : List Nat) (hints : List hint)
    (n i : Nat) (calls : List Call) :
    mouse_moves (draw_screens_loop hint_screen_x s hints n i calls) = mouse_moves calls := by
  induction n generalizing i calls with
  | zero => rfl
  | succ n ih =>
    simp only [draw_screens_loop]
    split
    · rw [ih, mouse_moves_append]; simp [mouse_moves]
    · rw [ih]

theorem filter_frame (scr : Nat) (s : List Nat) (g : Globals) :
    (filter scr s g).hints = g.hints ∧
    (filter scr s g).last_selected_hint = g.last_selected_hint ∧
    mouse_moves (filter scr s g).calls = mouse_moves g.calls := by
  refine ⟨rfl, rfl, ?_⟩
  simp [filter, mouse_moves]

theorem draw_frame (MAX_HINTS screen_count : Nat) (hint_screen_x s : List Nat) (g : Globals) :
    (draw_hints_on_all_screens MAX_HINTS screen_count hint_screen_x s g).hints = g.hints ∧
    (draw_hints_on_all_screens MAX_HINTS screen_count hint_screen_x s g).last_selected_hint =
      g.last_selected_hint ∧
    mouse_moves (draw_hints_on_all_screens MAX_HINTS screen_count hint_screen_x s g).calls =
      mouse_moves g.calls := by
  refine ⟨rfl, rfl, ?_⟩
  simp only [draw_hints_on_all_screens]
  rw [mouse_moves_append, mouse_moves_draw_screens_loop, mouse_moves_append,
    mouse_moves_screen_clear]
  simp [mouse_moves]

theorem cstr_no_zero (b : List Nat) : 0 ∉ cstr b := by
  intro h
  have := List.mem_takeWhile_imp h
  simp at this

theorem matched_loop_snd (MAX_HINTS : Nat) (s : List Nat) (hs : List hint) (i : Nat)
    (m : List hint × List Nat) (hlen : m.2.length = m.1.length) (n : Nat)
    (hb : ∀ k ∈ m.2, k < n) (hn : i + hs.length ≤ n) :
    (matched_loop MAX_HINTS s i hs m).2.length = (matched_loop MAX_HINTS s i hs m).1.length ∧
    ∀ k ∈ (matched_loop MAX_HINTS s i hs m).2, k < n := by
  induction hs generalizing i m with
  | nil => simpa [matched_loop] using ⟨hlen, hb⟩
  | cons h hs ih =>
    simp only [matched_loop]
    simp only [List.length_cons] at hn
    split
    · split
      · apply ih
        · simp [hlen]
        · intro k hk
          simp only [List.mem_append, List.mem_singleton] at hk
          rcases hk with hk | hk
          · exact hb k hk
          · omega
        · omega
      · exact ih (i + 1) m hlen hb (by omega)
    · exact ⟨hlen, hb⟩

theorem draw_matched_indices (MAX_HINTS screen_count : Nat) (hint_screen_x s : List Nat)
    (g : Globals) :
    (draw_hints_on_all_screens MAX_HINTS screen_count hint_screen_x s g).matched_indices.length =
      (draw_hints_on_all_screens MAX_HINTS screen_count hint_screen_x s g).matched.length ∧
    ∀ k ∈ (draw_hints_on_all_screens MAX_HINTS screen_count hint_screen_x s g).matched_indices,
      k < g.hints.length := by
  simp only [draw_hints_on_all_screens]
  exact matched_loop_snd MAX_HINTS s g.hints 0 ([], []) rfl g.hints.length (by simp) (by omega)

/-! ## The body of `hint_selection` -/

theorem hint_selection_resolve_one (scr : Nat) (buf : List Nat) (g : Globals) (h : hint)
    (hm : g.matched = [h]) :
    hint_selection_resolve scr buf g = Step.brk 0
      { g := { g with
               calls := g.calls ++ [Call.screen_clear scr,
                 Call.mouse_move scr (h.x + Int.tdiv h.w 2 + 1) (h.y + Int.tdiv h.h 2 + 1),
                 Call.mouse_move scr (h.x + Int.tdiv h.w 2) (h.y + Int.tdiv h.h 2)]
               last_selected_hint := cstr buf }
        buf := buf } := by
  simp [hint_selection_resolve, hm]

theorem hint_selection_resolve_none (scr : Nat) (buf : List Nat) (g : Globals)
    (hm : g.matched = []) :
    hint_selection_resolve scr buf g = Step.brk 0 { g := g, buf := buf } := by
  simp [hint_selection_resolve, hm]

theorem hint_selection_resolve_many (scr : Nat) (buf : List Nat) (g : Globals)
    (hm : 2 ≤ g.matched.length) :
    hint_selection_resolve scr buf g = Step.next { g := g, buf := buf } := by
  unfold hint_selection_resolve
  split
  · rename_i h1; rw [h1] at hm; simp at hm
  · rename_i h1; rw [h1] at hm; simp at hm
  · rfl

theorem hint_selection_resolve_next (scr : Nat) (buf : List Nat) (g : Globals) (l1 : Loop)
    (h : hint_selection_resolve scr buf g = Step.next l1) :
    l1 = { g := g, buf := buf } ∧ 2 ≤ g.matched.length := by
  unfold hint_selection_resolve at h
  split at h
  · simp at h
  · simp at h
  · rename_i h1 h2
    simp only [Step.next.injEq] at h
    refine ⟨h.symm, ?_⟩
    rcases hg : g.matched with _ | ⟨a, _ | ⟨b, t⟩⟩
    · exact absurd hg h2
    · exact absurd hg (h1 a)
    · simp

theorem hint_selection_body_edited (scr : Nat) (l : Loop) (ev : input_event) (buf : List Nat)
    (hk : hint_selection_key l.buf ev = Keyed.edited buf) (hz : 0 ∈ buf) :
    hint_selection_body scr l ev =
      hint_selection_resolve scr buf (filter scr (cstr buf) l.g) := by
  have : strlen buf = some (cstr buf).length := (strlen_eq_some_iff _ _).mpr ⟨hz, rfl⟩
  simp [hint_selection_body, hk, this]

theorem hint_selection_body_next (scr : Nat) (l l1 : Loop) (ev : input_event)
    (h : hint_selection_body scr l ev = Step.next l1) :
    l1 = l ∨ ∃ buf, hint_selection_key l.buf ev = Keyed.edited buf ∧ 0 ∈ buf ∧
      l1 = { g := filter scr (cstr buf) l.g, buf := buf } ∧
      2 ≤ (filter scr (cstr buf) l.g).matched.length := by
  unfold hint_selection_body at h
  split at h
  · simp only [Step.next.injEq] at h; exact Or.inl h.symm
  · simp at h
  · simp at h
  · rename_i buf hk
    split at h
    · simp at h
    · rename_i n hn
      have hz := ((strlen_eq_some_iff _ _).mp hn).1
      have := hint_selection_resolve_next scr buf _ l1 h
      exact Or.inr ⟨buf, hk, hz, this.1, this.2⟩

theorem hint_selection_body_brk (scr : Nat) (l l1 : Loop) (ev : input_event) (rc : Int)
    (h : hint_selection_body scr l ev = Step.brk rc l1) :
    (hint_selection_key l.buf ev = Keyed.exit ∧ rc = -1 ∧ l1 = l) ∨
    ∃ buf, hint_selection_key l.buf ev = Keyed.edited buf ∧ 0 ∈ buf ∧
      hint_selection_resolve scr buf (filter scr (cstr buf) l.g) = Step.brk rc l1 := by
  unfold hint_selection_body at h
  split at h
  · simp at h
  · simp at h
  · rename_i hk
    simp only [Step.brk.injEq] at h
    exact Or.inl ⟨hk, h.1.symm, h.2.symm⟩
  · rename_i buf hk
    split at h
    · simp at h
    · rename_i n hn
      exact Or.inr ⟨buf, hk, ((strlen_eq_some_iff _ _).mp hn).1, h⟩

theorem hint_selection_resolve_brk (scr : Nat) (buf : List Nat) (g : Globals) (rc : Int)
    (l1 : Loop) (h : hint_selection_resolve scr buf g = Step.brk rc l1) :
    rc = 0 ∧ l1.buf = buf ∧
    ((g.matched = [] ∧ l1.g = g) ∨
     ∃ k, g.matched = [k] ∧ l1.g = { g with
        calls := g.calls ++ [Call.screen_clear scr,
          Call.mouse_move scr (k.x + Int.tdiv k.w 2 + 1) (k.y + Int.tdiv k.h 2 + 1),
          Call.mouse_move scr (k.x + Int.tdiv k.w 2) (k.y + Int.tdiv k.h 2)]
        last_selected_hint := cstr buf }) := by
  unfold hint_selection_resolve at h
  split at h
  · rename_i k hk
    simp only [Step.brk.injEq] at h
    obtain ⟨h1, h2⟩ := h
    subst h2
    exact ⟨h1.symm, rfl, Or.inr ⟨k, hk, rfl⟩⟩
  · rename_i hk
    simp only [Step.brk.injEq] at h
    obtain ⟨h1, h2⟩ := h
    subst h2
    exact ⟨h1.symm, rfl, Or.inl ⟨hk, rfl⟩⟩
  · simp at h

theorem hint_selection_init_inv (scr : Nat) (hints : List hint) (g : Globals) :
    Loop.inv hints g (hint_selection_init scr hints g) := by
  refine ⟨rfl, by simp [hint_selection_init], by simp [hint_selection_init], ?_, rfl⟩
  simp [hint_selection_init, filter, mouse_moves]

theorem hint_selection_body_inv (scr : Nat) (hints : List hint) (g : Globals) (l l1 : Loop)
    (ev : input_event) (hi : Loop.inv hints g l)
    (h : hint_selection_body scr l ev = Step.next l1) : Loop.inv hints g l1 := by
  rcases hint_selection_body_next scr l l1 ev h with h1 | ⟨buf, hk, hz, h1, _⟩
  · subst h1; exact hi
  · subst h1
    obtain ⟨i1, _, i3, i4, i5⟩ := hi
    have hf := filter_frame scr (cstr buf) l.g
    exact ⟨hf.1.trans i1, hz, (hint_selection_key_edited _ _ _ hk).2.2.2.trans i3,
      hf.2.2.trans i4, hf.2.1.trans i5⟩

theorem hint_selection_waiting_inv (scr : Nat) (hints : List hint) (g : Globals)
    (evs : List input_event) (l : Loop)
    (h : hint_selection scr hints g evs = Outcome.waiting l) : Loop.inv hints g l := by
  unfold hint_selection at h
  rw [hint_selection_loop_eq_run] at h
  exact run_waiting_inv _ _ (Loop.inv hints g)
    (fun l ev l1 hi hb => hint_selection_body_inv scr hints g l l1 ev hi hb) evs _ l
    (hint_selection_init_inv scr hints g) h

/-! ## The body of `hint_selection_multiscreen` -/

theorem hint_selection_multiscreen_resolve_one (MAX_HINTS screen_count : Nat)
    (hint_screen_x buf : List Nat) (g : Globals) (h : hint) (hm : g.matched = [h])
    (hidx : g.matched_indices.getD 0 0 < MAX_HINTS)
    (hscr : hint_screen_x.getD (g.matched_indices.getD 0 0) 0 < screen_count) :
    hint_selection_multiscreen_resolve MAX_HINTS screen_count hint_screen_x buf g = Step.brk 0
      { g := { g with
               calls := g.calls ++ (List.range screen_count).map Call.screen_clear ++
                 [Call.mouse_move (hint_screen_x.getD (g.matched_indices.getD 0 0) 0)
                    (h.x + Int.tdiv h.w 2 + 1) (h.y + Int.tdiv h.h 2 + 1),
                  Call.mouse_move (hint_screen_x.getD (g.matched_indices.getD 0 0) 0)
                    (h.x + Int.tdiv h.w 2) (h.y + Int.tdiv h.h 2)]
               last_selected_hint := cstr buf }
        buf := buf } := by
  simp only [hint_selection_multiscreen_resolve, hm]
  rw [if_neg (by omega), if_pos hscr]

theorem hint_selection_multiscreen_resolve_next (MAX_HINTS screen_count : Nat)
    (hint_screen_x buf : List Nat) (g : Globals) (hm : g.matched.length ≠ 1) :
    hint_selection_multiscreen_resolve MAX_HINTS screen_count hint_screen_x buf g =
      Step.next { g := g, buf := buf } := by
  unfold hint_selection_multiscreen_resolve
  split
  · rename_i h hk; rw [hk] at hm; simp at hm
  · rfl

theorem hint_selection_multiscreen_resolve_cases (MAX_HINTS screen_count : Nat)
    (hint_screen_x buf : List Nat) (g : Globals) :
    (g.matched.length ≠ 1 ∧
      hint_selection_multiscreen_resolve MAX_HINTS screen_count hint_screen_x buf g =
        Step.next { g := g, buf := buf }) ∨
    ∃ k, g.matched = [k] ∧
      (hint_selection_multiscreen_resolve MAX_HINTS screen_count hint_screen_x buf g =
          Step.brk 0 { g := g, buf := buf } ∨
       hint_selection_multiscreen_resolve MAX_HINTS screen_count hint_screen_x buf g = Step.brk 0
        { g := { g with
                 calls := g.calls ++ (List.range screen_count).map Call.screen_clear ++
                   [Call.mouse_move (hint_screen_x.getD (g.matched_indices.getD 0 0) 0)
                      (k.x + Int.tdiv k.w 2 + 1) (k.y + Int.tdiv k.h 2 + 1),
                    Call.mouse_move (hint_screen_x.getD (g.matched_indices.getD 0 0) 0)
                      (k.x + Int.tdiv k.w 2) (k.y + Int.tdiv k.h 2)]
                 last_selected_hint := cstr buf }
          buf := buf }) := by
  by_cases hm : g.matched.length = 1
  · obtain ⟨k, hk⟩ := List.length_eq_one.mp hm
    refine Or.inr ⟨k, hk, ?_⟩
    simp only [hint_selection_multiscreen_resolve, hk]
    split
    · exact Or.inl rfl
    · split
      · exact Or.inr rfl
      · exact Or.inl rfl
  · exact Or.inl ⟨hm, hint_selection_multiscreen_resolve_next _ _ _ _ _ hm⟩

theorem hint_selection_multiscreen_body_edited (MAX_HINTS screen_count : Nat)
    (hint_screen_x : List Nat) (l : Loop) (ev : input_event) (buf : List Nat)
    (hk : hint_selection_multiscreen_key l.buf ev = Keyed.edited buf) :
    hint_selection_multiscreen_body MAX_HINTS screen_count hint_screen_x l ev =
      hint_selection_multiscreen_resolve MAX_HINTS screen_count hint_screen_x buf
        (draw_hints_on_all_screens MAX_HINTS screen_count hint_screen_x (cstr buf) l.g) := by
  have hz := (hint_selection_multiscreen_key_edited _ _ _ hk).2.2.2.2
  have : strlen buf = some (cstr buf).length := (strlen_eq_some_iff _ _).mpr ⟨hz, rfl⟩
  simp [hint_selection_multiscreen_body, hk, this]

theorem hint_selection_multiscreen_body_cases (MAX_HINTS screen_count : Nat)
    (hint_screen_x : List Nat) (l : Loop) (ev : input_event) :
    (hint_selection_multiscreen_key l.buf ev = Keyed.ignored ∧
      hint_selection_multiscreen_body MAX_HINTS screen_count hint_screen_x l ev = Step.next l) ∨
    (hint_selection_multiscreen_key l.buf ev = Keyed.fault ∧
      hint_selection_multiscreen_body MAX_HINTS screen_count hint_screen_x l ev = Step.fault) ∨
    (hint_selection_multiscreen_key l.buf ev = Keyed.exit ∧
      hint_selection_multiscreen_body MAX_HINTS screen_count hint_screen_x l ev =
        Step.brk (-1) l) ∨
    ∃ buf, hint_selection_multiscreen_key l.buf ev = Keyed.edited buf ∧
      hint_selection_multiscreen_body MAX_HINTS screen_count hint_screen_x l ev =
        hint_selection_multiscreen_resolve MAX_HINTS screen_count hint_screen_x buf
          (draw_hints_on_all_screens MAX_HINTS screen_count hint_screen_x (cstr buf) l.g) := by
  cases hk : hint_selection_multiscreen_key l.buf ev with
  | ignored => exact Or.inl ⟨rfl, by simp [hint_selection_multiscreen_body, hk]⟩
  | fault => exact Or.inr (Or.inl ⟨rfl, by simp [hint_selection_multiscreen_body, hk]⟩)
  | exit => exact Or.inr (Or.inr (Or.inl ⟨rfl, by simp [hint_selection_multiscreen_body, hk]⟩))
  | edited buf =>
    exact Or.inr (Or.inr (Or.inr ⟨buf, rfl,
      hint_selection_multiscreen_body_edited _ _ _ l ev buf hk⟩))

theorem hint_selection_multiscreen_init_inv (MAX_HINTS screen_count : Nat)
    (hint_screen_x : List Nat) (hints : List hint) (g : Globals) :
    Loop.inv hints g
      (hint_selection_multiscreen_init MAX_HINTS screen_count hint_screen_x hints g) := by
  have hf := draw_frame MAX_HINTS screen_count hint_screen_x [] { g with hints := hints }
  refine ⟨rfl, by simp [hint_selection_multiscreen_init],
    by simp [hint_selection_multiscreen_init], ?_, rfl⟩
  simp only [hint_selection_multiscreen_init]
  rw [mouse_moves_append, hf.2.2]
  simp [mouse_moves]

theorem hint_selection_multiscreen_body_inv (MAX_HINTS screen_count : Nat)
    (hint_screen_x : List Nat) (hints : List hint) (g : Globals) (l l1 : Loop)
    (ev : input_event) (hi : Loop.inv hints g l)
    (h : hint_selection_multiscreen_body MAX_HINTS screen_count hint_screen_x l ev =
      Step.next l1) : Loop.inv hints g l1 := by
  rcases hint_selection_multiscreen_body_cases MAX_HINTS screen_count hint_screen_x l ev with
    ⟨_, hb⟩ | ⟨_, hb⟩ | ⟨_, hb⟩ | ⟨buf, hk, hb⟩
  · rw [hb] at h; simp only [Step.next.injEq] at h; subst h; exact hi
  · rw [hb] at h; simp at h
  · rw [hb] at h; simp at h
  · rw [hb] at h
    have hf := draw_frame MAX_HINTS screen_count hint_screen_x (cstr buf) l.g
    have hke := hint_selection_multiscreen_key_edited _ _ _ hk
    obtain ⟨i1, _, i3, i4, i5⟩ := hi
    rcases hint_selection_multiscreen_resolve_cases MAX_HINTS screen_count hint_screen_x buf
      (draw_hints_on_all_screens MAX_HINTS screen_count hint_screen_x (cstr buf) l.g) with
      ⟨_, hr⟩ | ⟨k, _, hr | hr⟩
    · rw [hr] at h; simp only [Step.next.injEq] at h; subst h
      exact ⟨hf.1.trans i1, hke.2.2.2.2, hke.2.2.2.1.trans i3, hf.2.2.trans i4, hf.2.1.trans i5⟩
    · rw [hr] at h; simp at h
    · rw [hr] at h; simp at h

theorem hint_selection_multiscreen_waiting_inv (MAX_HINTS screen_count : Nat)
    (hint_screen_x : List Nat) (hints : List hint) (g : Globals) (evs : List input_event)
    (l : Loop)
    (h : hint_selection_multiscreen MAX_HINTS screen_count hint_screen_x hints g evs =
      Outcome.waiting l) : Loop.inv hints g l := by
  unfold hint_selection_multiscreen at h
  rw [hint_selection_multiscreen_loop_eq_run] at h
  exact run_waiting_inv _ _ (Loop.inv hints g)
    (fun l ev l1 hi hb =>
      hint_selection_multiscreen_body_inv MAX_HINTS screen_count hint_screen_x hints g l l1 ev
        hi hb) evs _ l
    (hint_selection_multiscreen_init_inv MAX_HINTS screen_count hint_screen_x hints g) h


/-! ## Sessions that resolve to one hint -/

theorem hint_selection_resolution (scr : Nat) (hints : List hint) (g : Globals)
    (evs rest : List input_event) (ev : input_event) (l : Loop) (buf : List Nat) (h : hint)
    (hone : hints.filter (fun k => decide (cstr buf <+: k.label)) = [h])
    (hw : hint_selection scr hints g evs = Outcome.waiting l)
    (hk : hint_selection_key l.buf ev = Keyed.edited buf) (hz : 0 ∈ buf) :
    ∃ g1, hint_selection scr hints g (evs ++ ev :: rest) = Outcome.returned 0 g1 ∧
      g1.matched = [h] ∧ g1.last_selected_hint = cstr buf ∧
      mouse_moves g1.calls = mouse_moves g.calls ++
        [Call.mouse_move scr (h.x + Int.tdiv h.w 2 + 1) (h.y + Int.tdiv h.h 2 + 1),
         Call.mouse_move scr (h.x + Int.tdiv h.w 2) (h.y + Int.tdiv h.h 2)] := by
  obtain ⟨i1, _, _, i4, _⟩ := hint_selection_waiting_inv scr hints g evs l hw
  have hf := filter_frame scr (cstr buf) l.g
  have hm : (filter scr (cstr buf) l.g).matched = [h] := by
    rw [filter_matched, i1]; exact hone
  have hb := (hint_selection_body_edited scr l ev buf hk hz).trans
    (hint_selection_resolve_one scr buf _ h hm)
  unfold hint_selection at hw ⊢
  rw [hint_selection_loop_eq_run] at hw ⊢
  refine ⟨_, run_brk _ _ evs rest ev _ l _ 0 hw hb, hm, rfl, ?_⟩
  simp only [hint_selection_exit, mouse_moves_append]
  rw [hf.2.2, i4]
  simp [mouse_moves]

theorem hint_selection_multiscreen_resolution (MAX_HINTS screen_count : Nat)
    (hint_screen_x : List Nat) (hints : List hint) (g : Globals)
    (evs rest : List input_event) (ev : input_event) (l : Loop) (buf : List Nat) (h : hint)
    (hone : hints.filter (fun k => decide (cstr buf <+: k.label)) = [h])
    (hcap : hints.length ≤ MAX_HINTS)
    (hscr : ∀ i, i < hints.length → hint_screen_x.getD i 0 < screen_count)
    (hw : hint_selection_multiscreen MAX_HINTS screen_count hint_screen_x hints g evs =
      Outcome.waiting l)
    (hk : hint_selection_multiscreen_key l.buf ev = Keyed.edited buf) :
    ∃ g1 j, hint_selection_multiscreen MAX_HINTS screen_count hint_screen_x hints g
        (evs ++ ev :: rest) = Outcome.returned 0 g1 ∧
      j < hints.length ∧ g1.matched_indices = [j] ∧
      g1.matched = [h] ∧ g1.last_selected_hint = cstr buf ∧
      mouse_moves g1.calls = mouse_moves g.calls ++
        [Call.mouse_move (hint_screen_x.getD j 0) (h.x + Int.tdiv h.w 2 + 1)
           (h.y + Int.tdiv h.h 2 + 1),
         Call.mouse_move (hint_screen_x.getD j 0) (h.x + Int.tdiv h.w 2)
           (h.y + Int.tdiv h.h 2)] := by
  obtain ⟨i1, _, _, i4, _⟩ :=
    hint_selection_multiscreen_waiting_inv MAX_HINTS screen_count hint_screen_x hints g evs l hw
  have hf := draw_frame MAX_HINTS screen_count hint_screen_x (cstr buf) l.g
  have hm : (draw_hints_on_all_screens MAX_HINTS screen_count hint_screen_x (cstr buf)
      l.g).matched = [h] := by
    rw [draw_matched _ _ _ _ _ (by rw [i1]; exact hcap) (cstr_no_zero buf), i1]; exact hone
  have hi := draw_matched_indices MAX_HINTS screen_count hint_screen_x (cstr buf) l.g
  rw [hm, i1] at hi
  obtain ⟨j, hj⟩ := List.length_eq_one.mp hi.1
  have hjlt : j < hints.length := hi.2 j (by simp [hj])
  have hidx : (draw_hints_on_all_screens MAX_HINTS screen_count hint_screen_x (cstr buf)
      l.g).matched_indices.getD 0 0 = j := by simp [hj]
  have hb := (hint_selection_multiscreen_body_edited MAX_HINTS screen_count hint_screen_x l ev
    buf hk).trans (hint_selection_multiscreen_resolve_one MAX_HINTS screen_count hint_screen_x
      buf _ h hm (by rw [hidx]; omega) (by rw [hidx]; exact hscr j hjlt))
  unfold hint_selection_multiscreen at hw ⊢
  rw [hint_selection_multiscreen_loop_eq_run] at hw ⊢
  refine ⟨_, j, run_brk _ _ evs rest ev _ l _ 0 hw hb, hjlt, hj, hm, rfl, ?_⟩
  simp only [hint_selection_multiscreen_exit, mouse_moves_append, mouse_moves_screen_clear]
  rw [hf.2.2, i4, hidx]
  simp [mouse_moves]

/-! ## Undo-all and the ways a multi-surface session can end -/

theorem cstr_set_zero (b : List Nat) (hb : 0 < b.length) : cstr (b.set 0 0) = [] := by
  cases b with
  | nil => simp at hb
  | cons a t => simp [cstr]

theorem hint_selection_multiscreen_key_undo_all (buf : List Nat) (ev : input_event)
    (hp : ev.pressed = true) (hx : ev.hint_exit = false) (hu : ev.hint_undo_all = true)
    (hz : 0 ∈ buf) (hb : 0 < buf.length) :
    hint_selection_multiscreen_key buf ev = Keyed.edited (buf.set 0 0) := by
  have : strlen buf = some (cstr buf).length := (strlen_eq_some_iff _ _).mpr ⟨hz, rfl⟩
  simp [hint_selection_multiscreen_key, hp, this, hx, hu, store, hb, Keyed.ofStore]

theorem prefix_filter_nil (hs : List hint) :
    hs.filter (fun k => decide (([] : List Nat) <+: k.label)) = hs := by
  simp

theorem hint_selection_multiscreen_body_matched (MAX_HINTS screen_count : Nat)
    (hint_screen_x : List Nat) (l : Loop) (ev : input_event) (buf : List Nat)
    (hk : hint_selection_multiscreen_key l.buf ev = Keyed.edited buf) :
    ∃ l1, l1.buf = buf ∧
      l1.g.matched = (draw_hints_on_all_screens MAX_HINTS screen_count hint_screen_x
        (cstr buf) l.g).matched ∧
      (hint_selection_multiscreen_body MAX_HINTS screen_count hint_screen_x l ev = Step.next l1 ∨
       hint_selection_multiscreen_body MAX_HINTS screen_count hint_screen_x l ev =
         Step.brk 0 l1) := by
  rw [hint_selection_multiscreen_body_edited MAX_HINTS screen_count hint_screen_x l ev buf hk]
  rcases hint_selection_multiscreen_resolve_cases MAX_HINTS screen_count hint_screen_x buf
    (draw_hints_on_all_screens MAX_HINTS screen_count hint_screen_x (cstr buf) l.g) with
    ⟨_, hr⟩ | ⟨k, _, hr | hr⟩
  · exact ⟨_, rfl, rfl, Or.inl hr⟩
  · exact ⟨_, rfl, rfl, Or.inr hr⟩
  · exact ⟨_, rfl, rfl, Or.inr hr⟩

theorem hint_selection_multiscreen_brk (MAX_HINTS screen_count : Nat)
    (hint_screen_x : List Nat) (l l1 : Loop) (ev : input_event) (rc : Int)
    (h : hint_selection_multiscreen_body MAX_HINTS screen_count hint_screen_x l ev =
      Step.brk rc l1) :
    (rc = -1 ∧ ev.pressed = true ∧ ev.hint_exit = true ∧ l1 = l) ∨
    (rc = 0 ∧ ∃ buf k, hint_selection_multiscreen_key l.buf ev = Keyed.edited buf ∧
      l1.g.matched = [k] ∧
      (draw_hints_on_all_screens MAX_HINTS screen_count hint_screen_x (cstr buf)
        l.g).matched = [k] ∧
      (l1.g.last_selected_hint = l.g.last_selected_hint ∨
        l1.g.last_selected_hint = cstr buf)) := by
  rcases hint_selection_multiscreen_body_cases MAX_HINTS screen_count hint_screen_x l ev with
    ⟨_, hb⟩ | ⟨_, hb⟩ | ⟨hk, hb⟩ | ⟨b, hk, hb⟩
  · rw [hb] at h; simp at h
  · rw [hb] at h; simp at h
  · rw [hb] at h; simp only [Step.brk.injEq] at h
    have := (hint_selection_multiscreen_key_exit l.buf ev).mp hk
    exact Or.inl ⟨h.1.symm, this.1, this.2.2, h.2.symm⟩
  · rw [hb] at h
    rcases hint_selection_multiscreen_resolve_cases MAX_HINTS screen_count hint_screen_x b
      (draw_hints_on_all_screens MAX_HINTS screen_count hint_screen_x (cstr b) l.g) with
      ⟨_, hres⟩ | ⟨k, hm, hres | hres⟩
    · rw [hres] at h; simp at h
    · rw [hres] at h; simp only [Step.brk.injEq] at h
      obtain ⟨h1, h2⟩ := h
      subst h2
      exact Or.inr ⟨h1.symm, b, k, hk, hm, hm, Or.inl rfl⟩
    · rw [hres] at h; simp only [Step.brk.injEq] at h
      obtain ⟨h1, h2⟩ := h
      subst h2
      exact Or.inr ⟨h1.symm, b, k, hk, hm, hm, Or.inr rfl⟩



/-! ## The label table -/

theorem take_append_step (labels row R : List (List Nat)) (B : Nat) :
    labels ++ List.take (B - labels.length) row ++
        List.take (B - (labels ++ List.take (B - labels.length) row).length) R =
      labels ++ List.take (B - labels.length) (row ++ R) := by
  have h : B - (labels ++ List.take (B - labels.length) row).length =
      B - labels.length - row.length := by
    simp only [List.length_append, List.length_take]
    omega
  rw [h, List.take_append_eq_append_take, List.append_assoc]

theorem labels2_j_eq (MAX_HINTS ci : Nat) (js : List Nat) (labels : List (List Nat)) :
    labels2_j MAX_HINTS ci js labels =
      labels ++ (js.map (fun cj => [ci, cj])).take (MAX_HINTS - labels.length) := by
  induction js generalizing labels with
  | nil => simp [labels2_j]
  | cons cj js ih =>
    simp only [labels2_j]
    split
    · rename_i hlt
      rw [ih, List.append_assoc]
      congr 1
      simp only [List.length_append, List.length_singleton, List.map_cons]
      obtain ⟨k, hk⟩ : ∃ k, MAX_HINTS - labels.length = k + 1 := ⟨MAX_HINTS - labels.length - 1, by omega⟩
      rw [hk, List.take_succ_cons]
      have : MAX_HINTS - (labels.length + 1) = k := by omega
      rw [this]; rfl
    · rename_i hge
      have : MAX_HINTS - labels.length = 0 := by omega
      simp [this]

theorem labels2_i_eq (MAX_HINTS : Nat) (chars is : List Nat) (labels : List (List Nat)) :
    labels2_i MAX_HINTS chars is labels =
      labels ++ (rows2 is chars).take (MAX_HINTS - labels.length) := by
  induction is generalizing labels with
  | nil => simp [labels2_i, rows2]
  | cons ci is ih =>
    simp only [labels2_i, rows2]
    split
    · rw [ih, labels2_j_eq]
      exact take_append_step labels _ _ MAX_HINTS
    · rename_i hge
      have : MAX_HINTS - labels.length = 0 := by omega
      simp [this]

theorem labels3_k_eq (MAX_HINTS total_positions ci cj : Nat) (ks : List Nat)
    (labels : List (List Nat)) :
    labels3_k MAX_HINTS total_positions ci cj ks labels =
      labels ++ (ks.map (fun ck => [ci, cj, ck])).take
        (min MAX_HINTS total_positions - labels.length) := by
  induction ks generalizing labels with
  | nil => simp [labels3_k]
  | cons ck ks ih =>
    simp only [labels3_k]
    split
    · rename_i hlt
      rw [ih, List.append_assoc]
      congr 1
      simp only [List.length_append, List.length_singleton, List.map_cons]
      obtain ⟨k, hk⟩ : ∃ k, min MAX_HINTS total_positions - labels.length = k + 1 :=
        ⟨min MAX_HINTS total_positions - labels.length - 1, by omega⟩
      rw [hk, List.take_succ_cons]
      have : min MAX_HINTS total_positions - (labels.length + 1) = k := by omega
      rw [this]; rfl
    · rename_i hge
      have : min MAX_HINTS total_positions - labels.length = 0 := by omega
      simp [this]

theorem labels3_j_eq (MAX_HINTS total_positions : Nat) (chars : List Nat) (ci : Nat)
    (js : List Nat) (labels : List (List Nat)) :
    labels3_j MAX_HINTS total_positions chars ci js labels =
      labels ++ ((rows2 js chars).map (fun l => ci :: l)).take
        (min MAX_HINTS total_positions - labels.length) := by
  induction js generalizing labels with
  | nil => simp [labels3_j, rows2]
  | cons cj js ih =>
    simp only [labels3_j, rows2]
    split
    · rw [ih, labels3_k_eq]
      rw [take_append_step labels _ _ (min MAX_HINTS total_positions)]
      simp only [List.map_append, List.map_map]
      rfl
    · rename_i hge
      have : min MAX_HINTS total_positions - labels.length = 0 := by omega
      simp [this]

theorem labels3_i_eq (MAX_HINTS total_positions : Nat) (chars is : List Nat)
    (labels : List (List Nat)) :
    labels3_i MAX_HINTS total_positions chars is labels =
      labels ++ (rows3 is chars).take (min MAX_HINTS total_positions - labels.length) := by
  induction is generalizing labels with
  | nil => simp [labels3_i, rows3]
  | cons ci is ih =>
    simp only [labels3_i, rows3]
    split
    · rw [ih, labels3_j_eq]
      exact take_append_step labels _ _ (min MAX_HINTS total_positions)
    · rename_i hge
      have : min MAX_HINTS total_positions - labels.length = 0 := by omega
      simp [this]

theorem rows2_length (cs chars : List Nat) : (rows2 cs chars).length = cs.length * chars.length := by
  induction cs with
  | nil => simp [rows2]
  | cons c cs ih => simp [rows2, ih, Nat.add_mul, Nat.add_comm]

theorem rows3_length (cs chars : List Nat) :
    (rows3 cs chars).length = cs.length * (chars.length * chars.length) := by
  induction cs with
  | nil => simp [rows3]
  | cons c cs ih => simp [rows3, ih, rows2_length, Nat.add_mul, Nat.add_comm]

theorem generate_labels_two (MAX_HINTS : Nat) (chars : List Nat) (screen_count : Nat)
    (h1 : screen_count ≤ 1) (h2 : chars.length * chars.length * screen_count ≤ 676) :
    generate_labels MAX_HINTS chars screen_count = (rows2 chars chars).take MAX_HINTS := by
  unfold generate_labels
  rw [if_neg (by omega), labels2_i_eq]
  simp

theorem generate_labels_three (MAX_HINTS : Nat) (chars : List Nat) (screen_count : Nat)
    (h : screen_count > 1 ∨ chars.length * chars.length * screen_count > 676) :
    generate_labels MAX_HINTS chars screen_count =
      (rows3 chars chars).take (min MAX_HINTS (chars.length * chars.length * screen_count)) := by
  unfold generate_labels
  rw [if_pos h, labels3_i_eq]
  simp

theorem rows2_getElem? (cs chars : List Nat) (n : Nat) (hn : n < cs.length * chars.length) :
    (rows2 cs chars)[n]? =
      some [cs.getD (n / chars.length) 0, chars.getD (n % chars.length) 0] := by
  induction cs generalizing n with
  | nil => simp at hn
  | cons c cs ih =>
    simp only [rows2]
    by_cases hlt : n < chars.length
    · rw [List.getElem?_append_left (by simpa using hlt), List.getElem?_map,
        List.getElem?_eq_getElem hlt]
      simp [Nat.div_eq_of_lt hlt, Nat.mod_eq_of_lt hlt, List.getElem?_eq_getElem hlt]
    · obtain ⟨m, rfl⟩ : ∃ m, n = chars.length + m := ⟨n - chars.length, by omega⟩
      have hpos : 0 < chars.length := by
        rcases Nat.eq_zero_or_pos chars.length with h0 | h0
        · rw [h0] at hn; simp at hn
        · exact h0
      have hm : m < cs.length * chars.length := by
        simp only [List.length_cons, Nat.add_mul, Nat.one_mul] at hn; omega
      rw [List.getElem?_append_right (by simp), List.length_map, Nat.add_sub_cancel_left, ih m hm,
        Nat.add_div_left _ hpos, Nat.add_mod_left]
      simp

theorem rows3_getElem? (cs chars : List Nat) (n : Nat)
    (hn : n < cs.length * (chars.length * chars.length)) :
    (rows3 cs chars)[n]? =
      some [cs.getD (n / (chars.length * chars.length)) 0,
        chars.getD (n / chars.length % chars.length) 0, chars.getD (n % chars.length) 0] := by
  induction cs generalizing n with
  | nil => simp at hn
  | cons c cs ih =>
    simp only [rows3]
    have hpos : 0 < chars.length := by
      rcases Nat.eq_zero_or_pos chars.length with h0 | h0
      · rw [h0] at hn; simp at hn
      · exact h0
    by_cases hlt : n < chars.length * chars.length
    · rw [List.getElem?_append_left (by simpa [rows2_length] using hlt), List.getElem?_map,
        rows2_getElem? chars chars n hlt]
      have hd : n / chars.length < chars.length := Nat.div_lt_of_lt_mul hlt
      simp [Nat.div_eq_of_lt hlt, Nat.mod_eq_of_lt hd]
    · obtain ⟨m, rfl⟩ : ∃ m, n = chars.length * chars.length + m :=
        ⟨n - chars.length * chars.length, by omega⟩
      have hm : m < cs.length * (chars.length * chars.length) := by
        simp only [List.length_cons, Nat.add_mul, Nat.one_mul] at hn; omega
      rw [List.getElem?_append_right (by simp [rows2_length]), List.length_map, rows2_length,
        Nat.add_sub_cancel_left, ih m hm, Nat.add_div_left _ (Nat.mul_pos hpos hpos),
        Nat.mul_add_div hpos, Nat.add_mod_left, Nat.mul_add_mod]
      simp

theorem mem_rows2 (cs chars l : List Nat) (h : l ∈ rows2 cs chars) :
    ∃ ci cj, ci ∈ cs ∧ cj ∈ chars ∧ l = [ci, cj] := by
  induction cs with
  | nil => simp [rows2] at h
  | cons c cs ih =>
    simp only [rows2, List.mem_append, List.mem_map] at h
    rcases h with ⟨cj, hcj, rfl⟩ | h
    · exact ⟨c, cj, by simp, hcj, rfl⟩
    · obtain ⟨ci, cj, h1, h2, h3⟩ := ih h
      exact ⟨ci, cj, by simp [h1], h2, h3⟩

theorem rows2_nodup (cs chars : List Nat) (hcs : cs.Nodup) (hch : chars.Nodup) :
    (rows2 cs chars).Nodup := by
  induction cs with
  | nil => simp [rows2]
  | cons c cs ih =>
    simp only [rows2]
    rw [List.nodup_cons] at hcs
    rw [List.nodup_append]
    refine ⟨hch.map (fun a b hab => by simpa using hab), ih hcs.2, ?_⟩
    intro l h1 h2
    simp only [List.mem_map] at h1
    obtain ⟨cj, _, rfl⟩ := h1
    obtain ⟨ci, cj', hci, _, heq⟩ := mem_rows2 cs chars _ h2
    simp only [List.cons.injEq, and_true] at heq
    exact hcs.1 (heq.1 ▸ hci)

theorem mem_rows3 (cs chars l : List Nat) (h : l ∈ rows3 cs chars) :
    ∃ ci t, ci ∈ cs ∧ l = ci :: t := by
  induction cs with
  | nil => simp [rows3] at h
  | cons c cs ih =>
    simp only [rows3, List.mem_append, List.mem_map] at h
    rcases h with ⟨t, _, rfl⟩ | h
    · exact ⟨c, t, by simp, rfl⟩
    · obtain ⟨ci, t, h1, h2⟩ := ih h
      exact ⟨ci, t, by simp [h1], h2⟩

theorem rows3_nodup (cs chars : List Nat) (hcs : cs.Nodup) (hch : chars.Nodup) :
    (rows3 cs chars).Nodup := by
  induction cs with
  | nil => simp [rows3]
  | cons c cs ih =>
    simp only [rows3]
    rw [List.nodup_cons] at hcs
    rw [List.nodup_append]
    refine ⟨(rows2_nodup chars chars hch hch).map (fun a b hab => by simpa using hab),
      ih hcs.2, ?_⟩
    intro l h1 h2
    simp only [List.mem_map] at h1
    obtain ⟨t, _, rfl⟩ := h1
    obtain ⟨ci, t', hci, heq⟩ := mem_rows3 cs chars _ h2
    simp only [List.cons.injEq] at heq
    exact hcs.1 (heq.1 ▸ hci)

/-! ## The distribution loops -/

theorem cols_loop_ok (MAX_HINTS : Nat) (labels : List (List Nat)) (w h colgap : Int)
    (screen_idx : Nat) (y : Int) (n : Nat) (x : Int) (gr : Grid)
    (hok : Grid.ok MAX_HINTS labels gr) :
    Grid.ok MAX_HINTS labels (cols_loop MAX_HINTS labels w h colgap screen_idx y n x gr) ∧
    (cols_loop MAX_HINTS labels w h colgap screen_idx y n x gr).hints.length =
      min (gr.hints.length + n) (min labels.length MAX_HINTS) := by
  induction n generalizing x gr with
  | zero =>
    have h4 := hok.2.2.2.1
    have h5 := hok.2.2.2.2
    exact ⟨hok, by simp only [cols_loop]; omega⟩
  | succ n ih =>
    obtain ⟨h1, h2, h3, h4, h5⟩ := hok
    simp only [cols_loop]
    split
    · rename_i hg
      rw [h1] at hg
      have hok1 : Grid.ok MAX_HINTS labels
          { hints := gr.hints ++
              [{ x := x, y := y, w := w, h := h, label := labels.getD gr.label_index [] }]
            hint_screen_x := gr.hint_screen_x ++ [screen_idx]
            label_index := gr.label_index + 1 } := by
        refine ⟨by simp [h1], by simp [h2], ?_, by simp; omega, by simp; omega⟩
        simp only [List.map_append, List.map_cons, List.map_nil, List.length_append,
          List.length_singleton]
        rw [h3, h1, List.take_succ, List.getElem?_eq_getElem hg.1,
          List.getD_eq_getElem _ _ hg.1]
        rfl
      obtain ⟨i1, i2⟩ := ih (x + (colgap + w)) _ hok1
      refine ⟨i1, ?_⟩
      rw [i2]
      simp only [List.length_append, List.length_singleton]
      omega
    · rename_i hg
      rw [h1] at hg
      exact ⟨⟨h1, h2, h3, h4, h5⟩, by omega⟩

theorem rows_loop_ok (MAX_HINTS : Nat) (labels : List (List Nat)) (w h colgap rowgap : Int)
    (screen_idx nc : Nat) (x_offset : Int) (n : Nat) (y : Int) (gr : Grid)
    (hok : Grid.ok MAX_HINTS labels gr) :
    Grid.ok MAX_HINTS labels
      (rows_loop MAX_HINTS labels w h colgap rowgap screen_idx nc x_offset n y gr) ∧
    (rows_loop MAX_HINTS labels w h colgap rowgap screen_idx nc x_offset n y gr).hints.length =
      min (gr.hints.length + n * nc) (min labels.length MAX_HINTS) := by
  induction n generalizing y gr with
  | zero =>
    have h4 := hok.2.2.2.1
    have h5 := hok.2.2.2.2
    exact ⟨hok, by simp only [rows_loop]; omega⟩
  | succ n ih =>
    simp only [rows_loop]
    split
    · obtain ⟨c1, c2⟩ := cols_loop_ok MAX_HINTS labels w h colgap screen_idx y nc x_offset gr hok
      obtain ⟨i1, i2⟩ := ih (y + (rowgap + h)) _ c1
      refine ⟨i1, ?_⟩
      rw [i2, c2, Nat.succ_mul]
      generalize n * nc = P
      omega
    · rename_i hg
      have h1 := hok.1
      have h4 := hok.2.2.2.1
      have h5 := hok.2.2.2.2
      rw [h1] at hg
      refine ⟨hok, ?_⟩
      generalize (n + 1) * nc = P
      omega

theorem screens_loop_ok (MAX_HINTS : Nat) (labels : List (List Nat)) (hint_size : Int)
    (nc nr : Nat) (screens : List (Int × Int)) (screen_idx : Nat) (gr : Grid)
    (hok : Grid.ok MAX_HINTS labels gr) :
    (∀ gr1, screens_loop MAX_HINTS labels hint_size nc nr screens screen_idx gr = some gr1 →
      Grid.ok MAX_HINTS labels gr1) ∧
    (nc ≠ 0 → nr ≠ 0 →
      ∃ gr1, screens_loop MAX_HINTS labels hint_size nc nr screens screen_idx gr = some gr1 ∧
        gr1.hints.length =
          min (gr.hints.length + screens.length * (nr * nc)) (min labels.length MAX_HINTS)) := by
  induction screens generalizing screen_idx gr with
  | nil =>
    have h4 := hok.2.2.2.1
    have h5 := hok.2.2.2.2
    refine ⟨fun gr1 h => ?_, fun _ _ => ⟨gr, rfl, by simp only [List.length_nil]; omega⟩⟩
    simp only [screens_loop, Option.some.injEq] at h
    subst h; exact hok
  | cons dims screens ih =>
    simp only [screens_loop]
    split
    · split
      · rename_i hz
        refine ⟨fun gr1 h => by simp at h, fun h1 h2 => ?_⟩
        rcases hz with hz | hz
        · exact absurd hz h1
        · exact absurd hz h2
      · obtain ⟨r1, r2⟩ := rows_loop_ok MAX_HINTS labels (get_hint_size hint_size dims).1
          (get_hint_size hint_size dims).2
          (Int.tdiv dims.1 nc - (get_hint_size hint_size dims).1)
          (Int.tdiv dims.2 nr - (get_hint_size hint_size dims).2) screen_idx nc
          (Int.tdiv (Int.tdiv dims.1 nc - (get_hint_size hint_size dims).1) 2) nr
          (Int.tdiv (Int.tdiv dims.2 nr - (get_hint_size hint_size dims).2) 2) gr hok
        obtain ⟨i1, i2⟩ := ih (screen_idx + 1) _ r1
        refine ⟨i1, fun h1 h2 => ?_⟩
        obtain ⟨gr1, e1, e2⟩ := i2 h1 h2
        refine ⟨gr1, e1, ?_⟩
        rw [e2, r2, List.length_cons, Nat.succ_mul]
        generalize screens.length * (nr * nc) = P
        generalize nr * nc = Q
        omega
    · rename_i hg
      have h4 := hok.2.2.2.1
      have h5 := hok.2.2.2.2
      refine ⟨fun gr1 h => ?_, fun _ _ => ⟨gr, rfl, ?_⟩⟩
      · simp only [Option.some.injEq] at h
        subst h; exact hok
      · generalize (dims :: screens).length * (nr * nc) = P
        omega

theorem grid_ok_empty (MAX_HINTS : Nat) (labels : List (List Nat)) :
    Grid.ok MAX_HINTS labels { hints := [], hint_screen_x := [], label_index := 0 } := by
  simp [Grid.ok]

theorem generate_multiscreen_hints_ok (MAX_HINTS : Nat) (chars : List Nat) (hint_size : Int)
    (screens : List (Int × Int)) :
    (∀ gr, generate_multiscreen_hints MAX_HINTS chars hint_size screens = some gr →
      Grid.ok MAX_HINTS (generate_labels MAX_HINTS chars screens.length) gr) ∧
    (chars ≠ [] → screens ≠ [] →
      ∃ gr, generate_multiscreen_hints MAX_HINTS chars hint_size screens = some gr ∧
        gr.hints.length = min (screens.length * (chars.length * chars.length))
          (min (generate_labels MAX_HINTS chars screens.length).length MAX_HINTS)) := by
  cases screens with
  | nil => exact ⟨fun gr h => by simp [generate_multiscreen_hints] at h, fun _ h => absurd rfl h⟩
  | cons d ds =>
    obtain ⟨s1, s2⟩ := screens_loop_ok MAX_HINTS
      (generate_labels MAX_HINTS chars (d :: ds).length) hint_size chars.length chars.length
      (d :: ds) 0 _ (grid_ok_empty MAX_HINTS _)
    refine ⟨fun gr h => s1 gr h, fun hc _ => ?_⟩
    have hA : chars.length ≠ 0 := by simpa using hc
    obtain ⟨gr, e1, e2⟩ := s2 hA hA
    exact ⟨gr, e1, by rw [e2]; simp⟩

/-! ## Labels of the generated hints -/

theorem getElem?_take_of_lt_length (l : List (List Nat)) (k n : Nat)
    (hn : n < (l.take k).length) : (l.take k)[n]? = l[n]? ∧ n < l.length := by
  rw [List.length_take] at hn
  rw [List.getElem?_take, if_pos (by omega)]
  exact ⟨rfl, by omega⟩

theorem generate_hint_label (MAX_HINTS : Nat) (chars : List Nat) (hint_size : Int)
    (screens : List (Int × Int)) (gr : Grid)
    (h : generate_multiscreen_hints MAX_HINTS chars hint_size screens = some gr) (n : Nat)
    (hn : n < gr.hints.length) :
    (gr.hints.map (fun k => k.label))[n]? =
      (generate_labels MAX_HINTS chars screens.length)[n]? ∧
    n < (generate_labels MAX_HINTS chars screens.length).length := by
  obtain ⟨_, _, h3, h4, _⟩ := (generate_multiscreen_hints_ok MAX_HINTS chars hint_size screens).1 gr h
  rw [h3, List.getElem?_take, if_pos hn]
  exact ⟨rfl, by omega⟩

theorem generate_hint_labels_sublist (MAX_HINTS : Nat) (chars : List Nat) (hint_size : Int)
    (screens : List (Int × Int)) (gr : Grid)
    (h : generate_multiscreen_hints MAX_HINTS chars hint_size screens = some gr) :
    (gr.hints.map (fun k => k.label)).Sublist
      (generate_labels MAX_HINTS chars screens.length) := by
  obtain ⟨_, _, h3, _, _⟩ := (generate_multiscreen_hints_ok MAX_HINTS chars hint_size screens).1 gr h
  rw [h3]
  exact List.take_sublist _ _

theorem generate_two_labels (MAX_HINTS : Nat) (chars : List Nat) (hint_size : Int)
    (dims : Int × Int) (h676 : chars.length * chars.length ≤ 676) (gr : Grid)
    (h : generate_multiscreen_hints MAX_HINTS chars hint_size [dims] = some gr) :
    (∀ n, n < gr.hints.length →
      (gr.hints.map (fun k => k.label))[n]? =
        some [cchar chars (n / chars.length), cchar chars (n % chars.length)]) ∧
    (chars.Nodup → (gr.hints.map (fun k => k.label)).Nodup) := by
  have hl : generate_labels MAX_HINTS chars [dims].length = (rows2 chars chars).take MAX_HINTS :=
    generate_labels_two MAX_HINTS chars 1 (by omega) (by simpa using h676)
  constructor
  · intro n hn
    obtain ⟨e1, e2⟩ := generate_hint_label MAX_HINTS chars hint_size [dims] gr h n hn
    rw [hl] at e1 e2
    obtain ⟨t1, t2⟩ := getElem?_take_of_lt_length _ _ _ e2
    rw [e1, t1]
    rw [rows2_length] at t2
    exact rows2_getElem? chars chars n t2
  · intro hnd
    have := generate_hint_labels_sublist MAX_HINTS chars hint_size [dims] gr h
    rw [hl] at this
    exact (this.trans (List.take_sublist _ _)).nodup (rows2_nodup chars chars hnd hnd)

theorem generate_three_labels (MAX_HINTS : Nat) (chars : List Nat) (hint_size : Int)
    (screens : List (Int × Int))
    (h3 : screens.length > 1 ∨ chars.length * chars.length * screens.length > 676) (gr : Grid)
    (h : generate_multiscreen_hints MAX_HINTS chars hint_size screens = some gr) :
    (∀ n, n < gr.hints.length →
      (gr.hints.map (fun k => k.label))[n]? =
        some [cchar chars (n / (chars.length * chars.length)),
          cchar chars (n / chars.length % chars.length), cchar chars (n % chars.length)]) ∧
    (chars.Nodup → (gr.hints.map (fun k => k.label)).Nodup) := by
  have hl := generate_labels_three MAX_HINTS chars screens.length h3
  constructor
  · intro n hn
    obtain ⟨e1, e2⟩ := generate_hint_label MAX_HINTS chars hint_size screens gr h n hn
    rw [hl] at e1 e2
    obtain ⟨t1, t2⟩ := getElem?_take_of_lt_length _ _ _ e2
    rw [e1, t1]
    rw [rows3_length] at t2
    exact rows3_getElem? chars chars n t2
  · intro hnd
    have := generate_hint_labels_sublist MAX_HINTS chars hint_size screens gr h
    rw [hl] at this
    exact (this.trans (List.take_sublist _ _)).nodup (rows3_nodup chars chars hnd hnd)

theorem generate_two_count (MAX_HINTS : Nat) (chars : List Nat) (hint_size : Int)
    (dims : Int × Int) (h676 : chars.length * chars.length ≤ 676) (hc : chars ≠ []) :
    ∃ gr, generate_multiscreen_hints MAX_HINTS chars hint_size [dims] = some gr ∧
      gr.hints.length = min (chars.length * chars.length) MAX_HINTS := by
  obtain ⟨gr, e1, e2⟩ :=
    (generate_multiscreen_hints_ok MAX_HINTS chars hint_size [dims]).2 hc (by simp)
  refine ⟨gr, e1, ?_⟩
  have hl : generate_labels MAX_HINTS chars [dims].length = (rows2 chars chars).take MAX_HINTS :=
    generate_labels_two MAX_HINTS chars 1 (by omega) (by simpa using h676)
  rw [e2, hl]
  simp only [List.length_singleton, List.length_take, rows2_length, Nat.one_mul]
  generalize chars.length * chars.length = P
  omega

theorem generate_three_count (MAX_HINTS : Nat) (chars : List Nat) (hint_size : Int)
    (screens : List (Int × Int))
    (h3 : screens.length > 1 ∨ chars.length * chars.length * screens.length > 676)
    (hc : chars ≠ []) :
    ∃ gr, generate_multiscreen_hints MAX_HINTS chars hint_size screens = some gr ∧
      gr.hints.length = min (screens.length * (chars.length * chars.length))
        (min (chars.length * (chars.length * chars.length)) MAX_HINTS) := by
  have hs : screens ≠ [] := by
    intro h0; subst h0; simp at h3
  obtain ⟨gr, e1, e2⟩ :=
    (generate_multiscreen_hints_ok MAX_HINTS chars hint_size screens).2 hc hs
  refine ⟨gr, e1, ?_⟩
  rw [e2, generate_labels_three MAX_HINTS chars screens.length h3]
  simp only [List.length_take, rows3_length]
  rw [Nat.mul_comm (chars.length * chars.length) screens.length]
  generalize screens.length * (chars.length * chars.length) = P
  generalize chars.length * (chars.length * chars.length) = Q
  omega


/-! ## Screen indices recorded by the generator -/

theorem cols_loop_screen (MAX_HINTS : Nat) (labels : List (List Nat)) (w h colgap : Int)
    (screen_idx : Nat) (y : Int) (bound : Nat) (hs : screen_idx < bound) (n : Nat) (x : Int)
    (gr : Grid) (hgr : ∀ s ∈ gr.hint_screen_x, s < bound) :
    ∀ s ∈ (cols_loop MAX_HINTS labels w h colgap screen_idx y n x gr).hint_screen_x,
      s < bound := by
  induction n generalizing x gr with
  | zero => exact hgr
  | succ n ih =>
    simp only [cols_loop]
    split
    · apply ih
      intro s hmem
      simp only [List.mem_append, List.mem_singleton] at hmem
      rcases hmem with hmem | hmem
      · exact hgr s hmem
      · omega
    · exact hgr

theorem rows_loop_screen (MAX_HINTS : Nat) (labels : List (List Nat)) (w h colgap rowgap : Int)
    (screen_idx nc : Nat) (x_offset : Int) (bound : Nat) (hs : screen_idx < bound) (n : Nat)
    (y : Int) (gr : Grid) (hgr : ∀ s ∈ gr.hint_screen_x, s < bound) :
    ∀ s ∈ (rows_loop MAX_HINTS labels w h colgap rowgap screen_idx nc x_offset n y
      gr).hint_screen_x, s < bound := by
  induction n generalizing y gr with
  | zero => exact hgr
  | succ n ih =>
    simp only [rows_loop]
    split
    · exact ih _ _ (cols_loop_screen MAX_HINTS labels w h colgap screen_idx y bound hs nc
        x_offset gr hgr)
    · exact hgr

theorem screens_loop_screen (MAX_HINTS : Nat) (labels : List (List Nat)) (hint_size : Int)
    (nc nr : Nat) (bound : Nat) (screens : List (Int × Int)) (screen_idx : Nat) (gr : Grid)
    (hb : screen_idx + screens.length ≤ bound) (hgr : ∀ s ∈ gr.hint_screen_x, s < bound)
    (gr1 : Grid)
    (h : screens_loop MAX_HINTS labels hint_size nc nr screens screen_idx gr = some gr1) :
    ∀ s ∈ gr1.hint_screen_x, s < bound := by
  induction screens generalizing screen_idx gr with
  | nil =>
    simp only [screens_loop, Option.some.injEq] at h
    subst h; exact hgr
  | cons dims screens ih =>
    simp only [screens_loop] at h
    simp only [List.length_cons] at hb
    split at h
    · split at h
      · simp at h
      · exact ih (screen_idx + 1) _ (by omega)
          (rows_loop_screen MAX_HINTS labels _ _ _ _ screen_idx nc _ bound (by omega) nr _ gr
            hgr) h
    · simp only [Option.some.injEq] at h
      subst h; exact hgr

theorem generate_multiscreen_hints_screen (MAX_HINTS : Nat) (chars : List Nat)
    (hint_size : Int) (screens : List (Int × Int)) (gr : Grid)
    (h : generate_multiscreen_hints MAX_HINTS chars hint_size screens = some gr) :
    gr.hints.length ≤ MAX_HINTS ∧
    ∀ i, i < gr.hints.length → gr.hint_screen_x.getD i 0 < screens.length := by
  obtain ⟨_, h2, _, _, h5⟩ :=
    (generate_multiscreen_hints_ok MAX_HINTS chars hint_size screens).1 gr h
  refine ⟨h5, fun i hi => ?_⟩
  have hi2 : i < gr.hint_screen_x.length := by omega
  rw [List.getD_eq_getElem _ _ hi2]
  have hall : ∀ s ∈ gr.hint_screen_x, s < screens.length := by
    cases screens with
    | nil => simp [generate_multiscreen_hints] at h
    | cons d ds =>
      exact screens_loop_screen MAX_HINTS _ hint_size chars.length chars.length
        (d :: ds).length (d :: ds) 0 _ (by simp) (by simp) gr h
  exact hall _ (List.getElem_mem _)

/-! ## Undo-all and undo-one -/

theorem hint_selection_key_undo_all (buf : List Nat) (ev : input_event)
    (hp : ev.pressed = true) (hx : ev.hint_exit = false) (hu : ev.hint_undo_all = true)
    (hz : 0 ∈ buf) (hb : 0 < buf.length) :
    hint_selection_key buf ev = Keyed.edited (buf.set 0 0) := by
  have : strlen buf = some (cstr buf).length := (strlen_eq_some_iff _ _).mpr ⟨hz, rfl⟩
  simp [hint_selection_key, hp, this, hx, hu, store, hb, Keyed.ofStore]

theorem cstr_length_le (b : List Nat) : (cstr b).length ≤ b.length := by
  unfold cstr
  exact (List.takeWhile_sublist _).length_le

theorem cstr_cons_ne_zero (a : Nat) (t : List Nat) (ha : a ≠ 0) :
    cstr (a :: t) = a :: cstr t := by
  simp [cstr, List.takeWhile_cons, ha]

theorem cstr_cons_zero (t : List Nat) : cstr (0 :: t) = [] := by
  simp [cstr]

theorem cstr_set_last (b : List Nat) (hne : cstr b ≠ []) :
    cstr (b.set ((cstr b).length - 1) 0) = (cstr b).dropLast := by
  induction b with
  | nil => simp [cstr] at hne
  | cons a t ih =>
    by_cases ha : a = 0
    · subst ha; simp [cstr] at hne
    · rw [cstr_cons_ne_zero a t ha]
      by_cases ht : cstr t = []
      · rw [ht]; simp [cstr]
      · have hlen : 0 < (cstr t).length := List.length_pos.mpr ht
        have h1 : (a :: cstr t).length - 1 = ((cstr t).length - 1) + 1 := by
          simp only [List.length_cons]; omega
        rw [h1, List.set_cons_succ, cstr_cons_ne_zero a _ ha, ih ht]
        cases hc : cstr t with
        | nil => exact absurd hc ht
        | cons c s => simp

theorem hint_selection_key_undo (buf : List Nat) (ev : input_event)
    (hp : ev.pressed = true) (hx : ev.hint_exit = false) (hua : ev.hint_undo_all = false)
    (hu : ev.hint_undo = true) (hz : 0 ∈ buf) :
    ∃ b, hint_selection_key buf ev = Keyed.edited b ∧
      hint_selection_multiscreen_key buf ev = Keyed.edited b ∧ 0 ∈ b ∧
      cstr b = (cstr buf).dropLast := by
  have hs : strlen buf = some (cstr buf).length := (strlen_eq_some_iff _ _).mpr ⟨hz, rfl⟩
  by_cases hne : cstr buf = []
  · refine ⟨buf, ?_, ?_, hz, by simp [hne]⟩
    · simp [hint_selection_key, hp, hs, hx, hua, hu, hne]
    · simp [hint_selection_multiscreen_key, hp, hs, hx, hua, hu, hne]
  · have hlen : 0 < (cstr buf).length := List.length_pos.mpr hne
    have hlt : (cstr buf).length - 1 < buf.length := by
      have := cstr_length_le buf; omega
    have hst : store buf ((cstr buf).length - 1) 0 = some (buf.set ((cstr buf).length - 1) 0) := by
      simp [store, hlt]
    refine ⟨buf.set ((cstr buf).length - 1) 0, ?_, ?_, store_mem_zero _ _ _ hst,
      cstr_set_last buf hne⟩
    · simp [hint_selection_key, hp, hs, hx, hua, hu, hne, hst, Keyed.ofStore]
    · simp [hint_selection_multiscreen_key, hp, hs, hx, hua, hu, hne, hst, Keyed.ofStore]

/-! ## One processed key press in a waiting session -/

theorem hint_selection_edit_step (scr : Nat) (hints : List hint) (g : Globals)
    (evs : List input_event) (ev : input_event) (l : Loop) (b : List Nat)
    (hw : hint_selection scr hints g evs = Outcome.waiting l)
    (hk : hint_selection_key l.buf ev = Keyed.edited b) (hz : 0 ∈ b) :
    hint_selection scr hints g (evs ++ [ev]) ≠ Outcome.fault ∧
    ((hint_selection scr hints g (evs ++ [ev])).globals g).matched =
      hints.filter (fun k => decide (cstr b <+: k.label)) ∧
    ∀ l1, hint_selection scr hints g (evs ++ [ev]) = Outcome.waiting l1 → l1.buf = b := by
  obtain ⟨i1, _, _, _, _⟩ := hint_selection_waiting_inv scr hints g evs l hw
  have hm : (filter scr (cstr b) l.g).matched =
      hints.filter (fun k => decide (cstr b <+: k.label)) := by
    rw [filter_matched, i1]
  have hb := hint_selection_body_edited scr l ev b hk hz
  have h2 : hint_selection scr hints g (evs ++ [ev]) =
      run (hint_selection_body scr) (hint_selection_exit scr) l [ev] := by
    unfold hint_selection at hw ⊢
    rw [hint_selection_loop_eq_run] at hw ⊢
    exact run_append _ _ evs [ev] _ l hw
  rw [h2]
  simp only [run, hb]
  cases hr : hint_selection_resolve scr b (filter scr (cstr b) l.g) with
  | next l1 =>
    obtain ⟨e1, _⟩ := hint_selection_resolve_next scr b _ l1 hr
    subst e1
    simp [Outcome.globals, hm]
  | brk rc l1 =>
    obtain ⟨_, _, hcase⟩ := hint_selection_resolve_brk scr b _ rc l1 hr
    rcases hcase with ⟨_, hl⟩ | ⟨k, _, hl⟩
    · simp [Outcome.globals, hint_selection_exit, hl, hm]
    · simp [Outcome.globals, hint_selection_exit, hl, hm]
  | fault =>
    exfalso
    unfold hint_selection_resolve at hr
    split at hr <;> simp at hr

theorem hint_selection_multiscreen_edit_step (MAX_HINTS screen_count : Nat)
    (hint_screen_x : List Nat) (hints : List hint) (g : Globals)
    (evs : List input_event) (ev : input_event) (l : Loop) (b : List Nat)
    (hcap : hints.length ≤ MAX_HINTS)
    (hw : hint_selection_multiscreen MAX_HINTS screen_count hint_screen_x hints g evs =
      Outcome.waiting l)
    (hk : hint_selection_multiscreen_key l.buf ev = Keyed.edited b) :
    hint_selection_multiscreen MAX_HINTS screen_count hint_screen_x hints g (evs ++ [ev]) ≠
      Outcome.fault ∧
    ((hint_selection_multiscreen MAX_HINTS screen_count hint_screen_x hints g
      (evs ++ [ev])).globals g).matched =
      hints.filter (fun k => decide (cstr b <+: k.label)) ∧
    ∀ l1, hint_selection_multiscreen MAX_HINTS screen_count hint_screen_x hints g
      (evs ++ [ev]) = Outcome.waiting l1 → l1.buf = b := by
  obtain ⟨i1, _, _, _, _⟩ :=
    hint_selection_multiscreen_waiting_inv MAX_HINTS screen_count hint_screen_x hints g evs l hw
  have hm : (draw_hints_on_all_screens MAX_HINTS screen_count hint_screen_x (cstr b)
      l.g).matched = hints.filter (fun k => decide (cstr b <+: k.label)) := by
    rw [draw_matched _ _ _ _ _ (by rw [i1]; exact hcap) (cstr_no_zero b), i1]
  obtain ⟨l2, hl2b, hl2, hb2⟩ := hint_selection_multiscreen_body_matched MAX_HINTS
    screen_count hint_screen_x l ev b hk
  have h2 : hint_selection_multiscreen MAX_HINTS screen_count hint_screen_x hints g
      (evs ++ [ev]) = run (hint_selection_multiscreen_body MAX_HINTS screen_count
        hint_screen_x) (hint_selection_multiscreen_exit screen_count) l [ev] := by
    unfold hint_selection_multiscreen at hw ⊢
    rw [hint_selection_multiscreen_loop_eq_run] at hw ⊢
    exact run_append _ _ evs [ev] _ l hw
  rw [h2]
  rcases hb2 with hb2 | hb2
  · simp [run, hb2, Outcome.globals, hl2, hm, hl2b]
  · simp [run, hb2, Outcome.globals, hint_selection_multiscreen_exit, hl2, hm]

/-! ## `get_hint_size`, `hintspec_mode` and `history_hint_mode` -/

theorem get_hint_size_eq (hint_size sw sh : Int) :
    get_hint_size hint_size (sw, sh) =
      (Int.tdiv (max sw sh * hint_size) 1000, Int.tdiv (min sw sh * hint_size) 1000) := by
  unfold get_hint_size
  by_cases h : sw < sh
  · simp only [h, if_true]
    rw [max_eq_right (le_of_lt h), min_eq_left (le_of_lt h)]
  · simp only [h, if_false]
    rw [max_eq_left (not_lt.mp h), min_eq_right (not_lt.mp h)]

theorem hintspec_loop_eq (w h : Int) (records : List (List Nat × Int × Int))
    (hints : List hint) :
    hintspec_loop w h records hints =
      hints ++ records.map (fun r =>
        { x := r.2.1 - Int.tdiv w 2, y := r.2.2 - Int.tdiv h 2, w := w, h := h,
          label := r.1 }) := by
  induction records generalizing hints with
  | nil => simp [hintspec_loop]
  | cons r records ih => simp [hintspec_loop, ih]

theorem history_loop_eq (w h : Int) (ents : List (Int × Int)) (i : Nat) (hints : List hint) :
    history_loop w h ents i hints =
      hints ++ (ents.enumFrom i).map (fun p =>
        { x := p.2.1 - Int.tdiv w 2, y := p.2.2 - Int.tdiv h 2, w := w, h := h,
          label := cstr [(97 + p.1) % 256, 0] }) := by
  induction ents generalizing i hints with
  | nil => simp [history_loop]
  | cons e ents ih => simp [history_loop, ih]

theorem history_hints_getElem? (hint_size : Int) (dims : Int × Int) (ents : List (Int × Int))
    (i : Nat) :
    (history_hints hint_size dims ents)[i]? = ents[i]?.map (fun e =>
      { x := e.1 - Int.tdiv (get_hint_size hint_size dims).1 2,
        y := e.2 - Int.tdiv (get_hint_size hint_size dims).2 2,
        w := (get_hint_size hint_size dims).1, h := (get_hint_size hint_size dims).2,
        label := cstr [(97 + i) % 256, 0] }) := by
  simp only [history_hints, history_loop_eq, List.nil_append, List.getElem?_map,
    List.getElem?_enumFrom, Option.map_map]
  cases ents[i]? <;> simp

theorem hintspec_hints_length (hint_size : Int) (dims : Int × Int)
    (records : List (List Nat × Int × Int)) :
    (hintspec_hints hint_size dims records).length = records.length := by
  simp [hintspec_hints, hintspec_loop_eq]

theorem history_hints_length (hint_size : Int) (dims : Int × Int) (ents : List (Int × Int)) :
    (history_hints hint_size dims ents).length = ents.length := by
  simp [history_hints, history_loop_eq]

theorem generate_count (MAX_HINTS : Nat) (chars : List Nat) (hint_size : Int)
    (screens : List (Int × Int)) (hc : chars ≠ []) (hs : screens ≠ []) :
    ∃ gr, generate_multiscreen_hints MAX_HINTS chars hint_size screens = some gr ∧
      gr.hints.length = min (min (chars.length * chars.length * screens.length) MAX_HINTS)
        (chars.length * (chars.length * chars.length)) := by
  by_cases h3 : screens.length > 1 ∨ chars.length * chars.length * screens.length > 676
  · obtain ⟨gr, e1, e2⟩ := generate_three_count MAX_HINTS chars hint_size screens h3 hc
    refine ⟨gr, e1, ?_⟩
    rw [e2, Nat.mul_comm screens.length (chars.length * chars.length)]
    generalize chars.length * chars.length * screens.length = P
    generalize chars.length * (chars.length * chars.length) = Q
    omega
  · have h1 : screens.length ≤ 1 := by omega
    have h2 : chars.length * chars.length * screens.length ≤ 676 := by omega
    obtain ⟨d, hd⟩ : ∃ d, screens = [d] := by
      cases screens with
      | nil => exact absurd rfl hs
      | cons d ds =>
        cases ds with
        | nil => exact ⟨d, rfl⟩
        | cons d2 ds2 => simp at h1
    subst hd
    simp only [List.length_singleton, Nat.mul_one] at h2 ⊢
    obtain ⟨gr, e1, e2⟩ := generate_two_count MAX_HINTS chars hint_size d h2 hc
    refine ⟨gr, e1, ?_⟩
    have hA : 0 < chars.length := List.length_pos.mpr hc
    have hle : chars.length * chars.length ≤ chars.length * (chars.length * chars.length) :=
      Nat.le_mul_of_pos_left _ hA
    rw [e2]
    generalize chars.length * (chars.length * chars.length) = Q at hle ⊢
    generalize chars.length * chars.length = P at hle ⊢
    omega

theorem generate_labels_nodup (MAX_HINTS : Nat) (chars : List Nat) (hint_size : Int)
    (screens : List (Int × Int)) (gr : Grid)
    (h : generate_multiscreen_hints MAX_HINTS chars hint_size screens = some gr)
    (hnd : chars.Nodup) : (gr.hints.map (fun k => k.label)).Nodup := by
  have hsub := generate_hint_labels_sublist MAX_HINTS chars hint_size screens gr h
  by_cases h3 : screens.length > 1 ∨ chars.length * chars.length * screens.length > 676
  · rw [generate_labels_three MAX_HINTS chars screens.length h3] at hsub
    exact (hsub.trans (List.take_sublist _ _)).nodup (rows3_nodup chars chars hnd hnd)
  · rw [generate_labels_two MAX_HINTS chars screens.length (by omega) (by omega)] at hsub
    exact (hsub.trans (List.take_sublist _ _)).nodup (rows2_nodup chars chars hnd hnd)

/-! ## `sift` -/

theorem sift_rows_loop_eq (chars : List Nat) (grid_sz : Nat) (x y hint_sz gap : Int) (col : Nat)
    (n row : Nat) (hints : List hint) :
    sift_rows_loop chars grid_sz x y hint_sz gap col n row hints =
      hints ++ (((List.range' row n).filter
        (fun r => decide (r * grid_sz + col < chars.length))).map (fun r => (r, col))).map
        (fun c => ({ x := x + (hint_sz + gap) * c.2, y := y + (hint_sz + gap) * c.1,
                     w := hint_sz, h := hint_sz,
                     label := [cchar chars (c.1 * grid_sz + c.2)] } : hint)) := by
  induction n generalizing row hints with
  | zero => simp [sift_rows_loop]
  | succ n ih =>
    simp only [sift_rows_loop, List.range'_succ]
    split
    · rename_i hlt
      rw [ih, List.filter_cons_of_pos (by simpa using hlt)]
      simp
    · rename_i hge
      rw [ih, List.filter_cons_of_neg (by simpa using hge)]

theorem sift_cols_loop_eq (chars : List Nat) (grid_sz : Nat) (x y hint_sz gap : Int)
    (n col : Nat) (hints : List hint) :
    sift_cols_loop chars grid_sz x y hint_sz gap n col hints =
      hints ++ (((List.range' col n).map (fun c =>
        ((List.range grid_sz).filter
          (fun r => decide (r * grid_sz + c < chars.length))).map (fun r => (r, c)))).flatten).map
        (fun c => ({ x := x + (hint_sz + gap) * c.2, y := y + (hint_sz + gap) * c.1,
                     w := hint_sz, h := hint_sz,
                     label := [cchar chars (c.1 * grid_sz + c.2)] } : hint)) := by
  induction n generalizing col hints with
  | zero => simp [sift_cols_loop]
  | succ n ih =>
    simp only [sift_cols_loop, List.range'_succ]
    rw [ih, sift_rows_loop_eq, List.range_eq_range']
    simp

theorem sift_hints_eq (gap hint_sz : Int) (chars : List Nat) (grid_sz : Int) (x y : Int)
    (dims : Int × Int) :
    sift_hints gap hint_sz chars grid_sz x y dims =
      (sift_cells grid_sz.toNat chars.length).map (fun c =>
        ({ x := x - Int.tdiv ((Int.tdiv (hint_sz * dims.2) 1000 +
                  (Int.tdiv (gap * dims.2) 1000 - 1)) * grid_sz) 2 +
                (Int.tdiv (hint_sz * dims.2) 1000 + Int.tdiv (gap * dims.2) 1000) * c.2,
           y := y - Int.tdiv ((Int.tdiv (hint_sz * dims.2) 1000 +
                  (Int.tdiv (gap * dims.2) 1000 - 1)) * grid_sz) 2 +
                (Int.tdiv (hint_sz * dims.2) 1000 + Int.tdiv (gap * dims.2) 1000) * c.1,
           w := Int.tdiv (hint_sz * dims.2) 1000, h := Int.tdiv (hint_sz * dims.2) 1000,
           label := [cchar chars (c.1 * grid_sz.toNat + c.2)] } : hint)) := by
  simp only [sift_hints, sift_cols_loop_eq, List.nil_append, sift_cells, List.range_eq_range']

theorem mem_sift_cells (g L row col : Nat) :
    (row, col) ∈ sift_cells g L ↔ row < g ∧ col < g ∧ row * g + col < L := by
  simp only [sift_cells, List.mem_flatten, List.mem_map, List.mem_range, List.mem_filter,
    decide_eq_true_eq, exists_exists_and_eq_and, Prod.mk.injEq]
  constructor
  · rintro ⟨c, hc, r, ⟨hr, hlt⟩, rfl, rfl⟩
    exact ⟨hr, hc, hlt⟩
  · rintro ⟨hr, hc, hlt⟩
    exact ⟨col, hc, row, ⟨hr, hlt⟩, rfl, rfl⟩

theorem sift_cells_nodup (g L : Nat) : (sift_cells g L).Nodup := by
  unfold sift_cells
  rw [List.nodup_flatten]
  constructor
  · intro l hl
    simp only [List.mem_map, List.mem_range] at hl
    obtain ⟨c, _, rfl⟩ := hl
    exact ((List.nodup_range g).filter _).map (fun a b hab => by simpa using hab)
  · rw [List.pairwise_map]
    refine (List.nodup_range g).imp ?_
    intro a b hab p hp1 hp2
    simp only [List.mem_map, List.mem_filter] at hp1 hp2
    obtain ⟨r1, _, rfl⟩ := hp1
    obtain ⟨r2, _, h2⟩ := hp2
    simp only [Prod.mk.injEq] at h2
    exact hab h2.2.symm

theorem sift_index_inj (g : Nat) (r1 c1 r2 c2 : Nat) (h1 : c1 < g) (h2 : c2 < g)
    (h : r1 * g + c1 = r2 * g + c2) : r1 = r2 ∧ c1 = c2 := by
  have hg : 0 < g := by omega
  have e1 : (r1 * g + c1) / g = r1 := by
    rw [Nat.mul_comm, Nat.mul_add_div hg, Nat.div_eq_of_lt h1]; rfl
  have e2 : (r2 * g + c2) / g = r2 := by
    rw [Nat.mul_comm, Nat.mul_add_div hg, Nat.div_eq_of_lt h2]; rfl
  have hr : r1 = r2 := by rw [← e1, ← e2, h]
  subst hr
  exact ⟨rfl, by omega⟩

theorem sift_cells_index_nodup (g L : Nat) :
    ((sift_cells g L).map (fun c => c.1 * g + c.2)).Nodup := by
  refine (sift_cells_nodup g L).map_on ?_
  rintro ⟨r1, c1⟩ h1 ⟨r2, c2⟩ h2 h
  have m1 := (mem_sift_cells g L r1 c1).mp h1
  have m2 := (mem_sift_cells g L r2 c2).mp h2
  obtain ⟨e1, e2⟩ := sift_index_inj g r1 c1 r2 c2 m1.2.1 m2.2.1 h
  rw [e1, e2]

theorem mem_sift_cells_index (g L n : Nat) :
    n ∈ (sift_cells g L).map (fun c => c.1 * g + c.2) ↔ n < min (g * g) L := by
  simp only [List.mem_map, Prod.exists]
  constructor
  · rintro ⟨r, c, hm, rfl⟩
    obtain ⟨hr, hc, hlt⟩ := (mem_sift_cells g L r c).mp hm
    have : r * g + c < g * g := by
      calc r * g + c < r * g + g := by omega
        _ = (r + 1) * g := by rw [Nat.succ_mul]
        _ ≤ g * g := Nat.mul_le_mul_right g hr
    exact lt_min this hlt
  · intro hn
    have hgg : n < g * g := lt_of_lt_of_le hn (min_le_left _ _)
    have hL : n < L := lt_of_lt_of_le hn (min_le_right _ _)
    have hg : 0 < g := by
      rcases Nat.eq_zero_or_pos g with h0 | h0
      · rw [h0] at hgg; simp at hgg
      · exact h0
    refine ⟨n / g, n % g, (mem_sift_cells g L _ _).mpr ⟨Nat.div_lt_of_lt_mul hgg,
      Nat.mod_lt n hg, ?_⟩, ?_⟩
    · rw [Nat.mul_comm, Nat.div_add_mod]; exact hL
    · rw [Nat.mul_comm, Nat.div_add_mod]

theorem sift_cells_length (g L : Nat) : (sift_cells g L).length = min (g * g) L := by
  have h1 := List.toFinset_card_of_nodup (sift_cells_index_nodup g L)
  have h2 : ((sift_cells g L).map (fun c => c.1 * g + c.2)).toFinset =
      Finset.range (min (g * g) L) := by
    ext n
    rw [List.mem_toFinset, mem_sift_cells_index, Finset.mem_range]
  rw [h2, Finset.card_range, List.length_map] at h1
  exact h1.symm

theorem sift_labels_nodup (chars : List Nat) (g : Nat) (hnd : chars.Nodup) :
    ((sift_cells g chars.length).map (fun c => [cchar chars (c.1 * g + c.2)])).Nodup := by
  refine (sift_cells_nodup g chars.length).map_on ?_
  rintro ⟨r1, c1⟩ h1 ⟨r2, c2⟩ h2 h
  have m1 := (mem_sift_cells g chars.length r1 c1).mp h1
  have m2 := (mem_sift_cells g chars.length r2 c2).mp h2
  simp only [List.cons.injEq, and_true, cchar] at h
  rw [List.getD_eq_getElem _ _ m1.2.2, List.getD_eq_getElem _ _ m2.2.2] at h
  have hidx := (hnd.getElem_inj_iff).mp h
  obtain ⟨e1, e2⟩ := sift_index_inj g r1 c1 r2 c2 m1.2.1 m2.2.1 hidx
  rw [e1, e2]

/-! ## Cells of the generated grid -/

theorem cell_index (A s i j : Nat) (hi : i < A) (hj : j < A) :
    (s * (A * A) + i * A + j) / (A * A) = s ∧
    (s * (A * A) + i * A + j) / A % A = i ∧
    (s * (A * A) + i * A + j) % A = j := by
  have hA : 0 < A := by omega
  have hp : s * (A * A) + i * A + j = j + A * (i + A * s) := by ring
  have h1 : (j + A * (i + A * s)) / A = i + A * s := by
    rw [Nat.add_mul_div_left _ _ hA, Nat.div_eq_of_lt hj, Nat.zero_add]
  have h2 : (i + A * s) / A = s := by
    rw [Nat.add_mul_div_left _ _ hA, Nat.div_eq_of_lt hi, Nat.zero_add]
  refine ⟨?_, ?_, ?_⟩
  · rw [← Nat.div_div_eq_div_mul, hp, h1, h2]
  · rw [hp, h1, Nat.add_mul_mod_self_left, Nat.mod_eq_of_lt hi]
  · rw [hp, Nat.add_mul_mod_self_left, Nat.mod_eq_of_lt hj]

theorem placed_push (hint_size : Int) (A : Nat) (screens : List (Int × Int))
    (labels : List (List Nat)) (gr : Grid) (k : hint) (s : Nat)
    (hlen : gr.hint_screen_x.length = gr.hints.length)
    (hpl : Grid.placed hint_size A screens labels gr)
    (hk : k = screen_cell hint_size A (screens.getD (gr.hints.length / (A * A)) (0, 0))
      (gr.hints.length / A % A) (gr.hints.length % A) (labels.getD gr.hints.length []))
    (hs : s = gr.hints.length / (A * A)) :
    Grid.placed hint_size A screens labels
      { hints := gr.hints ++ [k], hint_screen_x := gr.hint_screen_x ++ [s],
        label_index := gr.label_index + 1 } := by
  intro n hn
  simp only [List.length_append, List.length_singleton] at hn
  by_cases hlt : n < gr.hints.length
  · obtain ⟨p1, p2⟩ := hpl n hlt
    exact ⟨by rw [List.getElem?_append_left hlt]; exact p1,
      by rw [List.getElem?_append_left (by omega)]; exact p2⟩
  · have hn' : n = gr.hints.length := by omega
    subst hn'
    refine ⟨?_, ?_⟩
    · rw [List.getElem?_append_right (Nat.le_refl _)]
      simp [hk]
    · rw [List.getElem?_append_right (by omega), hlen]
      simp [hs]

theorem cols_loop_placed (MAX_HINTS : Nat) (labels : List (List Nat)) (hint_size : Int)
    (A : Nat) (screens : List (Int × Int)) (s i : Nat) (hi : i < A) (n j : Nat)
    (hj : j + n = A) (gr : Grid) (hok : Grid.ok MAX_HINTS labels gr)
    (hpl : Grid.placed hint_size A screens labels gr)
    (hsync : gr.hints.length < min labels.length MAX_HINTS →
      gr.hints.length = s * (A * A) + i * A + j) :
    Grid.placed hint_size A screens labels
      (cols_loop MAX_HINTS labels (get_hint_size hint_size (screens.getD s (0, 0))).1
        (get_hint_size hint_size (screens.getD s (0, 0))).2
        (Int.tdiv (screens.getD s (0, 0)).1 A - (get_hint_size hint_size (screens.getD s (0, 0))).1)
        s
        (Int.tdiv (Int.tdiv (screens.getD s (0, 0)).2 A -
            (get_hint_size hint_size (screens.getD s (0, 0))).2) 2 +
          (i : Int) * (Int.tdiv (screens.getD s (0, 0)).2 A -
            (get_hint_size hint_size (screens.getD s (0, 0))).2 +
            (get_hint_size hint_size (screens.getD s (0, 0))).2))
        n
        (Int.tdiv (Int.tdiv (screens.getD s (0, 0)).1 A -
            (get_hint_size hint_size (screens.getD s (0, 0))).1) 2 +
          (j : Int) * (Int.tdiv (screens.getD s (0, 0)).1 A -
            (get_hint_size hint_size (screens.getD s (0, 0))).1 +
            (get_hint_size hint_size (screens.getD s (0, 0))).1))
        gr) := by
  induction n generalizing j gr with
  | zero => exact hpl
  | succ n ih =>
    simp only [cols_loop]
    split
    · rename_i hg
      obtain ⟨h1, h2, h3, h4, h5⟩ := hok
      rw [h1] at hg
      have hlen := hsync (by omega)
      have hjA : j < A := by omega
      obtain ⟨c1, c2, c3⟩ := cell_index A s i j hi hjA
      have hpush := placed_push hint_size A screens labels gr
        { x := Int.tdiv (Int.tdiv (screens.getD s (0, 0)).1 A -
              (get_hint_size hint_size (screens.getD s (0, 0))).1) 2 +
            (j : Int) * (Int.tdiv (screens.getD s (0, 0)).1 A -
              (get_hint_size hint_size (screens.getD s (0, 0))).1 +
              (get_hint_size hint_size (screens.getD s (0, 0))).1)
          y := Int.tdiv (Int.tdiv (screens.getD s (0, 0)).2 A -
              (get_hint_size hint_size (screens.getD s (0, 0))).2) 2 +
            (i : Int) * (Int.tdiv (screens.getD s (0, 0)).2 A -
              (get_hint_size hint_size (screens.getD s (0, 0))).2 +
              (get_hint_size hint_size (screens.getD s (0, 0))).2)
          w := (get_hint_size hint_size (screens.getD s (0, 0))).1
          h := (get_hint_size hint_size (screens.getD s (0, 0))).2
          label := labels.getD gr.label_index [] } s h2 hpl
        (by rw [hlen, c1, c2, c3, h1, hlen]; rfl) (by rw [hlen, c1])
      have hok1 := (cols_loop_ok MAX_HINTS labels
        (get_hint_size hint_size (screens.getD s (0, 0))).1
        (get_hint_size hint_size (screens.getD s (0, 0))).2
        (Int.tdiv (screens.getD s (0, 0)).1 A -
          (get_hint_size hint_size (screens.getD s (0, 0))).1) s
        (Int.tdiv (Int.tdiv (screens.getD s (0, 0)).2 A -
            (get_hint_size hint_size (screens.getD s (0, 0))).2) 2 +
          (i : Int) * (Int.tdiv (screens.getD s (0, 0)).2 A -
            (get_hint_size hint_size (screens.getD s (0, 0))).2 +
            (get_hint_size hint_size (screens.getD s (0, 0))).2)) 1
        (Int.tdiv (Int.tdiv (screens.getD s (0, 0)).1 A -
            (get_hint_size hint_size (screens.getD s (0, 0))).1) 2 +
          (j : Int) * (Int.tdiv (screens.getD s (0, 0)).1 A -
            (get_hint_size hint_size (screens.getD s (0, 0))).1 +
            (get_hint_size hint_size (screens.getD s (0, 0))).1)) gr ⟨h1, h2, h3, h4, h5⟩).1
      simp only [cols_loop, h1, hg, and_self, if_true] at hok1
      have hx : Int.tdiv (Int.tdiv (screens.getD s (0, 0)).1 A -
            (get_hint_size hint_size (screens.getD s (0, 0))).1) 2 +
          (j : Int) * (Int.tdiv (screens.getD s (0, 0)).1 A -
            (get_hint_size hint_size (screens.getD s (0, 0))).1 +
            (get_hint_size hint_size (screens.getD s (0, 0))).1) +
          (Int.tdiv (screens.getD s (0, 0)).1 A -
            (get_hint_size hint_size (screens.getD s (0, 0))).1 +
            (get_hint_size hint_size (screens.getD s (0, 0))).1) =
          Int.tdiv (Int.tdiv (screens.getD s (0, 0)).1 A -
            (get_hint_size hint_size (screens.getD s (0, 0))).1) 2 +
          ((j + 1 : Nat) : Int) * (Int.tdiv (screens.getD s (0, 0)).1 A -
            (get_hint_size hint_size (screens.getD s (0, 0))).1 +
            (get_hint_size hint_size (screens.getD s (0, 0))).1) := by
        push_cast; ring
      rw [hx]
      refine ih (j + 1) (by omega) _ (by rw [h1]; exact hok1) hpush ?_
      intro _
      simp only [List.length_append, List.length_singleton]
      omega
    · exact hpl
theorem rows_loop_placed (MAX_HINTS : Nat) (labels : List (List Nat)) (hint_size : Int)
    (A : Nat) (screens : List (Int × Int)) (s : Nat) (n i : Nat) (hi : i + n = A) (gr : Grid)
    (hok : Grid.ok MAX_HINTS labels gr)
    (hpl : Grid.placed hint_size A screens labels gr)
    (hsync : gr.hints.length < min labels.length MAX_HINTS →
      gr.hints.length = s * (A * A) + i * A) :
    Grid.placed hint_size A screens labels
      (rows_loop MAX_HINTS labels (get_hint_size hint_size (screens.getD s (0, 0))).1
        (get_hint_size hint_size (screens.getD s (0, 0))).2
        (Int.tdiv (screens.getD s (0, 0)).1 A - (get_hint_size hint_size (screens.getD s (0, 0))).1)
        (Int.tdiv (screens.getD s (0, 0)).2 A - (get_hint_size hint_size (screens.getD s (0, 0))).2)
        s A
        (Int.tdiv (Int.tdiv (screens.getD s (0, 0)).1 A -
            (get_hint_size hint_size (screens.getD s (0, 0))).1) 2)
        n
        (Int.tdiv (Int.tdiv (screens.getD s (0, 0)).2 A -
            (get_hint_size hint_size (screens.getD s (0, 0))).2) 2 +
          (i : Int) * (Int.tdiv (screens.getD s (0, 0)).2 A -
            (get_hint_size hint_size (screens.getD s (0, 0))).2 +
            (get_hint_size hint_size (screens.getD s (0, 0))).2))
        gr) := by
  induction n generalizing i gr with
  | zero => exact hpl
  | succ n ih =>
    simp only [rows_loop]
    split
    · have hiA : i < A := by omega
      have hc := cols_loop_placed MAX_HINTS labels hint_size A screens s i hiA A 0 (by omega) gr
        hok hpl (by intro h; rw [hsync h]; rfl)
      simp only [Nat.cast_zero, zero_mul, add_zero] at hc
      obtain ⟨k1, k2⟩ := cols_loop_ok MAX_HINTS labels
        (get_hint_size hint_size (screens.getD s (0, 0))).1
        (get_hint_size hint_size (screens.getD s (0, 0))).2
        (Int.tdiv (screens.getD s (0, 0)).1 A -
          (get_hint_size hint_size (screens.getD s (0, 0))).1) s
        (Int.tdiv (Int.tdiv (screens.getD s (0, 0)).2 A -
            (get_hint_size hint_size (screens.getD s (0, 0))).2) 2 +
          (i : Int) * (Int.tdiv (screens.getD s (0, 0)).2 A -
            (get_hint_size hint_size (screens.getD s (0, 0))).2 +
            (get_hint_size hint_size (screens.getD s (0, 0))).2)) A
        (Int.tdiv (Int.tdiv (screens.getD s (0, 0)).1 A -
            (get_hint_size hint_size (screens.getD s (0, 0))).1) 2) gr hok
      have hy : Int.tdiv (Int.tdiv (screens.getD s (0, 0)).2 A -
            (get_hint_size hint_size (screens.getD s (0, 0))).2) 2 +
          (i : Int) * (Int.tdiv (screens.getD s (0, 0)).2 A -
            (get_hint_size hint_size (screens.getD s (0, 0))).2 +
            (get_hint_size hint_size (screens.getD s (0, 0))).2) +
          (Int.tdiv (screens.getD s (0, 0)).2 A -
            (get_hint_size hint_size (screens.getD s (0, 0))).2 +
            (get_hint_size hint_size (screens.getD s (0, 0))).2) =
          Int.tdiv (Int.tdiv (screens.getD s (0, 0)).2 A -
            (get_hint_size hint_size (screens.getD s (0, 0))).2) 2 +
          ((i + 1 : Nat) : Int) * (Int.tdiv (screens.getD s (0, 0)).2 A -
            (get_hint_size hint_size (screens.getD s (0, 0))).2 +
            (get_hint_size hint_size (screens.getD s (0, 0))).2) := by
        push_cast; ring
      rw [hy]
      refine ih (i + 1) (by omega) _ k1 hc ?_
      intro hlt
      rw [k2] at hlt ⊢
      have hlen : gr.hints.length < min labels.length MAX_HINTS := by omega
      have := hsync hlen
      rw [Nat.succ_mul]
      omega
    · exact hpl

theorem getD_of_drop (all : List (Int × Int)) (s : Nat) (dims : Int × Int)
    (rest : List (Int × Int)) (h : all.drop s = dims :: rest) :
    all.getD s (0, 0) = dims ∧ all.drop (s + 1) = rest := by
  have h1 : all[s]? = some dims := by
    have := congrArg (fun l => l[0]?) h
    simpa using this
  refine ⟨by simp [List.getD, h1], ?_⟩
  have h2 := congrArg (List.drop 1) h
  simpa [List.drop_drop, Nat.add_comm] using h2

theorem screens_loop_placed (MAX_HINTS : Nat) (labels : List (List Nat)) (hint_size : Int)
    (A : Nat) (all : List (Int × Int)) (screens : List (Int × Int)) (s : Nat)
    (hdrop : all.drop s = screens) (gr : Grid) (hok : Grid.ok MAX_HINTS labels gr)
    (hpl : Grid.placed hint_size A all labels gr)
    (hsync : gr.hints.length < min labels.length MAX_HINTS → gr.hints.length = s * (A * A))
    (gr1 : Grid)
    (h : screens_loop MAX_HINTS labels hint_size A A screens s gr = some gr1) :
    Grid.placed hint_size A all labels gr1 := by
  induction screens generalizing s gr with
  | nil =>
    simp only [screens_loop, Option.some.injEq] at h
    subst h; exact hpl
  | cons dims screens ih =>
    obtain ⟨hd, hrest⟩ := getD_of_drop all s dims screens hdrop
    simp only [screens_loop] at h
    split at h
    · split at h
      · simp at h
      · have hr := rows_loop_placed MAX_HINTS labels hint_size A all s A 0 (by omega) gr hok hpl
          (by intro hlt; rw [hsync hlt]; simp)
        simp only [Nat.cast_zero, zero_mul, add_zero] at hr
        obtain ⟨k1, k2⟩ := rows_loop_ok MAX_HINTS labels
          (get_hint_size hint_size (all.getD s (0, 0))).1
          (get_hint_size hint_size (all.getD s (0, 0))).2
          (Int.tdiv (all.getD s (0, 0)).1 A - (get_hint_size hint_size (all.getD s (0, 0))).1)
          (Int.tdiv (all.getD s (0, 0)).2 A - (get_hint_size hint_size (all.getD s (0, 0))).2)
          s A
          (Int.tdiv (Int.tdiv (all.getD s (0, 0)).1 A -
            (get_hint_size hint_size (all.getD s (0, 0))).1) 2) A
          (Int.tdiv (Int.tdiv (all.getD s (0, 0)).2 A -
            (get_hint_size hint_size (all.getD s (0, 0))).2) 2) gr hok
        rw [hd] at hr k1 k2
        refine ih (s + 1) hrest _ k1 hr ?_ h
        intro hlt
        rw [k2] at hlt ⊢
        have hlen : gr.hints.length < min labels.length MAX_HINTS := by omega
        have := hsync hlen
        rw [Nat.succ_mul]
        omega
    · simp only [Option.some.injEq] at h
      subst h; exact hpl

theorem generate_multiscreen_hints_placed (MAX_HINTS : Nat) (chars : List Nat)
    (hint_size : Int) (screens : List (Int × Int)) (gr : Grid)
    (h : generate_multiscreen_hints MAX_HINTS chars hint_size screens = some gr) :
    Grid.placed hint_size chars.length screens
      (generate_labels MAX_HINTS chars screens.length) gr := by
  cases screens with
  | nil => simp [generate_multiscreen_hints] at h
  | cons d ds =>
    exact screens_loop_placed MAX_HINTS _ hint_size chars.length (d :: ds) (d :: ds) 0 rfl _
      (grid_ok_empty MAX_HINTS _) (fun n hn => by simp at hn) (fun _ => by simp) gr h
/-! ## Indices of the matched hints -/

theorem matched_loop_index (MAX_HINTS : Nat) (s : List Nat) (all hs : List hint) (i : Nat)
    (hdrop : all.drop i = hs) (m : List hint × List Nat)
    (hlen : m.2.length = m.1.length)
    (hm : ∀ k, k < m.1.length → all[m.2.getD k 0]? = m.1[k]?) :
    ∀ k, k < (matched_loop MAX_HINTS s i hs m).1.length →
      all[(matched_loop MAX_HINTS s i hs m).2.getD k 0]? =
        (matched_loop MAX_HINTS s i hs m).1[k]? := by
  induction hs generalizing i m with
  | nil => simpa [matched_loop] using hm
  | cons h hs ih =>
    have hi : all[i]? = some h := by
      have := congrArg (fun l => l[0]?) hdrop
      simpa using this
    have hrest : all.drop (i + 1) = hs := by
      have h2 := congrArg (List.drop 1) hdrop
      simpa [List.drop_drop, Nat.add_comm] using h2
    simp only [matched_loop]
    split
    · split
      · apply ih (i + 1) hrest
        · simp [hlen]
        · intro k hk
          simp only [List.length_append, List.length_singleton] at hk
          by_cases hlt : k < m.1.length
          · rw [List.getElem?_append_left hlt, List.getD_append _ _ _ _ (by omega)]
            exact hm k hlt
          · have hk' : k = m.1.length := by omega
            subst hk'
            rw [List.getElem?_append_right (Nat.le_refl _),
              List.getD_append_right _ _ _ _ (by omega), hlen]
            simpa using hi
      · exact ih (i + 1) hrest m hlen hm
    · exact hm

theorem draw_matched_index (MAX_HINTS screen_count : Nat) (hint_screen_x s : List Nat)
    (g : Globals) (k : Nat)
    (hk : k < (draw_hints_on_all_screens MAX_HINTS screen_count hint_screen_x s g).matched.length) :
    g.hints[(draw_hints_on_all_screens MAX_HINTS screen_count hint_screen_x s
        g).matched_indices.getD k 0]? =
      (draw_hints_on_all_screens MAX_HINTS screen_count hint_screen_x s g).matched[k]? := by
  simp only [draw_hints_on_all_screens] at hk ⊢
  exact matched_loop_index MAX_HINTS s g.hints g.hints 0 rfl ([], []) rfl
    (fun k hk => by simp at hk) k hk

theorem hint_selection_multiscreen_resolution_at (MAX_HINTS screen_count : Nat)
    (hint_screen_x : List Nat) (hints : List hint) (g : Globals)
    (evs rest : List input_event) (ev : input_event) (l : Loop) (buf : List Nat) (h : hint)
    (hone : hints.filter (fun k => decide (cstr buf <+: k.label)) = [h])
    (hcap : hints.length ≤ MAX_HINTS)
    (hscr : ∀ i, i < hints.length → hint_screen_x.getD i 0 < screen_count)
    (hw : hint_selection_multiscreen MAX_HINTS screen_count hint_screen_x hints g evs =
      Outcome.waiting l)
    (hk : hint_selection_multiscreen_key l.buf ev = Keyed.edited buf) :
    ∃ g1 j, hint_selection_multiscreen MAX_HINTS screen_count hint_screen_x hints g
        (evs ++ ev :: rest) = Outcome.returned 0 g1 ∧
      g1.matched = [h] ∧ g1.matched_indices = [j] ∧ hints[j]? = some h ∧
      mouse_moves g1.calls = mouse_moves g.calls ++
        [Call.mouse_move (hint_screen_x.getD j 0) (h.x + Int.tdiv h.w 2 + 1)
           (h.y + Int.tdiv h.h 2 + 1),
         Call.mouse_move (hint_screen_x.getD j 0) (h.x + Int.tdiv h.w 2)
           (h.y + Int.tdiv h.h 2)] := by
  obtain ⟨g1, j, e1, _, e3, e4, _, e6⟩ := hint_selection_multiscreen_resolution MAX_HINTS
    screen_count hint_screen_x hints g evs rest ev l buf h hone hcap hscr hw hk
  refine ⟨g1, j, e1, e4, e3, ?_, e6⟩
  obtain ⟨i1, _, _, _, _⟩ :=
    hint_selection_multiscreen_waiting_inv MAX_HINTS screen_count hint_screen_x hints g evs l hw
  have hm : (draw_hints_on_all_screens MAX_HINTS screen_count hint_screen_x (cstr buf)
      l.g).matched = [h] := by
    rw [draw_matched _ _ _ _ _ (by rw [i1]; exact hcap) (cstr_no_zero buf), i1]; exact hone
  have hx := draw_matched_index MAX_HINTS screen_count hint_screen_x (cstr buf) l.g 0
    (by rw [hm]; simp)
  have hb := hint_selection_multiscreen_body_edited MAX_HINTS screen_count hint_screen_x l ev
    buf hk
  have hidx : g1.matched_indices = (draw_hints_on_all_screens MAX_HINTS screen_count
      hint_screen_x (cstr buf) l.g).matched_indices := by
    have hrun : hint_selection_multiscreen MAX_HINTS screen_count hint_screen_x hints g
        (evs ++ ev :: rest) = run (hint_selection_multiscreen_body MAX_HINTS screen_count
          hint_screen_x) (hint_selection_multiscreen_exit screen_count) l (ev :: rest) := by
      unfold hint_selection_multiscreen at hw ⊢
      rw [hint_selection_multiscreen_loop_eq_run] at hw ⊢
      exact run_append _ _ evs (ev :: rest) _ l hw
    rw [hrun] at e1
    simp only [run, hb] at e1
    rcases hint_selection_multiscreen_resolve_cases MAX_HINTS screen_count hint_screen_x buf
      (draw_hints_on_all_screens MAX_HINTS screen_count hint_screen_x (cstr buf) l.g) with
      ⟨hne, _⟩ | ⟨k, _, hr | hr⟩
    · rw [hm] at hne; simp at hne
    · rw [hr] at e1
      simp only [Outcome.returned.injEq, true_and] at e1
      rw [← e1]; rfl
    · rw [hr] at e1
      simp only [Outcome.returned.injEq, true_and] at e1
      rw [← e1]; rfl
  rw [hidx] at e3
  rw [e3, hm, i1] at hx
  simpa using hx

/-! ## Claims -/

/-- C1: for a hint set of at most `MAX_HINTS` hints and a typed buffer `p`
(a C string, hence without NUL bytes), `filter` and
`draw_hints_on_all_screens` both leave in `matched` exactly the hints whose
label starts with `p`, in hint-set order; extending `p` by a character `c`
never makes the matched set longer. -/
theorem C1_matched_set_is_prefix_subsequence (MAX_HINTS screen_count scr : Nat)
    (hint_screen_x : List Nat) (g : Globals) (p : List Nat) (c : Nat)
    (hcap : g.hints.length ≤ MAX_HINTS) (hp : 0 ∉ p) (hc : c ≠ 0) :
    (filter scr p g).matched = g.hints.filter (fun h => decide (p <+: h.label)) ∧
    (draw_hints_on_all_screens MAX_HINTS screen_count hint_screen_x p g).matched =
      g.hints.filter (fun h => decide (p <+: h.label)) ∧
    (draw_hints_on_all_screens MAX_HINTS screen_count hint_screen_x p g).matched =
      (filter scr p g).matched ∧
    (filter scr (p ++ [c]) g).matched.length ≤ (filter scr p g).matched.length ∧
    (draw_hints_on_all_screens MAX_HINTS screen_count hint_screen_x (p ++ [c]) g).matched.length ≤
      (draw_hints_on_all_screens MAX_HINTS screen_count hint_screen_x p g).matched.length := by
  have hpc : 0 ∉ p ++ [c] := by
    simp only [List.mem_append, List.mem_singleton, not_or]
    exact ⟨hp, fun h => hc h.symm⟩
  refine ⟨filter_matched scr p g, draw_matched _ _ _ p g hcap hp, ?_, ?_, ?_⟩
  · rw [filter_matched, draw_matched _ _ _ p g hcap hp]
  · rw [filter_matched, filter_matched]
    exact prefix_filter_mono g.hints p c
  · rw [draw_matched _ _ _ p g hcap hp, draw_matched _ _ _ (p ++ [c]) g hcap hpc]
    exact prefix_filter_mono g.hints p c

/-- C1 at the buffer `a` against the hint set `aa, ab, ba`: both filters leave
`aa, ab`. -/
theorem C1_witness :
    (filter 0 (bytes "a") { globals0 with hints := hints_aa_ab_ba }).matched =
      [box 0 0 "aa", box 20 0 "ab"] ∧
    (draw_hints_on_all_screens 2048 1 [0, 0, 0] (bytes "a")
      { globals0 with hints := hints_aa_ab_ba }).matched = [box 0 0 "aa", box 20 0 "ab"] ∧
    (draw_hints_on_all_screens 2048 1 [0, 0, 0] (bytes "a" ++ [98])
      { globals0 with hints := hints_aa_ab_ba }).matched.length ≤
      (draw_hints_on_all_screens 2048 1 [0, 0, 0] (bytes "a")
        { globals0 with hints := hints_aa_ab_ba }).matched.length :=
  ⟨by decide, by decide,
    (C1_matched_set_is_prefix_subsequence 2048 1 0 [0, 0, 0]
      { globals0 with hints := hints_aa_ab_ba } (bytes "a") 98
      (by decide) (by decide) (by decide)).2.2.2.2⟩





/-- C2: in both loops, when a key press is processed (the key handling yields
the edited buffer `buf`, still a terminated string) and the hints whose label
starts with the typed string are exactly the one hint `h`, the session
returns 0 and its pointer moves are exactly two: to
`(h.x + h.w/2 + 1, h.y + h.h/2 + 1)` and then to `(h.x + h.w/2, h.y + h.h/2)`,
whatever events `evs` led to that state. In the multi-surface loop this is
for at most `MAX_HINTS` hints whose recorded screen indices are below the
screen count, and both moves go to one screen; every hint set returned by
`generate_multiscreen_hints`, the only source of hints for that loop, is of
this kind. -/
theorem C2_unique_match_moves_to_center (scr MAX_HINTS screen_count : Nat)
    (hint_screen_x : List Nat) (hints : List hint) (g : Globals)
    (evs rest : List input_event) (ev : input_event) (l : Loop) (buf : List Nat) (h : hint)
    (hone : hints.filter (fun k => decide (cstr buf <+: k.label)) = [h]) :
    (hint_selection scr hints g evs = Outcome.waiting l →
      hint_selection_key l.buf ev = Keyed.edited buf → 0 ∈ buf →
      ∃ g1, hint_selection scr hints g (evs ++ ev :: rest) = Outcome.returned 0 g1 ∧
        mouse_moves g1.calls = mouse_moves g.calls ++
          [Call.mouse_move scr (h.x + Int.tdiv h.w 2 + 1) (h.y + Int.tdiv h.h 2 + 1),
           Call.mouse_move scr (h.x + Int.tdiv h.w 2) (h.y + Int.tdiv h.h 2)]) ∧
    (hints.length ≤ MAX_HINTS →
      (∀ i, i < hints.length → hint_screen_x.getD i 0 < screen_count) →
      hint_selection_multiscreen MAX_HINTS screen_count hint_screen_x hints g evs =
        Outcome.waiting l →
      hint_selection_multiscreen_key l.buf ev = Keyed.edited buf →
      ∃ g1 s, s < screen_count ∧
        hint_selection_multiscreen MAX_HINTS screen_count hint_screen_x hints g
          (evs ++ ev :: rest) = Outcome.returned 0 g1 ∧
        mouse_moves g1.calls = mouse_moves g.calls ++
          [Call.mouse_move s (h.x + Int.tdiv h.w 2 + 1) (h.y + Int.tdiv h.h 2 + 1),
           Call.mouse_move s (h.x + Int.tdiv h.w 2) (h.y + Int.tdiv h.h 2)]) ∧
    (∀ chars hint_size screens gr,
      generate_multiscreen_hints MAX_HINTS chars hint_size screens = some gr →
      gr.hints.length ≤ MAX_HINTS ∧
      ∀ i, i < gr.hints.length → gr.hint_screen_x.getD i 0 < screens.length) := by
  refine ⟨?_, ?_, fun chars hint_size screens gr hgen =>
    generate_multiscreen_hints_screen MAX_HINTS chars hint_size screens gr hgen⟩
  · intro hw hk hz
    obtain ⟨g1, h1, _, _, h4⟩ :=
      hint_selection_resolution scr hints g evs rest ev l buf h hone hw hk hz
    exact ⟨g1, h1, h4⟩
  · intro hcap hscr hw hk
    obtain ⟨g1, j, h1, hj, _, _, _, h4⟩ :=
      hint_selection_multiscreen_resolution MAX_HINTS screen_count hint_screen_x hints g evs
        rest ev l buf h hone hcap hscr hw hk
    exact ⟨g1, hint_screen_x.getD j 0, hscr j hj, h1, h4⟩

/-- C2 on the hint set `aa, ab, ba`: after `a`, undo, the key `b` leaves the
one hint `ba` (at `(0, 20)`, size 10 x 10), and both loops move the pointer to
`(6, 26)` and then to `(5, 25)`. -/
theorem C2_witness :
    (∃ g1, hint_selection 0 hints_aa_ab_ba globals0
        ([press 'a', press_undo] ++ press 'b' :: [press 'a']) = Outcome.returned 0 g1 ∧
      mouse_moves g1.calls = mouse_moves globals0.calls ++
        [Call.mouse_move 0 6 26, Call.mouse_move 0 5 25]) ∧
    (∃ g1 s, s < 1 ∧ hint_selection_multiscreen 2048 1 [0, 0, 0] hints_aa_ab_ba globals0
        ([press 'a', press_undo] ++ press 'b' :: [press 'a']) = Outcome.returned 0 g1 ∧
      mouse_moves g1.calls = mouse_moves globals0.calls ++
        [Call.mouse_move s 6 26, Call.mouse_move s 5 25]) :=
  ⟨(C2_unique_match_moves_to_center 0 2048 1 [0, 0, 0] hints_aa_ab_ba globals0
      [press 'a', press_undo] [press 'a'] (press 'b')
      (Outcome.state (hint_selection 0 hints_aa_ab_ba globals0 [press 'a', press_undo])
        { g := globals0, buf := [] })
      (98 :: List.replicate 31 0) (box 0 20 "ba") (by decide)).1
      (by decide) (by decide) (by decide),
   (C2_unique_match_moves_to_center 0 2048 1 [0, 0, 0] hints_aa_ab_ba globals0
      [press 'a', press_undo] [press 'a'] (press 'b')
      (Outcome.state (hint_selection_multiscreen 2048 1 [0, 0, 0] hints_aa_ab_ba globals0
        [press 'a', press_undo]) { g := globals0, buf := [] })
      (98 :: List.replicate 31 0) (box 0 20 "ba") (by decide)).2.1
      (by decide) (by decide) (by decide) (by decide)⟩


/-- C3, as the code has it: in `hint_selection`, when a processed key press
leaves no hint whose label starts with the typed string, the session returns
at once, and the value returned is 0, the value also returned on a unique
match; no pointer move is issued and `last_selected_hint` is left as it
was. -/
theorem C3_no_match_returns_zero (scr : Nat) (hints : List hint) (g : Globals)
    (evs rest : List input_event) (ev : input_event) (l : Loop) (buf : List Nat)
    (hnone : hints.filter (fun k => decide (cstr buf <+: k.label)) = [])
    (hw : hint_selection scr hints g evs = Outcome.waiting l)
    (hk : hint_selection_key l.buf ev = Keyed.edited buf) (hz : 0 ∈ buf) :
    ∃ g1, hint_selection scr hints g (evs ++ ev :: rest) = Outcome.returned 0 g1 ∧
      g1.matched = [] ∧ mouse_moves g1.calls = mouse_moves g.calls ∧
      g1.last_selected_hint = g.last_selected_hint := by
  obtain ⟨i1, _, _, i4, i5⟩ := hint_selection_waiting_inv scr hints g evs l hw
  have hf := filter_frame scr (cstr buf) l.g
  have hm : (filter scr (cstr buf) l.g).matched = [] := by
    rw [filter_matched, i1]; exact hnone
  have hb := (hint_selection_body_edited scr l ev buf hk hz).trans
    (hint_selection_resolve_none scr buf _ hm)
  unfold hint_selection at hw ⊢
  rw [hint_selection_loop_eq_run] at hw ⊢
  refine ⟨_, run_brk _ _ evs rest ev _ l _ 0 hw hb, hm, ?_, hf.2.1.trans i5⟩
  simp only [hint_selection_exit, mouse_moves_append]
  rw [hf.2.2, i4]
  simp [mouse_moves]

/-- C3 on the hint set `aa, ab, ba`: after `a`, the key `z` leaves no match
and the session returns 0. -/
theorem C3_witness :
    ∃ g1, hint_selection 0 hints_aa_ab_ba globals0 ([press 'a'] ++ press 'z' :: []) =
        Outcome.returned 0 g1 ∧
      g1.matched = [] ∧ mouse_moves g1.calls = mouse_moves globals0.calls ∧
      g1.last_selected_hint = globals0.last_selected_hint :=
  C3_no_match_returns_zero 0 hints_aa_ab_ba globals0 [press 'a'] [] (press 'z')
    (Outcome.state (hint_selection 0 hints_aa_ab_ba globals0 [press 'a'])
      { g := globals0, buf := [] })
    (97 :: 122 :: List.replicate 30 0) (by decide) (by decide) (by decide) (by decide)

/-- C3 as stated fails: on the hint set `aa, ab, ba` the key `z` leaves zero
matched hints and `hint_selection` returns 0, the very value it returns when
the key `b` resolves to the one hint `ba`. -/
theorem C3_counterexample :
    (hint_selection 0 hints_aa_ab_ba globals0 [press 'z']).rc = some 0 ∧
    ((hint_selection 0 hints_aa_ab_ba globals0 [press 'z']).globals globals0).matched = [] ∧
    (hint_selection 0 hints_aa_ab_ba globals0 [press 'b']).rc = some 0 ∧
    ((hint_selection 0 hints_aa_ab_ba globals0 [press 'b']).globals globals0).matched =
      [box 0 20 "ba"] := by
  decide

/-- C5: in both loops, from any state in which the session waits for an
event, a press matching `hint_exit` (whatever else it matches and whatever
its key name) makes the session return -1 at once: the file-scope state is
the one before the event followed only by the calls made after the loop, so
`matched` is not recomputed and no pointer move is issued. A session that
returns -1 was ended by such a press; every other return gives 0. -/
theorem C5_exit_returns_minus_one (scr MAX_HINTS screen_count : Nat)
    (hint_screen_x : List Nat) (hints : List hint) (g : Globals)
    (evs rest : List input_event) (ev : input_event) (l : Loop)
    (hp : ev.pressed = true) (hx : ev.hint_exit = true) :
    (hint_selection scr hints g evs = Outcome.waiting l →
      hint_selection scr hints g (evs ++ ev :: rest) =
        Outcome.returned (-1) (hint_selection_exit scr l.g) ∧
      (hint_selection_exit scr l.g).matched = l.g.matched ∧
      mouse_moves (hint_selection_exit scr l.g).calls = mouse_moves g.calls) ∧
    (hint_selection_multiscreen MAX_HINTS screen_count hint_screen_x hints g evs =
        Outcome.waiting l →
      hint_selection_multiscreen MAX_HINTS screen_count hint_screen_x hints g
          (evs ++ ev :: rest) =
        Outcome.returned (-1) (hint_selection_multiscreen_exit screen_count l.g) ∧
      (hint_selection_multiscreen_exit screen_count l.g).matched = l.g.matched ∧
      mouse_moves (hint_selection_multiscreen_exit screen_count l.g).calls =
        mouse_moves g.calls) ∧
    (∀ es rc g1, hint_selection scr hints g es = Outcome.returned rc g1 →
      ∃ pre e post l1, es = pre ++ e :: post ∧
        hint_selection scr hints g pre = Outcome.waiting l1 ∧
        ((rc = -1 ∧ e.pressed = true ∧ e.hint_exit = true) ∨
         (rc = 0 ∧ e.pressed = true ∧ e.hint_exit = false))) ∧
    (∀ es rc g1,
      hint_selection_multiscreen MAX_HINTS screen_count hint_screen_x hints g es =
        Outcome.returned rc g1 →
      ∃ pre e post l1, es = pre ++ e :: post ∧
        hint_selection_multiscreen MAX_HINTS screen_count hint_screen_x hints g pre =
          Outcome.waiting l1 ∧
        ((rc = -1 ∧ e.pressed = true ∧ e.hint_exit = true) ∨
         (rc = 0 ∧ e.pressed = true ∧ e.hint_exit = false))) := by
  refine ⟨?_, ?_, ?_, ?_⟩
  · intro hw
    obtain ⟨_, i2, _, i4, _⟩ := hint_selection_waiting_inv scr hints g evs l hw
    have hk := (hint_selection_key_exit l.buf ev).mpr ⟨hp, i2, hx⟩
    have hb : hint_selection_body scr l ev = Step.brk (-1) l := by
      simp [hint_selection_body, hk]
    unfold hint_selection at hw ⊢
    rw [hint_selection_loop_eq_run] at hw ⊢
    refine ⟨run_brk _ _ evs rest ev _ l _ (-1) hw hb, rfl, ?_⟩
    simp only [hint_selection_exit, mouse_moves_append]
    rw [i4]; simp [mouse_moves]
  · intro hw
    obtain ⟨_, i2, _, i4, _⟩ :=
      hint_selection_multiscreen_waiting_inv MAX_HINTS screen_count hint_screen_x hints g evs l hw
    have hk := (hint_selection_multiscreen_key_exit l.buf ev).mpr ⟨hp, i2, hx⟩
    have hb : hint_selection_multiscreen_body MAX_HINTS screen_count hint_screen_x l ev =
        Step.brk (-1) l := by
      simp [hint_selection_multiscreen_body, hk]
    unfold hint_selection_multiscreen at hw ⊢
    rw [hint_selection_multiscreen_loop_eq_run] at hw ⊢
    refine ⟨run_brk _ _ evs rest ev _ l _ (-1) hw hb, rfl, ?_⟩
    simp only [hint_selection_multiscreen_exit, mouse_moves_append, mouse_moves_screen_clear]
    rw [i4]; simp [mouse_moves]
  · intro es rc g1 hr
    unfold hint_selection at hr
    rw [hint_selection_loop_eq_run] at hr
    obtain ⟨pre, e, post, l1, l2, h1, h2, h3, _⟩ := run_returned _ _ es _ rc g1 hr
    refine ⟨pre, e, post, l1, h1, ?_, ?_⟩
    · unfold hint_selection; rw [hint_selection_loop_eq_run]; exact h2
    · rcases hint_selection_body_brk scr l1 l2 e rc h3 with ⟨hk, hrc, _⟩ | ⟨b, hk, _, hres⟩
      · have := (hint_selection_key_exit l1.buf e).mp hk
        exact Or.inl ⟨hrc, this.1, this.2.2⟩
      · have := hint_selection_key_edited l1.buf e b hk
        exact Or.inr ⟨(hint_selection_resolve_brk scr b _ rc l2 hres).1, this.1, this.2.1⟩
  · intro es rc g1 hr
    unfold hint_selection_multiscreen at hr
    rw [hint_selection_multiscreen_loop_eq_run] at hr
    obtain ⟨pre, e, post, l1, l2, h1, h2, h3, _⟩ := run_returned _ _ es _ rc g1 hr
    refine ⟨pre, e, post, l1, h1, ?_, ?_⟩
    · unfold hint_selection_multiscreen; rw [hint_selection_multiscreen_loop_eq_run]; exact h2
    · rcases hint_selection_multiscreen_body_cases MAX_HINTS screen_count hint_screen_x l1 e with
        ⟨_, hb⟩ | ⟨_, hb⟩ | ⟨hk, hb⟩ | ⟨b, hk, hb⟩
      · rw [hb] at h3; simp at h3
      · rw [hb] at h3; simp at h3
      · rw [hb] at h3; simp only [Step.brk.injEq] at h3
        have := (hint_selection_multiscreen_key_exit l1.buf e).mp hk
        exact Or.inl ⟨h3.1.symm, this.1, this.2.2⟩
      · rw [hb] at h3
        have hke := hint_selection_multiscreen_key_edited l1.buf e b hk
        rcases hint_selection_multiscreen_resolve_cases MAX_HINTS screen_count hint_screen_x b
          (draw_hints_on_all_screens MAX_HINTS screen_count hint_screen_x (cstr b) l1.g) with
          ⟨_, hres⟩ | ⟨k, _, hres | hres⟩
        · rw [hres] at h3; simp at h3
        · rw [hres] at h3; simp only [Step.brk.injEq] at h3
          exact Or.inr ⟨h3.1.symm, hke.1, hke.2.1⟩
        · rw [hres] at h3; simp only [Step.brk.injEq] at h3
          exact Or.inr ⟨h3.1.symm, hke.1, hke.2.1⟩


/-- C5 on the hint set `aa, ab, ba`: after `a`, a press matching `hint_exit`
(and also both undo actions, with the key name `a`) makes both loops return
-1 with the state they were waiting in. -/
theorem C5_witness :
    hint_selection 0 hints_aa_ab_ba globals0
        ([press 'a'] ++ press_exit_and_undo :: [press 'b']) =
      Outcome.returned (-1) (hint_selection_exit 0
        (Outcome.state (hint_selection 0 hints_aa_ab_ba globals0 [press 'a'])
          { g := globals0, buf := [] }).g) ∧
    hint_selection_multiscreen 2048 1 [0, 0, 0] hints_aa_ab_ba globals0
        ([press 'a'] ++ press_exit_and_undo :: [press 'b']) =
      Outcome.returned (-1) (hint_selection_multiscreen_exit 1
        (Outcome.state (hint_selection_multiscreen 2048 1 [0, 0, 0] hints_aa_ab_ba globals0
          [press 'a']) { g := globals0, buf := [] }).g) :=
  ⟨((C5_exit_returns_minus_one 0 2048 1 [0, 0, 0] hints_aa_ab_ba globals0 [press 'a']
      [press 'b'] press_exit_and_undo
      (Outcome.state (hint_selection 0 hints_aa_ab_ba globals0 [press 'a'])
        { g := globals0, buf := [] }) (by decide) (by decide)).1 (by decide)).1,
   ((C5_exit_returns_minus_one 0 2048 1 [0, 0, 0] hints_aa_ab_ba globals0 [press 'a']
      [press 'b'] press_exit_and_undo
      (Outcome.state (hint_selection_multiscreen 2048 1 [0, 0, 0] hints_aa_ab_ba globals0
        [press 'a']) { g := globals0, buf := [] }) (by decide) (by decide)).2.1 (by decide)).1⟩

/-- C4: in `hint_selection_multiscreen`, when a processed key press leaves no
hint whose label starts with the typed string, the session does not return:
it waits for the next event with the edited buffer kept and goes on with the
events that follow; a following undo-all press recomputes the matched set to
the full hint set without a fault. A session that returns was ended by a
press matching `hint_exit` (value -1) or by a key press that left exactly one
matched hint (value 0). -/
theorem C4_multiscreen_zero_matches_keeps_waiting (MAX_HINTS screen_count : Nat)
    (hint_screen_x : List Nat) (hints : List hint) (g : Globals)
    (evs rest : List input_event) (ev : input_event) (l : Loop) (buf : List Nat)
    (hcap : hints.length ≤ MAX_HINTS)
    (hnone : hints.filter (fun k => decide (cstr buf <+: k.label)) = [])
    (hw : hint_selection_multiscreen MAX_HINTS screen_count hint_screen_x hints g evs =
      Outcome.waiting l)
    (hk : hint_selection_multiscreen_key l.buf ev = Keyed.edited buf) :
    (∃ l1, l1.buf = buf ∧ l1.g.matched = [] ∧
      hint_selection_multiscreen MAX_HINTS screen_count hint_screen_x hints g (evs ++ [ev]) =
        Outcome.waiting l1 ∧
      hint_selection_multiscreen MAX_HINTS screen_count hint_screen_x hints g
          (evs ++ ev :: rest) =
        hint_selection_multiscreen_loop MAX_HINTS screen_count hint_screen_x l1 rest ∧
      ∀ u : input_event, u.pressed = true → u.hint_exit = false → u.hint_undo_all = true →
        hint_selection_multiscreen MAX_HINTS screen_count hint_screen_x hints g
            (evs ++ [ev, u]) ≠ Outcome.fault ∧
        ((hint_selection_multiscreen MAX_HINTS screen_count hint_screen_x hints g
            (evs ++ [ev, u])).globals g).matched = hints) ∧
    (∀ es rc g1,
      hint_selection_multiscreen MAX_HINTS screen_count hint_screen_x hints g es =
        Outcome.returned rc g1 →
      ∃ pre e post l1, es = pre ++ e :: post ∧
        hint_selection_multiscreen MAX_HINTS screen_count hint_screen_x hints g pre =
          Outcome.waiting l1 ∧
        ((rc = -1 ∧ e.pressed = true ∧ e.hint_exit = true) ∨
         (rc = 0 ∧ ∃ b k, hint_selection_multiscreen_key l1.buf e = Keyed.edited b ∧
            g1.matched = [k] ∧
            hints.filter (fun x => decide (cstr b <+: x.label)) = [k]))) := by
  obtain ⟨i1, i2, i3, i4, i5⟩ :=
    hint_selection_multiscreen_waiting_inv MAX_HINTS screen_count hint_screen_x hints g evs l hw
  have hke := hint_selection_multiscreen_key_edited l.buf ev buf hk
  have hm : (draw_hints_on_all_screens MAX_HINTS screen_count hint_screen_x (cstr buf)
      l.g).matched = [] := by
    rw [draw_matched _ _ _ _ _ (by rw [i1]; exact hcap) (cstr_no_zero buf), i1]; exact hnone
  have hb := (hint_selection_multiscreen_body_edited MAX_HINTS screen_count hint_screen_x l ev
    buf hk).trans (hint_selection_multiscreen_resolve_next MAX_HINTS screen_count hint_screen_x
      buf _ (by rw [hm]; simp))
  constructor
  · refine ⟨Loop.mk (draw_hints_on_all_screens MAX_HINTS screen_count hint_screen_x (cstr buf)
      l.g) buf, rfl, hm, ?_, ?_, ?_⟩
    · unfold hint_selection_multiscreen at hw ⊢
      rw [hint_selection_multiscreen_loop_eq_run] at hw ⊢
      rw [run_next _ _ evs [] ev _ l _ hw hb]; rfl
    · unfold hint_selection_multiscreen at hw ⊢
      rw [hint_selection_multiscreen_loop_eq_run] at hw ⊢
      rw [run_next _ _ evs rest ev _ l _ hw hb, hint_selection_multiscreen_loop_eq_run]
    · intro u hp hx hu
      have hku := hint_selection_multiscreen_key_undo_all buf u hp hx hu hke.2.2.2.2
        (by rw [hke.2.2.2.1, i3]; omega)
      obtain ⟨l2, _, hl2, hb2⟩ := hint_selection_multiscreen_body_matched MAX_HINTS
        screen_count hint_screen_x
        (Loop.mk (draw_hints_on_all_screens MAX_HINTS screen_count hint_screen_x (cstr buf) l.g)
          buf) u _ hku
      rw [cstr_set_zero buf (by rw [hke.2.2.2.1, i3]; omega),
        draw_matched _ _ _ _ _ (by show l.g.hints.length ≤ MAX_HINTS; rw [i1]; exact hcap)
          (by simp)] at hl2
      simp only [List.nil_prefix, decide_True, List.filter_true] at hl2
      have hl2' : l2.g.matched = hints := hl2.trans i1
      have h2 : hint_selection_multiscreen MAX_HINTS screen_count hint_screen_x hints g
          (evs ++ [ev, u]) = run (hint_selection_multiscreen_body MAX_HINTS screen_count
            hint_screen_x) (hint_selection_multiscreen_exit screen_count)
            (Loop.mk (draw_hints_on_all_screens MAX_HINTS screen_count hint_screen_x (cstr buf)
              l.g) buf) [u] := by
        unfold hint_selection_multiscreen at hw ⊢
        rw [hint_selection_multiscreen_loop_eq_run] at hw ⊢
        exact run_next _ _ evs [u] ev _ l _ hw hb
      rw [h2]
      rcases hb2 with hb2 | hb2
      · simp [run, hb2, Outcome.globals, hl2']
      · simp [run, hb2, Outcome.globals, hint_selection_multiscreen_exit, hl2']
  · intro es rc g1 hr
    unfold hint_selection_multiscreen at hr
    rw [hint_selection_multiscreen_loop_eq_run] at hr
    obtain ⟨pre, e, post, l1, l2, h1, h2, h3, h4⟩ := run_returned _ _ es _ rc g1 hr
    have hw1 : hint_selection_multiscreen MAX_HINTS screen_count hint_screen_x hints g pre =
        Outcome.waiting l1 := by
      unfold hint_selection_multiscreen; rw [hint_selection_multiscreen_loop_eq_run]; exact h2
    refine ⟨pre, e, post, l1, h1, hw1, ?_⟩
    obtain ⟨j1, _, _, _, _⟩ := hint_selection_multiscreen_waiting_inv MAX_HINTS screen_count
      hint_screen_x hints g pre l1 hw1
    rcases hint_selection_multiscreen_brk MAX_HINTS screen_count hint_screen_x l1 l2 e rc h3 with
      ⟨hrc, hp, hx, _⟩ | ⟨hrc, b, k, hkb, hmk, hdk, _⟩
    · exact Or.inl ⟨hrc, hp, hx⟩
    · refine Or.inr ⟨hrc, b, k, hkb, ?_, ?_⟩
      · rw [h4]; exact hmk
      · rw [draw_matched _ _ _ _ _ (by rw [j1]; exact hcap) (cstr_no_zero b), j1] at hdk
        exact hdk


/-- C4 on the hint set `aa, ab, ba`: the key `z` leaves no match and the
multi-surface session keeps waiting with the buffer `z`; a following undo
brings back the full hint set. -/
theorem C4_witness :
    (∃ l1, l1.buf = 122 :: List.replicate 31 0 ∧ l1.g.matched = [] ∧
      hint_selection_multiscreen 2048 1 [0, 0, 0] hints_aa_ab_ba globals0 ([] ++ [press 'z']) =
        Outcome.waiting l1) ∧
    ((hint_selection_multiscreen 2048 1 [0, 0, 0] hints_aa_ab_ba globals0
      [press 'z', press_undo]).globals globals0).matched = hints_aa_ab_ba := by
  obtain ⟨l1, h1, h2, h3, _⟩ :=
    (C4_multiscreen_zero_matches_keeps_waiting 2048 1 [0, 0, 0] hints_aa_ab_ba globals0 [] []
      (press 'z') (hint_selection_multiscreen_init 2048 1 [0, 0, 0] hints_aa_ab_ba globals0)
      (122 :: List.replicate 31 0) (by decide) (by decide) (by decide) (by decide)).1
  exact ⟨⟨l1, h1, h2, h3⟩, by decide⟩

/-- Whenever a session of either loop returns, `last_selected_hint` is what
it was before the session, unless the session returned 0 with exactly one
matched hint, in which case it is the string typed up to the key press that
resolved the session. -/
theorem last_selected_hint_on_return (scr MAX_HINTS screen_count : Nat)
    (hint_screen_x : List Nat) (hints : List hint) (g : Globals) (es : List input_event)
    (rc : Int) (g1 : Globals) :
    (hint_selection scr hints g es = Outcome.returned rc g1 →
      (rc = -1 → g1.last_selected_hint = g.last_selected_hint) ∧
      (g1.matched.length ≠ 1 → g1.last_selected_hint = g.last_selected_hint) ∧
      (g1.last_selected_hint = g.last_selected_hint ∨ (rc = 0 ∧ g1.matched.length = 1)) ∧
      (rc = 0 → g1.matched.length = 1 →
        ∃ pre e post l buf, es = pre ++ e :: post ∧
          hint_selection scr hints g pre = Outcome.waiting l ∧
          hint_selection_key l.buf e = Keyed.edited buf ∧
          g1.last_selected_hint = cstr buf)) ∧
    (hint_selection_multiscreen MAX_HINTS screen_count hint_screen_x hints g es =
        Outcome.returned rc g1 →
      (rc = -1 → g1.last_selected_hint = g.last_selected_hint) ∧
      (g1.matched.length ≠ 1 → g1.last_selected_hint = g.last_selected_hint) ∧
      (g1.last_selected_hint = g.last_selected_hint ∨
        (rc = 0 ∧ g1.matched.length = 1 ∧
          ∃ pre e post l buf, es = pre ++ e :: post ∧
            hint_selection_multiscreen MAX_HINTS screen_count hint_screen_x hints g pre =
              Outcome.waiting l ∧
            hint_selection_multiscreen_key l.buf e = Keyed.edited buf ∧
            g1.last_selected_hint = cstr buf))) := by
  constructor
  · intro hr
    unfold hint_selection at hr
    rw [hint_selection_loop_eq_run] at hr
    obtain ⟨pre, e, post, l1, l2, h1, h2, h3, h4⟩ := run_returned _ _ es _ rc g1 hr
    have hw1 : hint_selection scr hints g pre = Outcome.waiting l1 := by
      unfold hint_selection; rw [hint_selection_loop_eq_run]; exact h2
    obtain ⟨_, _, _, _, j5⟩ := hint_selection_waiting_inv scr hints g pre l1 hw1
    have hg1 : g1.last_selected_hint = l2.g.last_selected_hint := by rw [h4]; rfl
    have hg2 : g1.matched = l2.g.matched := by rw [h4]; rfl
    rcases hint_selection_body_brk scr l1 l2 e rc h3 with ⟨_, hrc, hl⟩ | ⟨b, hkb, _, hres⟩
    · have hu : g1.last_selected_hint = g.last_selected_hint := by rw [hg1, hl]; exact j5
      refine ⟨fun _ => hu, fun _ => hu, Or.inl hu, ?_⟩
      intro h0; rw [hrc] at h0; simp at h0
    · obtain ⟨hrc, _, hcase⟩ := hint_selection_resolve_brk scr b _ rc l2 hres
      have hf := filter_frame scr (cstr b) l1.g
      rcases hcase with ⟨hm, hl⟩ | ⟨k, hm, hl⟩
      · have hu : g1.last_selected_hint = g.last_selected_hint := by
          rw [hg1, hl, hf.2.1]; exact j5
        have hm1 : g1.matched = [] := by rw [hg2, hl]; exact hm
        refine ⟨fun _ => hu, fun _ => hu, Or.inl hu, ?_⟩
        intro _ h1'; rw [hm1] at h1'; simp at h1'
      · have hm1 : g1.matched = [k] := by rw [hg2, hl]; exact hm
        have hls : g1.last_selected_hint = cstr b := by rw [hg1, hl]
        refine ⟨?_, ?_, Or.inr ⟨hrc, by rw [hm1]; rfl⟩, ?_⟩
        · intro h0; rw [hrc] at h0; simp at h0
        · intro hne; rw [hm1] at hne; simp at hne
        · intro _ _; exact ⟨pre, e, post, l1, b, h1, hw1, hkb, hls⟩
  · intro hr
    unfold hint_selection_multiscreen at hr
    rw [hint_selection_multiscreen_loop_eq_run] at hr
    obtain ⟨pre, e, post, l1, l2, h1, h2, h3, h4⟩ := run_returned _ _ es _ rc g1 hr
    have hw1 : hint_selection_multiscreen MAX_HINTS screen_count hint_screen_x hints g pre =
        Outcome.waiting l1 := by
      unfold hint_selection_multiscreen; rw [hint_selection_multiscreen_loop_eq_run]; exact h2
    obtain ⟨_, _, _, _, j5⟩ := hint_selection_multiscreen_waiting_inv MAX_HINTS screen_count
      hint_screen_x hints g pre l1 hw1
    have hg1 : g1.last_selected_hint = l2.g.last_selected_hint := by rw [h4]; rfl
    have hg2 : g1.matched = l2.g.matched := by rw [h4]; rfl
    rcases hint_selection_multiscreen_brk MAX_HINTS screen_count hint_screen_x l1 l2 e rc h3 with
      ⟨hrc, _, _, hl⟩ | ⟨hrc, b, k, hkb, hmk, _, hls⟩
    · have hu : g1.last_selected_hint = g.last_selected_hint := by rw [hg1, hl]; exact j5
      exact ⟨fun _ => hu, fun _ => hu, Or.inl hu⟩
    · have hm1 : g1.matched = [k] := by rw [hg2]; exact hmk
      refine ⟨?_, ?_, ?_⟩
      · intro h0; rw [hrc] at h0; simp at h0
      · intro hne; rw [hm1] at hne; simp at hne
      · rcases hls with hls | hls
        · exact Or.inl (by rw [hg1, hls]; exact j5)
        · exact Or.inr ⟨hrc, by rw [hm1]; rfl, pre, e, post, l1, b, h1, hw1, hkb,
            by rw [hg1]; exact hls⟩


/-- C6: `last_selected_hint` is written exactly when a session resolves to
one hint. Whenever a session of either loop returns, `last_selected_hint` is
what it was before the session, unless the session returned 0 with exactly
one matched hint, in which case it is the string typed up to the key press
that resolved the session; a session ended by `hint_exit` (value -1) or with
a matched set that is not a single hint leaves it unchanged. Conversely, in
both loops a processed key press that leaves exactly one matched hint ends
the session with `last_selected_hint` equal to the typed string (in the
multi-surface loop for at most `MAX_HINTS` hints whose recorded screen
indices are below the screen count, as `generate_multiscreen_hints` gives
them), and under the same conditions every return of 0 from the
multi-surface loop has written the typed string. -/
theorem C6_last_selected_hint_written_on_resolution (scr MAX_HINTS screen_count : Nat)
    (hint_screen_x : List Nat) (hints : List hint) (g : Globals) (es : List input_event)
    (rc : Int) (g1 : Globals) (evs rest : List input_event) (ev : input_event) (l : Loop)
    (buf : List Nat) (h : hint) :
    (hint_selection scr hints g es = Outcome.returned rc g1 →
      (rc = -1 → g1.last_selected_hint = g.last_selected_hint) ∧
      (g1.matched.length ≠ 1 → g1.last_selected_hint = g.last_selected_hint) ∧
      (g1.last_selected_hint = g.last_selected_hint ∨ (rc = 0 ∧ g1.matched.length = 1)) ∧
      (rc = 0 → g1.matched.length = 1 →
        ∃ pre e post l buf, es = pre ++ e :: post ∧
          hint_selection scr hints g pre = Outcome.waiting l ∧
          hint_selection_key l.buf e = Keyed.edited buf ∧
          g1.last_selected_hint = cstr buf)) ∧
    (hint_selection_multiscreen MAX_HINTS screen_count hint_screen_x hints g es =
        Outcome.returned rc g1 →
      (rc = -1 → g1.last_selected_hint = g.last_selected_hint) ∧
      (g1.matched.length ≠ 1 → g1.last_selected_hint = g.last_selected_hint) ∧
      (g1.last_selected_hint = g.last_selected_hint ∨
        (rc = 0 ∧ g1.matched.length = 1 ∧
          ∃ pre e post l buf, es = pre ++ e :: post ∧
            hint_selection_multiscreen MAX_HINTS screen_count hint_screen_x hints g pre =
              Outcome.waiting l ∧
            hint_selection_multiscreen_key l.buf e = Keyed.edited buf ∧
            g1.last_selected_hint = cstr buf))) ∧
    (hints.filter (fun k => decide (cstr buf <+: k.label)) = [h] →
      hint_selection scr hints g evs = Outcome.waiting l →
      hint_selection_key l.buf ev = Keyed.edited buf → 0 ∈ buf →
      ∃ g2, hint_selection scr hints g (evs ++ ev :: rest) = Outcome.returned 0 g2 ∧
        g2.matched = [h] ∧ g2.last_selected_hint = cstr buf) ∧
    (hints.filter (fun k => decide (cstr buf <+: k.label)) = [h] →
      hints.length ≤ MAX_HINTS →
      (∀ i, i < hints.length → hint_screen_x.getD i 0 < screen_count) →
      hint_selection_multiscreen MAX_HINTS screen_count hint_screen_x hints g evs =
        Outcome.waiting l →
      hint_selection_multiscreen_key l.buf ev = Keyed.edited buf →
      ∃ g2, hint_selection_multiscreen MAX_HINTS screen_count hint_screen_x hints g
          (evs ++ ev :: rest) = Outcome.returned 0 g2 ∧
        g2.matched = [h] ∧ g2.last_selected_hint = cstr buf) ∧
    (hints.length ≤ MAX_HINTS →
      (∀ i, i < hints.length → hint_screen_x.getD i 0 < screen_count) →
      hint_selection_multiscreen MAX_HINTS screen_count hint_screen_x hints g es =
        Outcome.returned rc g1 →
      rc = 0 →
      g1.matched.length = 1 ∧
      ∃ pre e post l1 b, es = pre ++ e :: post ∧
        hint_selection_multiscreen MAX_HINTS screen_count hint_screen_x hints g pre =
          Outcome.waiting l1 ∧
        hint_selection_multiscreen_key l1.buf e = Keyed.edited b ∧
        g1.last_selected_hint = cstr b) := by
  obtain ⟨old1, old2⟩ := last_selected_hint_on_return scr MAX_HINTS screen_count hint_screen_x
    hints g es rc g1
  refine ⟨old1, old2, ?_, ?_, ?_⟩
  · intro hone hw hk hz
    obtain ⟨g2, e1, e2, e3, _⟩ :=
      hint_selection_resolution scr hints g evs rest ev l buf h hone hw hk hz
    exact ⟨g2, e1, e2, e3⟩
  · intro hone hcap hscr hw hk
    obtain ⟨g2, j, e1, _, _, e4, e5, _⟩ := hint_selection_multiscreen_resolution MAX_HINTS
      screen_count hint_screen_x hints g evs rest ev l buf h hone hcap hscr hw hk
    exact ⟨g2, e1, e4, e5⟩
  · intro hcap hscr hr hrc
    have hr0 := hr
    unfold hint_selection_multiscreen at hr
    rw [hint_selection_multiscreen_loop_eq_run] at hr
    obtain ⟨pre, e, post, l1, l2, h1, h2, h3, _⟩ := run_returned _ _ es _ rc g1 hr
    have hw1 : hint_selection_multiscreen MAX_HINTS screen_count hint_screen_x hints g pre =
        Outcome.waiting l1 := by
      unfold hint_selection_multiscreen; rw [hint_selection_multiscreen_loop_eq_run]; exact h2
    obtain ⟨j1, _, _, _, _⟩ := hint_selection_multiscreen_waiting_inv MAX_HINTS screen_count
      hint_screen_x hints g pre l1 hw1
    rcases hint_selection_multiscreen_brk MAX_HINTS screen_count hint_screen_x l1 l2 e rc h3 with
      ⟨hm1, _, _, _⟩ | ⟨_, b, k, hkb, _, hdk, _⟩
    · rw [hrc] at hm1; simp at hm1
    · rw [draw_matched _ _ _ _ _ (by rw [j1]; exact hcap) (cstr_no_zero b), j1] at hdk
      obtain ⟨g2, j, e1, _, _, e4, e5, _⟩ := hint_selection_multiscreen_resolution MAX_HINTS
        screen_count hint_screen_x hints g pre post e l1 b k hdk hcap hscr hw1 hkb
      rw [← h1, hr0] at e1
      simp only [Outcome.returned.injEq] at e1
      obtain ⟨_, hg⟩ := e1
      subst hg
      exact ⟨by rw [e4]; rfl, pre, e, post, l1, b, h1, hw1, hkb, e5⟩

/-- C6 on the hint set `aa, ab, ba`: after `a`, undo, the key `b` resolves
both loops to `ba`, and `last_selected_hint` then holds the typed string `b`;
the session that `z` ends without a match leaves it as it was. -/
theorem C6_witness :
    (∃ g2, hint_selection 0 hints_aa_ab_ba globals0
        ([press 'a', press_undo] ++ press 'b' :: []) = Outcome.returned 0 g2 ∧
      g2.matched = [box 0 20 "ba"] ∧
      g2.last_selected_hint = cstr (98 :: List.replicate 31 0)) ∧
    (∃ g2, hint_selection_multiscreen 2048 1 [0, 0, 0] hints_aa_ab_ba globals0
        ([press 'a', press_undo] ++ press 'b' :: []) = Outcome.returned 0 g2 ∧
      g2.matched = [box 0 20 "ba"] ∧
      g2.last_selected_hint = cstr (98 :: List.replicate 31 0)) ∧
    ((hint_selection_multiscreen 2048 1 [0, 0, 0] hints_aa_ab_ba globals0
      [press 'a', press_undo, press 'b']).globals globals0).last_selected_hint = bytes "b" ∧
    ((hint_selection 0 hints_aa_ab_ba { globals0 with last_selected_hint := bytes "b" }
      [press 'z']).globals globals0).last_selected_hint = bytes "b" :=
  ⟨(C6_last_selected_hint_written_on_resolution 0 2048 1 [0, 0, 0] hints_aa_ab_ba globals0
      [] 0 globals0 [press 'a', press_undo] [] (press 'b')
      (Outcome.state (hint_selection 0 hints_aa_ab_ba globals0 [press 'a', press_undo])
        (Loop.mk globals0 []))
      (98 :: List.replicate 31 0) (box 0 20 "ba")).2.2.1
      (by decide) (by decide) (by decide) (by decide),
   (C6_last_selected_hint_written_on_resolution 0 2048 1 [0, 0, 0] hints_aa_ab_ba globals0
      [] 0 globals0 [press 'a', press_undo] [] (press 'b')
      (Outcome.state (hint_selection_multiscreen 2048 1 [0, 0, 0] hints_aa_ab_ba globals0
        [press 'a', press_undo]) (Loop.mk globals0 []))
      (98 :: List.replicate 31 0) (box 0 20 "ba")).2.2.2.1
      (by decide) (by decide) (by decide) (by decide) (by decide),
   by decide, by decide⟩

/-- C9 fails in `hint_selection`: on the hint set `abc, abd, xbc, xbd` the
keys `a`, `b` leave the buffer `ab`, undo-all leaves it empty (only `buf[0]`
is cleared), and the accepted key `x` then changes the empty buffer to `xb`,
not to `x`: the stale `b` is read again because no terminator is written
after the stored character. `hint_selection_multiscreen`, which writes the
terminator, ends with `x` on the same events. -/
theorem C9_single_surface_append_after_undo_all :
    cstr (Outcome.state (hint_selection 0 hints_ab_xb globals0
      [press 'a', press 'b', press_undo_all]) { g := globals0, buf := [] }).buf = [] ∧
    hint_selection_key (Outcome.state (hint_selection 0 hints_ab_xb globals0
      [press 'a', press 'b', press_undo_all]) { g := globals0, buf := [] }).buf (press 'x') =
      Keyed.edited (bytes "xb" ++ List.replicate 30 0) ∧
    (∃ l, hint_selection 0 hints_ab_xb globals0
        [press 'a', press 'b', press_undo_all, press 'x'] = Outcome.waiting l ∧
      cstr l.buf = bytes "xb" ∧ l.g.matched = [box 0 20 "xbc", box 20 20 "xbd"]) ∧
    (∃ l, hint_selection_multiscreen 2048 1 [0, 0, 0, 0] hints_ab_xb globals0
        [press 'a', press 'b', press_undo_all, press 'x'] = Outcome.waiting l ∧
      cstr l.buf = bytes "x") := by
  refine ⟨by decide, by decide, ⟨_, rfl, by decide, by decide⟩, ⟨_, rfl, by decide⟩⟩

/-- C10 fails in `hint_selection_multiscreen`: on the grid generated for the
alphabet `ab` on one screen, 31 presses of the key `z` (never a match, so the
loop keeps waiting) fill `buf` with 31 characters and the terminator at
`buf[31]`; the 32nd press stores its character at `buf[31]` and its
terminator at `buf[32]`, outside the 32-byte array. -/
theorem C10_multiscreen_buffer_overflow :
    generate_multiscreen_hints 2048 (bytes "ab") 50 [(1920, 1080)] = some grid_ab ∧
    (∃ l, hint_selection_multiscreen 2048 1 grid_ab.hint_screen_x grid_ab.hints globals0
        (List.replicate 31 (press 'z')) = Outcome.waiting l ∧
      l.buf = List.replicate 31 122 ++ [0] ∧ l.g.matched = []) ∧
    hint_selection_multiscreen_key (List.replicate 31 122 ++ [0]) (press 'z') = Keyed.fault ∧
    store (List.replicate 32 122) 32 0 = none ∧
    hint_selection_multiscreen 2048 1 grid_ab.hint_screen_x grid_ab.hints globals0
      (List.replicate 32 (press 'z')) = Outcome.fault := by
  refine ⟨by decide, ⟨_, rfl, by decide, by decide⟩, by decide, by decide, by decide⟩






/-- C7, as the code has it: for an alphabet `chars` of `A` distinct characters
with `A * A ≤ 676` and a single surface, the `n`-th hint produced by
`generate_multiscreen_hints` has the 2-character label
`chars[n / A] chars[n mod A]`, the labels are pairwise distinct, and for a
non-empty alphabet the call returns `min (A * A) MAX_HINTS` hints. -/
theorem C7_single_surface_two_character_labels (MAX_HINTS : Nat) (chars : List Nat)
    (hint_size : Int) (dims : Int × Int) (hnd : chars.Nodup)
    (h676 : chars.length * chars.length ≤ 676) :
    (∀ gr, generate_multiscreen_hints MAX_HINTS chars hint_size [dims] = some gr →
      (∀ n, n < gr.hints.length →
        (gr.hints.map (fun k => k.label))[n]? =
          some [cchar chars (n / chars.length), cchar chars (n % chars.length)]) ∧
      (gr.hints.map (fun k => k.label)).Nodup) ∧
    (chars ≠ [] →
      ∃ gr, generate_multiscreen_hints MAX_HINTS chars hint_size [dims] = some gr ∧
        gr.hints.length = min (chars.length * chars.length) MAX_HINTS) := by
  refine ⟨fun gr h => ?_, generate_two_count MAX_HINTS chars hint_size dims h676⟩
  obtain ⟨l1, l2⟩ := generate_two_labels MAX_HINTS chars hint_size dims h676 gr h
  exact ⟨l1, l2 hnd⟩

/-- C7 on the alphabet `ab` and one 1920 x 1080 surface: four hints, labelled
`aa, ab, ba, bb` in that order. -/
theorem C7_witness :
    (∃ gr, generate_multiscreen_hints 2048 (bytes "ab") 50 [(1920, 1080)] = some gr ∧
      gr.hints.length = min ((bytes "ab").length * (bytes "ab").length) 2048) ∧
    (generate_multiscreen_hints 2048 (bytes "ab") 50 [(1920, 1080)]).map
        (fun gr => gr.hints.map (fun k => k.label)) =
      some [bytes "aa", bytes "ab", bytes "ba", bytes "bb"] :=
  ⟨(C7_single_surface_two_character_labels 2048 (bytes "ab") 50 (1920, 1080) (by decide)
      (by decide)).2 (by decide), by decide⟩

/-- C7 as stated fails: with the 27 distinct characters `a..z, 0` on a single
surface (729 positions, more than 676) the labels have 3 characters; the
first hint is labelled `aaa`, not `aa`. -/
theorem C7_counterexample :
    chars27.Nodup ∧
    ∃ gr, generate_multiscreen_hints 2048 chars27 50 [(1920, 1080)] = some gr ∧
      gr.hints.length = 729 ∧
      (gr.hints.map (fun k => k.label))[0]? = some (bytes "aaa") := by
  refine ⟨by decide, ?_⟩
  have hlen : chars27.length = 27 := by decide
  have h3 : [((1920 : Int), (1080 : Int))].length > 1 ∨
      chars27.length * chars27.length * [((1920 : Int), (1080 : Int))].length > 676 := by
    rw [hlen]; decide
  obtain ⟨gr, e1, e2⟩ := generate_three_count 2048 chars27 50 [(1920, 1080)] h3 (by decide)
  have hn : gr.hints.length = 729 := by rw [e2, hlen]; decide
  refine ⟨gr, e1, hn, ?_⟩
  rw [(generate_three_labels 2048 chars27 50 [(1920, 1080)] h3 gr e1).1 0 (by omega)]
  decide

/-- C8: when more than one surface is listed, or the `A * A` positions per
surface times the number of surfaces exceed 676, the `n`-th hint produced by
`generate_multiscreen_hints` has the 3-character label
`chars[n / (A * A)] chars[(n / A) mod A] chars[n mod A]`; for an alphabet of
distinct characters the labels of all hints, on whatever surface, are
pairwise distinct; for a non-empty alphabet the call returns
`min (S * A * A) (min (A * A * A) MAX_HINTS)` hints. -/
theorem C8_three_character_labels (MAX_HINTS : Nat) (chars : List Nat) (hint_size : Int)
    (screens : List (Int × Int))
    (h3 : screens.length > 1 ∨ chars.length * chars.length * screens.length > 676) :
    (∀ gr, generate_multiscreen_hints MAX_HINTS chars hint_size screens = some gr →
      (∀ n, n < gr.hints.length →
        (gr.hints.map (fun k => k.label))[n]? =
          some [cchar chars (n / (chars.length * chars.length)),
            cchar chars (n / chars.length % chars.length), cchar chars (n % chars.length)]) ∧
      (chars.Nodup → (gr.hints.map (fun k => k.label)).Nodup)) ∧
    (chars ≠ [] →
      ∃ gr, generate_multiscreen_hints MAX_HINTS chars hint_size screens = some gr ∧
        gr.hints.length = min (screens.length * (chars.length * chars.length))
          (min (chars.length * (chars.length * chars.length)) MAX_HINTS)) :=
  ⟨fun gr h => generate_three_labels MAX_HINTS chars hint_size screens h3 gr h,
    generate_three_count MAX_HINTS chars hint_size screens h3⟩

/-- C8 on the alphabet `ab` and two surfaces: eight hints labelled
`aaa, aab, aba, abb, baa, bab, bba, bbb`, four on each surface. -/
theorem C8_witness :
    (∃ gr, generate_multiscreen_hints 2048 (bytes "ab") 50 [(1920, 1080), (1080, 1920)] =
        some gr ∧
      gr.hints.length = min ([((1920 : Int), (1080 : Int)), (1080, 1920)].length *
          ((bytes "ab").length * (bytes "ab").length))
        (min ((bytes "ab").length * ((bytes "ab").length * (bytes "ab").length)) 2048)) ∧
    (generate_multiscreen_hints 2048 (bytes "ab") 50 [(1920, 1080), (1080, 1920)]).map
        (fun gr => (gr.hints.map (fun k => k.label), gr.hint_screen_x)) =
      some ([bytes "aaa", bytes "aab", bytes "aba", bytes "abb", bytes "baa", bytes "bab",
        bytes "bba", bytes "bbb"], [0, 0, 0, 0, 1, 1, 1, 1]) :=
  ⟨(C8_three_character_labels 2048 (bytes "ab") 50 [(1920, 1080), (1080, 1920)]
      (by decide)).2 (by decide), by decide⟩



/-- C11: in both loops, from any state in which the session waits for an
event, a press matching `hint_undo_all` (and not `hint_exit`) clears `buf[0]`,
so the typed string becomes empty, and the matched set is recomputed, without
a fault, to the full hint set in its order; if the session goes on waiting,
the typed string is empty. In the multi-surface loop this is for at most
`MAX_HINTS` hints. -/
theorem C11_undo_all_restores_full_hint_set (scr MAX_HINTS screen_count : Nat)
    (hint_screen_x : List Nat) (hints : List hint) (g : Globals)
    (evs : List input_event) (u : input_event) (l : Loop)
    (hp : u.pressed = true) (hx : u.hint_exit = false) (hu : u.hint_undo_all = true) :
    (hint_selection scr hints g evs = Outcome.waiting l →
      hint_selection_key l.buf u = Keyed.edited (l.buf.set 0 0) ∧
      cstr (l.buf.set 0 0) = [] ∧
      hint_selection scr hints g (evs ++ [u]) ≠ Outcome.fault ∧
      ((hint_selection scr hints g (evs ++ [u])).globals g).matched = hints ∧
      ∀ l1, hint_selection scr hints g (evs ++ [u]) = Outcome.waiting l1 → cstr l1.buf = []) ∧
    (hints.length ≤ MAX_HINTS →
      hint_selection_multiscreen MAX_HINTS screen_count hint_screen_x hints g evs =
        Outcome.waiting l →
      hint_selection_multiscreen_key l.buf u = Keyed.edited (l.buf.set 0 0) ∧
      cstr (l.buf.set 0 0) = [] ∧
      hint_selection_multiscreen MAX_HINTS screen_count hint_screen_x hints g (evs ++ [u]) ≠
        Outcome.fault ∧
      ((hint_selection_multiscreen MAX_HINTS screen_count hint_screen_x hints g
        (evs ++ [u])).globals g).matched = hints ∧
      ∀ l1, hint_selection_multiscreen MAX_HINTS screen_count hint_screen_x hints g
        (evs ++ [u]) = Outcome.waiting l1 → cstr l1.buf = []) := by
  constructor
  · intro hw
    obtain ⟨_, i2, i3, _, _⟩ := hint_selection_waiting_inv scr hints g evs l hw
    have hpos : 0 < l.buf.length := by omega
    have hk := hint_selection_key_undo_all l.buf u hp hx hu i2 hpos
    have hc := cstr_set_zero l.buf hpos
    have hz : 0 ∈ l.buf.set 0 0 := store_mem_zero l.buf 0 _ (by simp [store, hpos])
    obtain ⟨s1, s2, s3⟩ := hint_selection_edit_step scr hints g evs u l _ hw hk hz
    refine ⟨hk, hc, s1, ?_, fun l1 h1 => by rw [s3 l1 h1]; exact hc⟩
    rw [s2, hc]; simp
  · intro hcap hw
    obtain ⟨_, i2, i3, _, _⟩ :=
      hint_selection_multiscreen_waiting_inv MAX_HINTS screen_count hint_screen_x hints g evs l hw
    have hpos : 0 < l.buf.length := by omega
    have hk := hint_selection_multiscreen_key_undo_all l.buf u hp hx hu i2 hpos
    have hc := cstr_set_zero l.buf hpos
    obtain ⟨s1, s2, s3⟩ := hint_selection_multiscreen_edit_step MAX_HINTS screen_count
      hint_screen_x hints g evs u l _ hcap hw hk
    refine ⟨hk, hc, s1, ?_, fun l1 h1 => by rw [s3 l1 h1]; exact hc⟩
    rw [s2, hc]; simp

/-- C11 on the hint set `aa, ab, ba`: after `a`, undo-all brings both loops
back to the full hint set. -/
theorem C11_witness :
    ((hint_selection 0 hints_aa_ab_ba globals0 ([press 'a'] ++ [press_undo_all])).globals
      globals0).matched = hints_aa_ab_ba ∧
    ((hint_selection_multiscreen 2048 1 [0, 0, 0] hints_aa_ab_ba globals0
      ([press 'a'] ++ [press_undo_all])).globals globals0).matched = hints_aa_ab_ba :=
  ⟨((C11_undo_all_restores_full_hint_set 0 2048 1 [0, 0, 0] hints_aa_ab_ba globals0
      [press 'a'] press_undo_all
      (Outcome.state (hint_selection 0 hints_aa_ab_ba globals0 [press 'a'])
        (Loop.mk globals0 [])) (by decide) (by decide) (by decide)).1 (by decide)).2.2.2.1,
   ((C11_undo_all_restores_full_hint_set 0 2048 1 [0, 0, 0] hints_aa_ab_ba globals0
      [press 'a'] press_undo_all
      (Outcome.state (hint_selection_multiscreen 2048 1 [0, 0, 0] hints_aa_ab_ba globals0
        [press 'a']) (Loop.mk globals0 [])) (by decide) (by decide) (by decide)).2
      (by decide) (by decide)).2.2.2.1⟩

/-- C12: in both loops, from any state in which the session waits for an
event, a press matching `hint_undo` (and neither `hint_exit` nor
`hint_undo_all`) edits the buffer so that the typed string loses exactly its
last character: one shorter and a prefix of the old string when that was
non-empty, still empty when it was empty. The press is processed without a
fault, and if the session goes on waiting it holds the shortened string. In
the multi-surface loop the session part is for at most `MAX_HINTS` hints. -/
theorem C12_undo_one_removes_last_character (scr MAX_HINTS screen_count : Nat)
    (hint_screen_x : List Nat) (hints : List hint) (g : Globals)
    (evs : List input_event) (u : input_event) (l : Loop)
    (hp : u.pressed = true) (hx : u.hint_exit = false) (hua : u.hint_undo_all = false)
    (hu : u.hint_undo = true) :
    (hint_selection scr hints g evs = Outcome.waiting l →
      ∃ b, hint_selection_key l.buf u = Keyed.edited b ∧
        cstr b = (cstr l.buf).dropLast ∧
        (cstr l.buf ≠ [] → (cstr b).length + 1 = (cstr l.buf).length ∧ cstr b <+: cstr l.buf) ∧
        (cstr l.buf = [] → cstr b = []) ∧
        hint_selection scr hints g (evs ++ [u]) ≠ Outcome.fault ∧
        ∀ l1, hint_selection scr hints g (evs ++ [u]) = Outcome.waiting l1 →
          cstr l1.buf = (cstr l.buf).dropLast) ∧
    (hints.length ≤ MAX_HINTS →
      hint_selection_multiscreen MAX_HINTS screen_count hint_screen_x hints g evs =
        Outcome.waiting l →
      ∃ b, hint_selection_multiscreen_key l.buf u = Keyed.edited b ∧
        cstr b = (cstr l.buf).dropLast ∧
        (cstr l.buf ≠ [] → (cstr b).length + 1 = (cstr l.buf).length ∧ cstr b <+: cstr l.buf) ∧
        (cstr l.buf = [] → cstr b = []) ∧
        hint_selection_multiscreen MAX_HINTS screen_count hint_screen_x hints g (evs ++ [u]) ≠
          Outcome.fault ∧
        ∀ l1, hint_selection_multiscreen MAX_HINTS screen_count hint_screen_x hints g
          (evs ++ [u]) = Outcome.waiting l1 → cstr l1.buf = (cstr l.buf).dropLast) := by
  have hdrop : ∀ s t : List Nat, t = s.dropLast →
      (s ≠ [] → t.length + 1 = s.length ∧ t <+: s) ∧ (s = [] → t = []) := by
    intro s t ht
    subst ht
    refine ⟨fun hne => ⟨?_, List.dropLast_prefix s⟩, fun he => by simp [he]⟩
    have := List.length_pos.mpr hne
    rw [List.length_dropLast]; omega
  constructor
  · intro hw
    obtain ⟨_, i2, _, _, _⟩ := hint_selection_waiting_inv scr hints g evs l hw
    obtain ⟨b, k1, _, hz, hc⟩ := hint_selection_key_undo l.buf u hp hx hua hu i2
    obtain ⟨s1, _, s3⟩ := hint_selection_edit_step scr hints g evs u l b hw k1 hz
    exact ⟨b, k1, hc, (hdrop _ _ hc).1, (hdrop _ _ hc).2, s1,
      fun l1 h1 => by rw [s3 l1 h1]; exact hc⟩
  · intro hcap hw
    obtain ⟨_, i2, _, _, _⟩ :=
      hint_selection_multiscreen_waiting_inv MAX_HINTS screen_count hint_screen_x hints g evs l hw
    obtain ⟨b, _, k2, _, hc⟩ := hint_selection_key_undo l.buf u hp hx hua hu i2
    obtain ⟨s1, _, s3⟩ := hint_selection_multiscreen_edit_step MAX_HINTS screen_count
      hint_screen_x hints g evs u l b hcap hw k2
    exact ⟨b, k2, hc, (hdrop _ _ hc).1, (hdrop _ _ hc).2, s1,
      fun l1 h1 => by rw [s3 l1 h1]; exact hc⟩

/-- C12 on the hint set `abc, abd, xbc, xbd`: after `a`, `b`, an undo leaves
both loops waiting with the typed string `a`; a second and a third undo leave
it empty. -/
theorem C12_witness :
    (∃ b, hint_selection_key (Outcome.state (hint_selection 0 hints_ab_xb globals0
        [press 'a', press 'b']) (Loop.mk globals0 [])).buf press_undo = Keyed.edited b ∧
      cstr b = (cstr (Outcome.state (hint_selection 0 hints_ab_xb globals0
        [press 'a', press 'b']) (Loop.mk globals0 [])).buf).dropLast) ∧
    cstr (Outcome.state (hint_selection 0 hints_ab_xb globals0
      [press 'a', press 'b', press_undo]) (Loop.mk globals0 [])).buf = bytes "a" ∧
    cstr (Outcome.state (hint_selection_multiscreen 2048 1 [0, 0, 0, 0] hints_ab_xb globals0
      [press 'a', press 'b', press_undo]) (Loop.mk globals0 [1])).buf = bytes "a" ∧
    cstr (Outcome.state (hint_selection 0 hints_ab_xb globals0
      [press 'a', press 'b', press_undo, press_undo, press_undo]) (Loop.mk globals0 [1])).buf =
      [] := by
  obtain ⟨b, h1, h2, _⟩ :=
    (C12_undo_one_removes_last_character 0 2048 1 [0, 0, 0, 0] hints_ab_xb globals0
      [press 'a', press 'b'] press_undo
      (Outcome.state (hint_selection 0 hints_ab_xb globals0 [press 'a', press 'b'])
        (Loop.mk globals0 [])) (by decide) (by decide) (by decide) (by decide)).1 (by decide)
  exact ⟨⟨b, h1, h2⟩, by decide, by decide, by decide⟩


/-- C13 fails for `hintspec_mode`: `generate_multiscreen_hints` never returns
more than `MAX_HINTS` hints, but `hintspec_mode` writes one hint per record
read, `history_hint_mode` one per history entry and `sift` one per cell below
the alphabet length, whatever their number; 2049 records make `hintspec_mode`
write 2049 hints, the last of them past the end of an array of
`MAX_HINTS` = 2048 entries. -/
theorem C13_hintspec_mode_has_no_cap :
    (∀ MAX_HINTS chars hint_size screens gr,
      generate_multiscreen_hints MAX_HINTS chars hint_size screens = some gr →
      gr.hints.length ≤ MAX_HINTS) ∧
    (∀ hint_size dims records,
      (hintspec_hints hint_size dims records).length = records.length) ∧
    (∀ hint_size dims ents, (history_hints hint_size dims ents).length = ents.length) ∧
    (∀ gap hint_sz chars grid_sz x y dims,
      (sift_hints gap hint_sz chars grid_sz x y dims).length =
        min (grid_sz.toNat * grid_sz.toNat) chars.length) ∧
    (hintspec_hints 50 (1920, 1080) (List.replicate 2049 (bytes "a", 5, 5))).length = 2049 ∧
    ¬ (hintspec_hints 50 (1920, 1080) (List.replicate 2049 (bytes "a", 5, 5))).length ≤ 2048 := by
  refine ⟨fun MAX_HINTS chars hint_size screens gr h =>
      (generate_multiscreen_hints_screen MAX_HINTS chars hint_size screens gr h).1,
    hintspec_hints_length, history_hints_length, ?_, ?_, ?_⟩
  · intro gap hint_sz chars grid_sz x y dims
    rw [sift_hints_eq, List.length_map, sift_cells_length]
  · rw [hintspec_hints_length, List.length_replicate]
  · rw [hintspec_hints_length, List.length_replicate]; omega

/-- Past the cap of `histfile_capped` the label is no longer a character
after `a`: in a list of 160 entries the byte `'a' + 159 = 256` is held by a
`char` as 0, so the hint with index 159 has the empty label, while index 158
still has the byte 255. -/
theorem history_label_past_cap :
    (history_hints 50 (1920, 1080) (List.replicate 160 (5, 5))).length = 160 ∧
    ((history_hints 50 (1920, 1080) (List.replicate 160 (5, 5)))[159]?).map
        (fun k => k.label) = some [] ∧
    ((history_hints 50 (1920, 1080) (List.replicate 160 (5, 5)))[158]?).map
        (fun k => k.label) = some [255] := by
  refine ⟨by rw [history_hints_length]; simp, ?_, ?_⟩
  · rw [history_hints_getElem?]
    simp [List.getElem?_replicate, cstr]
  · rw [history_hints_getElem?]
    simp [List.getElem?_replicate, cstr]

/-- C15, as the code has it: `get_hint_size` takes the width from the longer
side of the surface and the height from the shorter one:
`w = max(sw, sh) * hint_size / 1000` and `h = min(sw, sh) * hint_size / 1000`
(truncating division). -/
theorem C15_hint_size_from_long_and_short_side (hint_size sw sh : Int) :
    (get_hint_size hint_size (sw, sh)).1 = Int.tdiv (max sw sh * hint_size) 1000 ∧
    (get_hint_size hint_size (sw, sh)).2 = Int.tdiv (min sw sh * hint_size) 1000 := by
  rw [get_hint_size_eq]
  exact ⟨rfl, rfl⟩

/-- C15 as stated fails: on a 1920 x 1080 surface with `hint_size` 50 the box
is 96 wide and 54 high, not 96 x 96. -/
theorem C15_counterexample :
    get_hint_size 50 (1920, 1080) = (96, 54) ∧
    Int.tdiv (max 1920 1080 * 50) 1000 = 96 ∧
    (get_hint_size 50 (1920, 1080)).2 ≠ Int.tdiv (max 1920 1080 * 50) 1000 := by
  decide

/-- C20 fails for the empty alphabet: with `hint_chars` empty, at least one
screen listed and `MAX_HINTS` positive, `nc` is 0 and the first pass through
the screen loop divides `sw / nc`; the call does not return a count. For a
non-empty alphabet and at least one screen the call does return. -/
theorem C20_empty_alphabet_divides_by_zero :
    (∀ (MAX_HINTS : Nat) (hint_size : Int) (d : Int × Int) (ds : List (Int × Int)),
      generate_multiscreen_hints (MAX_HINTS + 1) [] hint_size (d :: ds) = none) ∧
    generate_multiscreen_hints 2048 (bytes "") 50 [(1920, 1080)] = none ∧
    (∀ (MAX_HINTS : Nat) (chars : List Nat) (hint_size : Int) (screens : List (Int × Int)),
      chars ≠ [] → screens ≠ [] →
      ∃ gr, generate_multiscreen_hints MAX_HINTS chars hint_size screens = some gr) := by
  refine ⟨?_, by decide, ?_⟩
  · intro MAX_HINTS hint_size d ds
    simp [generate_multiscreen_hints, screens_loop]
  · intro MAX_HINTS chars hint_size screens hc hs
    obtain ⟨gr, e1, _⟩ :=
      (generate_multiscreen_hints_ok MAX_HINTS chars hint_size screens).2 hc hs
    exact ⟨gr, e1⟩


/-- C16: for an alphabet of length `A ≥ 1` and `S ≥ 1` surfaces,
`generate_multiscreen_hints` returns exactly `min (A * A * S) MAX_HINTS` hints,
further limited to `A * A * A`; the count never exceeds `MAX_HINTS`; the labels
are the leading rows of the label table, itself a leading part of the nested
enumeration `rows3` or `rows2` of the alphabet, so that no combination is
used twice and, for an alphabet of distinct characters, no label occurs
twice. -/
theorem C16_generated_hint_count (MAX_HINTS : Nat) (chars : List Nat) (hint_size : Int)
    (screens : List (Int × Int)) (hc : chars ≠ []) (hs : screens ≠ []) :
    ∃ gr, generate_multiscreen_hints MAX_HINTS chars hint_size screens = some gr ∧
      gr.hints.length = min (min (chars.length * chars.length * screens.length) MAX_HINTS)
        (chars.length * (chars.length * chars.length)) ∧
      gr.hints.length ≤ MAX_HINTS ∧
      gr.hints.map (fun k => k.label) =
        (generate_labels MAX_HINTS chars screens.length).take gr.hints.length ∧
      (generate_labels MAX_HINTS chars screens.length =
          (rows3 chars chars).take
            (min MAX_HINTS (chars.length * chars.length * screens.length)) ∨
        generate_labels MAX_HINTS chars screens.length = (rows2 chars chars).take MAX_HINTS) ∧
      (chars.Nodup → (gr.hints.map (fun k => k.label)).Nodup) := by
  obtain ⟨gr, e1, e2⟩ := generate_count MAX_HINTS chars hint_size screens hc hs
  obtain ⟨_, _, h3, _, h5⟩ :=
    (generate_multiscreen_hints_ok MAX_HINTS chars hint_size screens).1 gr e1
  refine ⟨gr, e1, e2, h5, h3, ?_,
    generate_labels_nodup MAX_HINTS chars hint_size screens gr e1⟩
  by_cases h676 : screens.length > 1 ∨ chars.length * chars.length * screens.length > 676
  · exact Or.inl (generate_labels_three MAX_HINTS chars screens.length h676)
  · exact Or.inr (generate_labels_two MAX_HINTS chars screens.length (by omega) (by omega))

/-- C16 on the 26 letters and four surfaces with `MAX_HINTS` 2048: of the
2704 positions exactly 2048 get a hint, so generation stops on the last
surface after 20 of its 676 cells. -/
theorem C16_witness :
    ∃ gr, generate_multiscreen_hints 2048 chars26 50
        [(1920, 1080), (1920, 1080), (1080, 1920), (1280, 1024)] = some gr ∧
      gr.hints.length = 2048 ∧ 2048 = 3 * 676 + 20 := by
  obtain ⟨gr, e1, e2, _⟩ := C16_generated_hint_count 2048 chars26 50
    [(1920, 1080), (1920, 1080), (1080, 1920), (1280, 1024)] (by decide) (by decide)
  have hlen : chars26.length = 26 := by decide
  refine ⟨gr, e1, ?_, by decide⟩
  rw [e2, hlen]
  decide


/-- C19: with `g` the grid size, `L` the alphabet length, `sz` and `gp` the
scaled box size and gap and `(x0, y0)` the shifted pointer position, the hints
built by `sift` are one per cell `(row, col)` of `sift_cells g L`, each cell
once: the cells with `row < g`, `col < g` and `row * g + col < L`. The hint of
a cell has the label `chars[row * g + col]`, size `sz` x `sz` and position
`(x0 + (sz + gp) * col, y0 + (sz + gp) * row)`. Exactly `min (g * g) L` hints
are built, and for an alphabet of distinct characters their labels are
pairwise distinct. -/
theorem C19_sift_grid (gap hint_sz : Int) (chars : List Nat) (grid_sz : Int) (x y : Int)
    (dims : Int × Int) :
    sift_hints gap hint_sz chars grid_sz x y dims =
      (sift_cells grid_sz.toNat chars.length).map (fun c =>
        ({ x := x - Int.tdiv ((Int.tdiv (hint_sz * dims.2) 1000 +
                  (Int.tdiv (gap * dims.2) 1000 - 1)) * grid_sz) 2 +
                (Int.tdiv (hint_sz * dims.2) 1000 + Int.tdiv (gap * dims.2) 1000) * c.2,
           y := y - Int.tdiv ((Int.tdiv (hint_sz * dims.2) 1000 +
                  (Int.tdiv (gap * dims.2) 1000 - 1)) * grid_sz) 2 +
                (Int.tdiv (hint_sz * dims.2) 1000 + Int.tdiv (gap * dims.2) 1000) * c.1,
           w := Int.tdiv (hint_sz * dims.2) 1000, h := Int.tdiv (hint_sz * dims.2) 1000,
           label := [cchar chars (c.1 * grid_sz.toNat + c.2)] } : hint)) ∧
    (∀ row col, (row, col) ∈ sift_cells grid_sz.toNat chars.length ↔
      row < grid_sz.toNat ∧ col < grid_sz.toNat ∧ row * grid_sz.toNat + col < chars.length) ∧
    (sift_cells grid_sz.toNat chars.length).Nodup ∧
    (sift_hints gap hint_sz chars grid_sz x y dims).length =
      min (grid_sz.toNat * grid_sz.toNat) chars.length ∧
    (chars.Nodup →
      ((sift_hints gap hint_sz chars grid_sz x y dims).map (fun k => k.label)).Nodup) := by
  refine ⟨sift_hints_eq gap hint_sz chars grid_sz x y dims,
    fun row col => mem_sift_cells grid_sz.toNat chars.length row col,
    sift_cells_nodup grid_sz.toNat chars.length, ?_, fun hnd => ?_⟩
  · rw [sift_hints_eq, List.length_map, sift_cells_length]
  · rw [sift_hints_eq, List.map_map]
    exact sift_labels_nodup chars grid_sz.toNat hnd

/-- The grid of `sift` for a 3 x 3 grid and the 8 characters `a..h` around
the pointer at `(500, 500)` on a 1920 x 1080 screen: eight hints, the cell of
row 2 and column 2 (index 8) being left out. -/
theorem sift_grid_example :
    (sift_hints 1 20 (bytes "abcdefgh") 3 500 500 (1920, 1080)).map
        (fun k => (k.label, k.x, k.y, k.w, k.h)) =
      [(bytes "a", 469, 469, 21, 21), (bytes "d", 469, 491, 21, 21),
       (bytes "g", 469, 513, 21, 21), (bytes "b", 491, 469, 21, 21),
       (bytes "e", 491, 491, 21, 21), (bytes "h", 491, 513, 21, 21),
       (bytes "c", 513, 469, 21, 21), (bytes "f", 513, 491, 21, 21)] := by
  decide


/-- C17: in a grid returned by `generate_multiscreen_hints` for an alphabet of
length `A`, the hint of surface `s` (of size `sw` x `sh`), row `i` and column
`j` is the one with index `s * (A * A) + i * A + j` (rows outer, columns
inner). Its size `(w, h)` is that of `get_hint_size` for the surface, its
position is `x = colgap / 2 + j * (w + colgap)`, `y = rowgap / 2 + i * (h +
rowgap)` with `colgap = sw / A - w` and `rowgap = sh / A - h` (truncating
division, no clamping), and its label is the row of the label table with the
same index. No hint is placed beyond the label table, and for a non-empty
alphabet the number of hints is the number of cells, cut at the length of the
label table and at `MAX_HINTS`. -/
theorem C17_grid_cell_positions (MAX_HINTS : Nat) (chars : List Nat) (hint_size : Int)
    (screens : List (Int × Int)) (gr : Grid)
    (hgen : generate_multiscreen_hints MAX_HINTS chars hint_size screens = some gr) :
    (∀ (s i j : Nat) (sw sh : Int), i < chars.length → j < chars.length →
      screens[s]? = some (sw, sh) →
      s * (chars.length * chars.length) + i * chars.length + j < gr.hints.length →
      ∃ k, gr.hints[s * (chars.length * chars.length) + i * chars.length + j]? = some k ∧
        (k.w, k.h) = get_hint_size hint_size (sw, sh) ∧
        k.x = Int.tdiv (Int.tdiv sw chars.length - k.w) 2 +
          (j : Int) * (k.w + (Int.tdiv sw chars.length - k.w)) ∧
        k.y = Int.tdiv (Int.tdiv sh chars.length - k.h) 2 +
          (i : Int) * (k.h + (Int.tdiv sh chars.length - k.h)) ∧
        k.label = (generate_labels MAX_HINTS chars screens.length).getD
          (s * (chars.length * chars.length) + i * chars.length + j) []) ∧
    gr.hints.length ≤ (generate_labels MAX_HINTS chars screens.length).length ∧
    (chars ≠ [] →
      gr.hints.length = min (screens.length * (chars.length * chars.length))
        (min (generate_labels MAX_HINTS chars screens.length).length MAX_HINTS)) := by
  have hpl := generate_multiscreen_hints_placed MAX_HINTS chars hint_size screens gr hgen
  have hok := (generate_multiscreen_hints_ok MAX_HINTS chars hint_size screens).1 gr hgen
  refine ⟨?_, hok.2.2.2.1, ?_⟩
  · intro s i j sw sh hi hj hs hn
    obtain ⟨p1, _⟩ := hpl _ hn
    obtain ⟨c1, c2, c3⟩ := cell_index chars.length s i j hi hj
    rw [c1, c2, c3] at p1
    have hd : screens.getD s (0, 0) = (sw, sh) := by simp [List.getD, hs]
    rw [hd] at p1
    refine ⟨_, p1, rfl, ?_, ?_, rfl⟩
    · simp only [screen_cell]; ring
    · simp only [screen_cell]; ring
  · intro hc
    have hs : screens ≠ [] := by
      intro h0; subst h0; simp [generate_multiscreen_hints] at hgen
    obtain ⟨gr1, e1, e2⟩ :=
      (generate_multiscreen_hints_ok MAX_HINTS chars hint_size screens).2 hc hs
    rw [hgen] at e1
    simp only [Option.some.injEq] at e1
    subst e1
    exact e2

/-- C17 on the alphabet `ab`: on a 1080 x 1920 screen listed second, the hint
of row 1, column 1 has index 7 and sits at `(762, 1413)`; with `hint_size`
1000 on one 1920 x 1080 screen the boxes are larger than the cells, the gaps
are negative and the first hint sits at `(-480, -270)`. -/
theorem C17_witness :
    generate_multiscreen_hints 2048 (bytes "ab") 50 [(1920, 1080), (1080, 1920)] =
      some grid_ab2 ∧
    (∃ k, grid_ab2.hints[1 * ((bytes "ab").length * (bytes "ab").length) +
          1 * (bytes "ab").length + 1]? = some k ∧
      (k.w, k.h) = get_hint_size 50 (1080, 1920) ∧
      k.x = Int.tdiv (Int.tdiv 1080 (bytes "ab").length - k.w) 2 +
        ((1 : Nat) : Int) * (k.w + (Int.tdiv 1080 (bytes "ab").length - k.w)) ∧
      k.y = Int.tdiv (Int.tdiv 1920 (bytes "ab").length - k.h) 2 +
        ((1 : Nat) : Int) * (k.h + (Int.tdiv 1920 (bytes "ab").length - k.h)) ∧
      k.label = (generate_labels 2048 (bytes "ab")
        [((1920 : Int), (1080 : Int)), (1080, 1920)].length).getD
        (1 * ((bytes "ab").length * (bytes "ab").length) + 1 * (bytes "ab").length + 1) []) ∧
    grid_ab2.hints[7]? = some { x := 762, y := 1413, w := 96, h := 54, label := bytes "bbb" } ∧
    (generate_multiscreen_hints 2048 (bytes "ab") 1000 [(1920, 1080)]).map
        (fun gr => gr.hints.map (fun k => (k.x, k.y, k.w, k.h))) =
      some [(-480, -270, 1920, 1080), (480, -270, 1920, 1080), (-480, 270, 1920, 1080),
        (480, 270, 1920, 1080)] :=
  ⟨by decide,
    (C17_grid_cell_positions 2048 (bytes "ab") 50 [(1920, 1080), (1080, 1920)] grid_ab2
      (by decide)).1 1 1 1 1080 1920 (by decide) (by decide) (by decide) (by decide),
    by decide, by decide⟩

/-- C18: in a grid returned by `generate_multiscreen_hints` for an alphabet of
length `A`, the hint with index `n` is recorded in `hint_screen_x` for the
surface `n / (A * A)`, an index below the number of surfaces. When a session
of `hint_selection_multiscreen` on that grid resolves to the one hint `h`,
`matched_indices` holds the index `j` of `h` in the full hint set and both
pointer moves go to the surface `j / (A * A)` recorded for that index. -/
theorem C18_moves_go_to_recorded_surface (MAX_HINTS : Nat) (chars : List Nat)
    (hint_size : Int) (screens : List (Int × Int)) (gr : Grid) (g : Globals)
    (evs rest : List input_event) (ev : input_event) (l : Loop) (buf : List Nat) (h : hint)
    (hgen : generate_multiscreen_hints MAX_HINTS chars hint_size screens = some gr) :
    (∀ n, n < gr.hints.length →
      gr.hint_screen_x[n]? = some (n / (chars.length * chars.length)) ∧
      n / (chars.length * chars.length) < screens.length) ∧
    (gr.hints.filter (fun k => decide (cstr buf <+: k.label)) = [h] →
      hint_selection_multiscreen MAX_HINTS screens.length gr.hint_screen_x gr.hints g evs =
        Outcome.waiting l →
      hint_selection_multiscreen_key l.buf ev = Keyed.edited buf →
      ∃ g1 j, hint_selection_multiscreen MAX_HINTS screens.length gr.hint_screen_x gr.hints g
          (evs ++ ev :: rest) = Outcome.returned 0 g1 ∧
        g1.matched = [h] ∧ g1.matched_indices = [j] ∧ gr.hints[j]? = some h ∧
        j / (chars.length * chars.length) < screens.length ∧
        mouse_moves g1.calls = mouse_moves g.calls ++
          [Call.mouse_move (j / (chars.length * chars.length)) (h.x + Int.tdiv h.w 2 + 1)
             (h.y + Int.tdiv h.h 2 + 1),
           Call.mouse_move (j / (chars.length * chars.length)) (h.x + Int.tdiv h.w 2)
             (h.y + Int.tdiv h.h 2)]) := by
  have hpl := generate_multiscreen_hints_placed MAX_HINTS chars hint_size screens gr hgen
  have hok := (generate_multiscreen_hints_ok MAX_HINTS chars hint_size screens).1 gr hgen
  obtain ⟨hcap, hscr⟩ := generate_multiscreen_hints_screen MAX_HINTS chars hint_size screens gr hgen
  have hrec : ∀ n, n < gr.hints.length →
      gr.hint_screen_x.getD n 0 = n / (chars.length * chars.length) := by
    intro n hn
    simp [List.getD, (hpl n hn).2]
  constructor
  · intro n hn
    refine ⟨(hpl n hn).2, ?_⟩
    rw [← hrec n hn]
    exact hscr n hn
  · intro hone hw hk
    obtain ⟨g1, j, e1, e2, e3, e4, e5⟩ := hint_selection_multiscreen_resolution_at MAX_HINTS
      screens.length gr.hint_screen_x gr.hints g evs rest ev l buf h hone hcap hscr hw hk
    have hj : j < gr.hints.length := by
      rcases Nat.lt_or_ge j gr.hints.length with hlt | hge
      · exact hlt
      · rw [List.getElem?_eq_none hge] at e4; simp at e4
    rw [hrec j hj] at e5
    refine ⟨g1, j, e1, e2, e3, e4, ?_, e5⟩
    rw [← hrec j hj]
    exact hscr j hj

/-- C18 on the alphabet `ab` and two screens: the keys `b`, `a`, `a` resolve
to the hint `baa`, which has index 4 in the hint set (and position 0 in the
matched set); the pointer moves go to surface 4 / 4 = 1. -/
theorem C18_witness :
    ∃ g1 j, hint_selection_multiscreen 2048
        [((1920 : Int), (1080 : Int)), (1080, 1920)].length grid_ab2.hint_screen_x
        grid_ab2.hints globals0 ([press 'b', press 'a'] ++ press 'a' :: []) =
        Outcome.returned 0 g1 ∧
      g1.matched = [{ x := 222, y := 453, w := 96, h := 54, label := bytes "baa" }] ∧
      g1.matched_indices = [j] ∧
      grid_ab2.hints[j]? = some { x := 222, y := 453, w := 96, h := 54, label := bytes "baa" } ∧
      j / ((bytes "ab").length * (bytes "ab").length) <
        [((1920 : Int), (1080 : Int)), (1080, 1920)].length ∧
      mouse_moves g1.calls = mouse_moves globals0.calls ++
        [Call.mouse_move (j / ((bytes "ab").length * (bytes "ab").length)) 271 481,
         Call.mouse_move (j / ((bytes "ab").length * (bytes "ab").length)) 270 480] :=
  (C18_moves_go_to_recorded_surface 2048 (bytes "ab") 50 [(1920, 1080), (1080, 1920)]
    grid_ab2 globals0 [press 'b', press 'a'] [] (press 'a')
    (Outcome.state (hint_selection_multiscreen 2048 2 grid_ab2.hint_screen_x grid_ab2.hints
      globals0 [press 'b', press 'a']) (Loop.mk globals0 []))
    (98 :: 97 :: 97 :: List.replicate 29 0)
    { x := 222, y := 453, w := 96, h := 54, label := bytes "baa" } (by decide)).2
    (by decide) (by decide) (by decide)

end Warpd
